import Mathlib

/-! # Fleet-monitor ingestion core: embedding and verified properties

A shallow embedding of the ingestion service

* `internal/domain/telemetry.go`   messages, alert types and the default rules
* `internal/store/redis.go`        live-store adapter
* `internal/store/timescale.go`    time-series adapter
* `internal/metrics/metrics.go`    process-wide counters
* `internal/auth/authenticator.go` credential validator
* `internal/pipeline/*.go`         dispatcher, bulk writer, state writer, alert evaluator

Stateful code is written in state-passing style.  The two external servers are
modelled by the part of their state the adapters can observe, together with a
ghost log of the adapter calls made so far.  Transport failures and the
passing of time are chosen by the environment.
-/

namespace FleetIngestion

/-! ## Time, contexts, errors, numbers -/

/-- Instants, in nanoseconds on the process clock. -/
abbrev Time := Int

/-- Go `time.Duration`: a signed number of nanoseconds. -/
abbrev Duration := Int

def Millisecond : Duration := 1000000
def Second : Duration := 1000000000
def Minute : Duration := 60 * Second

/-- Go `error` values are represented by their message; `none` is `nil`. -/
abbrev Error := String

/-- Two's-complement reduction of an integer to the `int64` range. -/
def wrapInt64 (x : Int) : Int := (x + 2 ^ 63) % 2 ^ 64 - 2 ^ 63

/-- The contexts handed to store calls: `context.Background()` or a
cancellable context together with its cancellation status at the call. -/
inductive Context where
  | Background
  | WithCancel (cancelled : Bool)
deriving DecidableEq, Repr

/-- The context after its cancellation has been signalled. -/
def Context.cancel : Context → Context
  | .Background => .Background
  | .WithCancel _ => .WithCancel true

/-- Go `float64` values: the finite ones are rationals, the rest are the two
infinities and NaN. -/
inductive Float64 where
  | fin (q : ℚ)
  | posInf
  | negInf
  | nan
deriving DecidableEq

/-- IEEE comparison `a < b` (false as soon as one side is NaN). -/
def Float64.lt : Float64 → Float64 → Bool
  | .fin a, .fin b => decide (a < b)
  | .fin _, .posInf => true
  | .negInf, .fin _ => true
  | .negInf, .posInf => true
  | _, _ => false

/-- IEEE comparison `a > b`. -/
def Float64.gt (a b : Float64) : Bool := Float64.lt b a

def Float64.isFinite : Float64 → Bool
  | .fin _ => true
  | _ => false

/-! ## internal/domain/telemetry.go -/

structure TelemetryMessage where
  ReceivedAt : Time
  Timestamp : Time
  VehicleID : String
  FleetID : String
  Latitude : Float64
  Longitude : Float64
  SpeedKmh : Float64
  FuelPct : Float64
  EngineTempC : Float64
  BatteryVoltage : Float64
  OdometerKm : Float64
  IsMoving : Bool
  EngineOn : Bool
  RawPayload : String
deriving DecidableEq

/-- Go `type AlertType string`. -/
abbrev AlertType := String

def AlertSpeeding : AlertType := "SPEEDING"
def AlertLowFuel : AlertType := "LOW_FUEL"
def AlertEngineOverheat : AlertType := "ENGINE_OVERHEAT"

/-- Go `type AlertSeverity string`. -/
abbrev AlertSeverity := String

def SeverityInfo : AlertSeverity := "INFO"
def SeverityWarning : AlertSeverity := "WARNING"
def SeverityCritical : AlertSeverity := "CRITICAL"

structure AlertRule where
  /-- field `Type` of the source (a reserved word here) -/
  Typ : AlertType
  Severity : AlertSeverity
  Evaluator : TelemetryMessage → Bool

def DefaultAlertRules : List AlertRule :=
  [ { Typ := AlertSpeeding, Severity := SeverityWarning,
      Evaluator := fun m => m.SpeedKmh.gt (.fin 100) },
    { Typ := AlertLowFuel, Severity := SeverityWarning,
      Evaluator := fun m => m.FuelPct.lt (.fin 10) },
    { Typ := AlertEngineOverheat, Severity := SeverityCritical,
      Evaluator := fun m => m.EngineTempC.gt (.fin 100) } ]

/-! ## JSON payloads -/

/-- The values placed in `map[string]interface{}` literals by the adapters. -/
inductive Value where
  | str (s : String)
  | num (x : Float64)
  | bool (b : Bool)
  | int (i : Int)
deriving DecidableEq

/-- A marshalled JSON object, represented by the object it encodes. -/
abbrev Payload := List (String × Value)

def Value.marshalable : Value → Bool
  | .num x => x.isFinite
  | _ => true

/-- Go `json.Marshal` on a map: fails on a NaN or infinite number. -/
def jsonMarshal (obj : List (String × Value)) : Except Error Payload :=
  if obj.all (fun kv => kv.2.marshalable) then .ok obj
  else .error "json: unsupported value"

/-- Go `time.Time.Unix`: whole seconds since the epoch. -/
def unix (t : Time) : Int := t / Second

/-! ## internal/store/redis.go -/

inductive RedisValue where
  | str (s : String)
  | hash (fields : List (String × Value))
  | geo (members : List (String × Float64 × Float64))
deriving DecidableEq

structure RedisEntry where
  value : RedisValue
  /-- absolute expiry deadline; `none` for a persistent key -/
  expireAt : Option Time
deriving DecidableEq

/-- The adapter methods, as recorded in the ghost call log. -/
inductive RedisCall where
  | PipelineStateUpdate (ctx : Context) (msg : TelemetryMessage)
  | GetAPIKey (ctx : Context) (apiKey : String)
  | CheckAlertDedup (ctx : Context) (vehicleID : String) (alertType : AlertType)
  | SetAlertDedup (ctx : Context) (vehicleID : String) (alertType : AlertType)
  | PublishAlert (ctx : Context) (fleetID : String) (payload : Option Payload)
deriving DecidableEq

/-- The live store seen through `RedisStore`: keyspace, messages published so
far (channel, payload), and the ghost log of adapter calls. -/
structure RedisStore where
  keys : String → Option RedisEntry
  published : List (String × Option Payload)
  calls : List RedisCall

/-- The value of a key at time `now`: a key whose deadline has been reached
is gone. -/
def RedisStore.live (r : RedisStore) (now : Time) (key : String) : Option RedisEntry :=
  match r.keys key with
  | none => none
  | some e =>
    match e.expireAt with
    | none => some e
    | some t => if now < t then some e else none

def RedisStore.put (r : RedisStore) (key : String) (e : RedisEntry) : RedisStore :=
  { r with keys := fun k => if k = key then some e else r.keys k }

def RedisStore.logCall (r : RedisStore) (c : RedisCall) : RedisStore :=
  { r with calls := r.calls ++ [c] }

/-- Errors of a single command: the `redis.Nil` reply or anything else. -/
inductive RedisErr where
  | Nil
  | Other (msg : Error)
deriving DecidableEq

/-- Command `GET key`. -/
def RedisStore.cmdGet (r : RedisStore) (now : Time) (key : String) : Except RedisErr String :=
  match r.live now key with
  | none => .error .Nil
  | some e =>
    match e.value with
    | .str s => .ok s
    | _ => .error (.Other "WRONGTYPE")

/-- Command `EXISTS key`. -/
def RedisStore.cmdExists (r : RedisStore) (now : Time) (key : String) : Int :=
  match r.live now key with
  | none => 0
  | some _ => 1

/-- Command `SET key value EX ttl`. -/
def RedisStore.cmdSet (r : RedisStore) (now : Time) (key value : String) (ttl : Duration) :
    RedisStore :=
  r.put key { value := .str value, expireAt := some (now + ttl) }

/-- Merge of new fields into a hash: new fields overwrite, the others stay. -/
def hashMerge (old new : List (String × Value)) : List (String × Value) :=
  new ++ old.filter (fun kv => !(new.map Prod.fst).contains kv.1)

/-- Command `HSET key field value ...`. -/
def RedisStore.cmdHSet (r : RedisStore) (now : Time) (key : String)
    (fields : List (String × Value)) : Option Error × RedisStore :=
  match r.live now key with
  | none => (none, r.put key { value := .hash fields, expireAt := none })
  | some e =>
    match e.value with
    | .hash old => (none, r.put key { e with value := .hash (hashMerge old fields) })
    | _ => (some "WRONGTYPE", r)

/-- Command `EXPIRE key ttl`. -/
def RedisStore.cmdExpire (r : RedisStore) (now : Time) (key : String) (ttl : Duration) :
    RedisStore :=
  match r.live now key with
  | none => r
  | some e => r.put key { e with expireAt := some (now + ttl) }

/-- The largest latitude that `GEOADD` accepts, 85.05112878 degrees. -/
def geoLatMax : ℚ := mkRat 8505112878 100000000

/-- The coordinates that `GEOADD` accepts: a finite longitude in
[-180, 180] and a finite latitude in [-85.05112878, 85.05112878]. -/
def geoValid : Float64 → Float64 → Bool
  | .fin lng, .fin lat =>
    decide (-180 ≤ lng ∧ lng ≤ 180 ∧ -geoLatMax ≤ lat ∧ lat ≤ geoLatMax)
  | _, _ => false

/-- Command `GEOADD key lng lat member`.  The server checks the coordinates
while it reads the arguments, before it looks at the key, and refuses the
command when they are out of range. -/
def RedisStore.cmdGeoAdd (r : RedisStore) (now : Time) (key : String)
    (name : String) (lng lat : Float64) : Option Error × RedisStore :=
  if geoValid lng lat = false then (some "ERR invalid longitude,latitude pair", r)
  else
    match r.live now key with
    | none => (none, r.put key { value := .geo [(name, lng, lat)], expireAt := none })
    | some e =>
      match e.value with
      | .geo ms =>
        (none, r.put key
          { e with value := .geo ((name, lng, lat) :: ms.filter (fun m => m.1 != name)) })
      | _ => (some "WRONGTYPE", r)

/-- Command `PUBLISH channel payload`. -/
def RedisStore.cmdPublish (r : RedisStore) (channel : String) (payload : Option Payload) :
    RedisStore :=
  { r with published := r.published ++ [(channel, payload)] }

def stateData (msg : TelemetryMessage) : List (String × Value) :=
  [ ("vehicle_id", .str msg.VehicleID),
    ("fleet_id", .str msg.FleetID),
    ("lat", .num msg.Latitude),
    ("lng", .num msg.Longitude),
    ("speed_kmh", .num msg.SpeedKmh),
    ("fuel_pct", .num msg.FuelPct),
    ("engine_temp", .num msg.EngineTempC),
    ("battery", .num msg.BatteryVoltage),
    ("is_moving", .bool msg.IsMoving),
    ("engine_on", .bool msg.EngineOn),
    ("timestamp", .int (unix msg.Timestamp)),
    ("received_at", .int (unix msg.ReceivedAt)) ]

def vehicleStateKey (vehicleID : String) : String := "vehicle:" ++ vehicleID ++ ":state"
def geoKey (fleetID : String) : String := "fleet:" ++ fleetID ++ ":geo"
def pubChannel (fleetID : String) : String := "fleet:" ++ fleetID ++ ":telemetry"
def apiKeyKey (apiKey : String) : String := "vehicle:auth:" ++ apiKey
def alertDedupKey (vehicleID : String) (alertType : AlertType) : String :=
  "alert:" ++ vehicleID ++ ":" ++ alertType
def alertChannel (fleetID : String) : String := "fleet:" ++ fleetID ++ ":alerts"

/-- The first error of two command replies, as `pipe.Exec` reports it. -/
def firstErr (a b : Option Error) : Option Error :=
  match a with
  | some e => some e
  | none => b

/-- Method `RedisStore.PipelineStateUpdate`.  `now` is the time at which the
server runs the pipeline; `fault` says that the transport fails, in which case
nothing reaches the server. -/
def RedisStore.PipelineStateUpdate (r : RedisStore) (now : Time) (fault : Bool)
    (ctx : Context) (msg : TelemetryMessage) : Option Error × RedisStore :=
  let r := r.logCall (.PipelineStateUpdate ctx msg)
  match jsonMarshal (stateData msg) with
  | .error e => (some ("failed to marshal state: " ++ e), r)
  | .ok pubPayload =>
    if fault then (some "redis pipeline failed: transport", r)
    else
      let hset := r.cmdHSet now (vehicleStateKey msg.VehicleID) (stateData msg)
      let r2 := hset.2.cmdExpire now (vehicleStateKey msg.VehicleID) (30 * Second)
      let geo := r2.cmdGeoAdd now (geoKey msg.FleetID) msg.VehicleID msg.Longitude
        msg.Latitude
      let r4 := geo.2.cmdPublish (pubChannel msg.FleetID) (some pubPayload)
      match firstErr hset.1 geo.1 with
      | some e => (some ("redis pipeline failed: " ++ e), r4)
      | none => (none, r4)

/-- Method `RedisStore.GetAPIKey`. -/
def RedisStore.GetAPIKey (r : RedisStore) (now : Time) (fault : Bool)
    (ctx : Context) (apiKey : String) : (String × Option Error) × RedisStore :=
  let r := r.logCall (.GetAPIKey ctx apiKey)
  if fault then (("", some "redis get api key failed: transport"), r)
  else
    match r.cmdGet now (apiKeyKey apiKey) with
    | .error .Nil => (("", none), r)
    | .error (.Other e) => (("", some ("redis get api key failed: " ++ e)), r)
    | .ok val => ((val, none), r)

/-- Method `RedisStore.CheckAlertDedup`. -/
def RedisStore.CheckAlertDedup (r : RedisStore) (now : Time) (fault : Bool)
    (ctx : Context) (vehicleID : String) (alertType : AlertType) :
    (Bool × Option Error) × RedisStore :=
  let r := r.logCall (.CheckAlertDedup ctx vehicleID alertType)
  if fault then ((false, some "dedup check failed: transport"), r)
  else ((decide (r.cmdExists now (alertDedupKey vehicleID alertType) > 0), none), r)

/-- Method `RedisStore.SetAlertDedup`. -/
def RedisStore.SetAlertDedup (r : RedisStore) (now : Time) (fault : Bool)
    (ctx : Context) (vehicleID : String) (alertType : AlertType) :
    Option Error × RedisStore :=
  let r := r.logCall (.SetAlertDedup ctx vehicleID alertType)
  if fault then (some "transport", r)
  else (none, r.cmdSet now (alertDedupKey vehicleID alertType) "1" (5 * Minute))

/-- Method `RedisStore.PublishAlert`. -/
def RedisStore.PublishAlert (r : RedisStore) (fault : Bool)
    (ctx : Context) (fleetID : String) (payload : Option Payload) :
    Option Error × RedisStore :=
  let r := r.logCall (.PublishAlert ctx fleetID payload)
  if fault then (some "transport", r)
  else (none, r.cmdPublish (alertChannel fleetID) payload)

/-! ## internal/config/config.go (the fields the core reads) -/

structure Config where
  DBChannelSize : Int
  StateChannelSize : Int
  AlertChannelSize : Int
  DBBatchSize : Int
  DBFlushIntervalMS : Int
  AuthCacheTTLSeconds : Int
  ValidAPIKeys : List String

/-! ## internal/auth/authenticator.go -/

structure cacheEntry where
  vehicleID : String
  expiresAt : Time
deriving DecidableEq

/-- The validator.  `localCache` is the content of the `sync.Map`; the live
store is passed to `Validate` explicitly. -/
structure Authenticator where
  localCache : String → Option cacheEntry
  ttl : Duration
  staticKeys : List String

def NewAuthenticator (cfg : Config) : Authenticator :=
  { localCache := fun _ => none
    ttl := wrapInt64 (cfg.AuthCacheTTLSeconds * Second)
    staticKeys := cfg.ValidAPIKeys.filter (fun k => k != "") }

/-- What the environment decides during one `Validate` call: the clock at the
cache check, at the live-store command and at the cache store, and whether the
transport fails. -/
structure ValidateEnv where
  nowLoad : Time
  nowGet : Time
  nowStore : Time
  fault : Bool

/-- Ghost trace of the effects of one `Validate` call. -/
inductive AuthEffect where
  | Delete (apiKey : String)
  | Lookup (apiKey : String) (vehicleID : String) (err : Option Error)
  | Store (apiKey : String) (entry : cacheEntry)
deriving DecidableEq

structure ValidateResult where
  ok : Bool
  auth : Authenticator
  redis : RedisStore
  effects : List AuthEffect

def Authenticator.cacheDelete (a : Authenticator) (apiKey : String) : Authenticator :=
  { a with localCache := fun k => if k = apiKey then none else a.localCache k }

def Authenticator.cacheStore (a : Authenticator) (apiKey : String) (e : cacheEntry) :
    Authenticator :=
  { a with localCache := fun k => if k = apiKey then some e else a.localCache k }

/-- Level 2 of `Validate`: the live-store lookup and the cache population. -/
def Authenticator.lookup (a : Authenticator) (redis : RedisStore) (env : ValidateEnv)
    (ctx : Context) (apiKey : String) (pre : List AuthEffect) : ValidateResult :=
  let ((vehicleID, err), redis) := redis.GetAPIKey env.nowGet env.fault ctx apiKey
  let effects := pre ++ [.Lookup apiKey vehicleID err]
  if err.isSome || vehicleID == "" then
    { ok := false, auth := a, redis := redis, effects := effects }
  else
    let entry : cacheEntry := { vehicleID := vehicleID, expiresAt := env.nowStore + a.ttl }
    { ok := true, auth := a.cacheStore apiKey entry, redis := redis,
      effects := effects ++ [.Store apiKey entry] }

/-- Method `Authenticator.Validate`. -/
def Authenticator.Validate (a : Authenticator) (redis : RedisStore) (env : ValidateEnv)
    (ctx : Context) (apiKey : String) : ValidateResult :=
  if a.staticKeys.contains apiKey then
    { ok := true, auth := a, redis := redis, effects := [] }
  else
    match a.localCache apiKey with
    | some entry =>
      if env.nowLoad < entry.expiresAt then
        { ok := true, auth := a, redis := redis, effects := [] }
      else
        (a.cacheDelete apiKey).lookup redis env ctx apiKey [.Delete apiKey]
    | none => a.lookup redis env ctx apiKey []

/-- One call in a sequence of validations: the key, the context, the live
store as it is during the call, and the environment choices. -/
structure ValidateCall where
  apiKey : String
  ctx : Context
  redis : RedisStore
  env : ValidateEnv

def Authenticator.call (a : Authenticator) (c : ValidateCall) : ValidateResult :=
  a.Validate c.redis c.env c.ctx c.apiKey

/-- The validator after a sequence of calls. -/
def Authenticator.after (a : Authenticator) (cs : List ValidateCall) : Authenticator :=
  cs.foldl (fun a c => (a.call c).auth) a

/-! ## internal/store/timescale.go -/

/-- One row of `vehicle_telemetry`, in the column order of `telemetryColumns`. -/
structure TelemetryRow where
  timestamp : Time
  vehicle_id : String
  fleet_id : String
  latitude : Float64
  longitude : Float64
  speed_kmh : Float64
  fuel_pct : Float64
  engine_temp_celsius : Float64
  battery_voltage : Float64
  odometer_km : Float64
  is_moving : Bool
  engine_on : Bool
  raw_payload : String
deriving DecidableEq

/-- One row of `vehicle_alerts` (the columns the adapter writes). -/
structure AlertRow where
  vehicle_id : String
  fleet_id : String
  alert_type : String
  severity : String
  triggered_value : Float64
  created_at : Time
deriving DecidableEq

inductive DBCall where
  | BatchInsert (ctx : Context) (msgs : List TelemetryMessage)
  | InsertAlert (ctx : Context) (vehicleID fleetID : String) (alertType : AlertType)
      (severity : AlertSeverity) (triggerValue : Float64)
deriving DecidableEq

/-- The time-series store seen through `TimescaleStore`: the two tables in
insertion order and the ghost log of adapter calls. -/
structure TimescaleStore where
  vehicle_telemetry : List TelemetryRow
  vehicle_alerts : List AlertRow
  calls : List DBCall
deriving DecidableEq

def telemetryRow (m : TelemetryMessage) : TelemetryRow :=
  { timestamp := m.Timestamp, vehicle_id := m.VehicleID, fleet_id := m.FleetID,
    latitude := m.Latitude, longitude := m.Longitude, speed_kmh := m.SpeedKmh,
    fuel_pct := m.FuelPct, engine_temp_celsius := m.EngineTempC,
    battery_voltage := m.BatteryVoltage, odometer_km := m.OdometerKm,
    is_moving := m.IsMoving, engine_on := m.EngineOn, raw_payload := m.RawPayload }

/-- Method `TimescaleStore.BatchInsert`.  `fault` says that `CopyFrom` fails,
in which case no row is stored. -/
def TimescaleStore.BatchInsert (s : TimescaleStore) (fault : Bool) (ctx : Context)
    (msgs : List TelemetryMessage) : Option Error × TimescaleStore :=
  let s := { s with calls := s.calls ++ [.BatchInsert ctx msgs] }
  if msgs.length == 0 then (none, s)
  else
    let rows := msgs.map telemetryRow
    if fault then (some "CopyFrom failed", s)
    else (none, { s with vehicle_telemetry := s.vehicle_telemetry ++ rows })

/-- Method `TimescaleStore.InsertAlert`.  The table has no unique constraint
besides its serial key, so `ON CONFLICT DO NOTHING` never suppresses a row;
`now` is the server time of the statement. -/
def TimescaleStore.InsertAlert (s : TimescaleStore) (now : Time) (fault : Bool)
    (ctx : Context) (vehicleID fleetID : String) (alertType : AlertType)
    (severity : AlertSeverity) (triggerValue : Float64) : Option Error × TimescaleStore :=
  let s := { s with calls := s.calls ++
    [.InsertAlert ctx vehicleID fleetID alertType severity triggerValue] }
  if fault then (some "exec failed", s)
  else
    (none, { s with vehicle_alerts := s.vehicle_alerts ++
      [{ vehicle_id := vehicleID, fleet_id := fleetID, alert_type := alertType,
         severity := severity, triggered_value := triggerValue, created_at := now }] })

/-! ## internal/metrics/metrics.go -/

/-- The process-wide `atomic.Int64` counters. -/
structure Metrics where
  MessagesReceived : Int
  DBWriteSuccess : Int
  DBWriteFailures : Int
  DBChannelDrops : Int
  StateChannelDrops : Int
  AlertChannelDrops : Int
deriving DecidableEq

/-- Method `atomic.Int64.Add`: addition in `int64`. -/
def atomicAdd (counter delta : Int) : Int := wrapInt64 (counter + delta)

/-! ## The environment of the pipeline workers -/

/-- Everything outside a worker that its code reads or writes.  One clock
`now` serves the process, the live store and the time-series store. -/
structure World where
  now : Time
  redis : RedisStore
  db : TimescaleStore
  metrics : Metrics

/-- The choices of the environment.  `delay n` is the time that passes before
the store call number `n` of the run takes effect; `redisFault n c` and
`dbFault n c` say whether call `c`, issued as the call number `n` on that
store, fails in transport. -/
structure Oracle where
  delay : Nat → Nat
  redisFault : Nat → RedisCall → Bool
  dbFault : Nat → DBCall → Bool

def World.callCount (w : World) : Nat := w.redis.calls.length + w.db.calls.length

/-- Time passes until the next store call takes effect. -/
def World.advance (w : World) (o : Oracle) : World :=
  { w with now := w.now + o.delay w.callCount }

/-- Go `time.Sleep`. -/
def World.sleep (w : World) (d : Duration) : World :=
  { w with now := w.now + d }

def World.BatchInsert (w : World) (o : Oracle) (ctx : Context)
    (msgs : List TelemetryMessage) : Option Error × World :=
  let w := w.advance o
  let fault := o.dbFault w.db.calls.length (.BatchInsert ctx msgs)
  let (err, db) := w.db.BatchInsert fault ctx msgs
  (err, { w with db := db })

def World.InsertAlert (w : World) (o : Oracle) (ctx : Context) (vehicleID fleetID : String)
    (alertType : AlertType) (severity : AlertSeverity) (triggerValue : Float64) :
    Option Error × World :=
  let w := w.advance o
  let fault := o.dbFault w.db.calls.length
    (.InsertAlert ctx vehicleID fleetID alertType severity triggerValue)
  let (err, db) := w.db.InsertAlert w.now fault ctx vehicleID fleetID alertType severity
    triggerValue
  (err, { w with db := db })

def World.PipelineStateUpdate (w : World) (o : Oracle) (ctx : Context)
    (msg : TelemetryMessage) : Option Error × World :=
  let w := w.advance o
  let fault := o.redisFault w.redis.calls.length (.PipelineStateUpdate ctx msg)
  let (err, redis) := w.redis.PipelineStateUpdate w.now fault ctx msg
  (err, { w with redis := redis })

def World.CheckAlertDedup (w : World) (o : Oracle) (ctx : Context) (vehicleID : String)
    (alertType : AlertType) : (Bool × Option Error) × World :=
  let w := w.advance o
  let fault := o.redisFault w.redis.calls.length (.CheckAlertDedup ctx vehicleID alertType)
  let (res, redis) := w.redis.CheckAlertDedup w.now fault ctx vehicleID alertType
  (res, { w with redis := redis })

def World.SetAlertDedup (w : World) (o : Oracle) (ctx : Context) (vehicleID : String)
    (alertType : AlertType) : Option Error × World :=
  let w := w.advance o
  let fault := o.redisFault w.redis.calls.length (.SetAlertDedup ctx vehicleID alertType)
  let (err, redis) := w.redis.SetAlertDedup w.now fault ctx vehicleID alertType
  (err, { w with redis := redis })

def World.PublishAlert (w : World) (o : Oracle) (ctx : Context) (fleetID : String)
    (payload : Option Payload) : Option Error × World :=
  let w := w.advance o
  let fault := o.redisFault w.redis.calls.length (.PublishAlert ctx fleetID payload)
  let (err, redis) := w.redis.PublishAlert fault ctx fleetID payload
  (err, { w with redis := redis })

/-! ## internal/pipeline/dispatcher.go -/

/-- A channel of messages: its buffer, oldest first, its capacity, and the
number of receivers that are parked in a receive on it.  On a channel that has
a buffer, a message handed directly to a parked receiver counts as buffered
and received at once (the receiver takes it from the buffer when it resumes).
A channel of capacity 0 has no buffer: a message passes only by such a
hand-off. -/
structure Chan where
  buf : List TelemetryMessage
  cap : Nat
  parked : Nat
deriving DecidableEq

/-- Go `make(chan T, size)`: panics (`none`) on a negative size. -/
def makeChan (size : Int) : Option Chan :=
  if size < 0 then none else some { buf := [], cap := size.toNat, parked := 0 }

/-- The send case of a `select` with a `default`: the message is buffered
when there is room; on a channel of capacity 0 it is handed to a parked
receiver when there is one; otherwise the default case runs (`none`). -/
def Chan.trySend (c : Chan) (msg : TelemetryMessage) : Option Chan :=
  if c.buf.length < c.cap then some { c with buf := c.buf ++ [msg] }
  else if c.cap = 0 ∧ 0 < c.parked then some { c with parked := c.parked - 1 }
  else none

structure Dispatcher where
  DBChan : Chan
  StateChan : Chan
  AlertChan : Chan
deriving DecidableEq

def NewDispatcher (dbSize stateSize alertSize : Int) : Option Dispatcher :=
  match makeChan dbSize, makeChan stateSize, makeChan alertSize with
  | some a, some b, some c => some { DBChan := a, StateChan := b, AlertChan := c }
  | _, _, _ => none

/-- The cases a writer's `select` can take: a message from the queue, the
queue found closed, a tick of the flush ticker, the shutdown signal. -/
inductive Event where
  | recv (msg : TelemetryMessage)
  | closed
  | tick
  | done
deriving DecidableEq

def Event.isRecv : Event → Bool
  | .recv _ => true
  | _ => false

/-- The local state of a writer's loop: the batch buffer and the world, with
the ghost count of messages taken from the queue and whether `Run` returned. -/
structure Loop where
  batch : List TelemetryMessage
  world : World
  taken : Nat
  stopped : Bool

structure DBWriter where
  batchSize : Int
  flushMS : Int

/-- Method `DBWriter.flush`. -/
def DBWriter.flush (_w : DBWriter) (o : Oracle) (world : World) (ctx : Context)
    (batch : List TelemetryMessage) : World :=
  let (err, world) := world.BatchInsert o ctx batch
  if err.isSome then
    let world := world.sleep (500 * Millisecond)
    let (err, world) := world.BatchInsert o ctx batch
    if err.isSome then
      { world with metrics := { world.metrics with
          DBWriteFailures := atomicAdd world.metrics.DBWriteFailures batch.length } }
    else
      { world with metrics := { world.metrics with
          DBWriteSuccess := atomicAdd world.metrics.DBWriteSuccess batch.length } }
  else
    { world with metrics := { world.metrics with
        DBWriteSuccess := atomicAdd world.metrics.DBWriteSuccess batch.length } }

/-- One iteration of the loop of `DBWriter.Run`, for the case taken by the
`select`. -/
def DBWriter.handle (w : DBWriter) (o : Oracle) (ctx : Context) (s : Loop) (e : Event) :
    Loop :=
  match e with
  | .closed =>
    if s.batch.length > 0 then
      { s with world := w.flush o s.world ctx s.batch, stopped := true }
    else { s with stopped := true }
  | .recv msg =>
    let batch := s.batch ++ [msg]
    if (batch.length : Int) ≥ w.batchSize then
      { s with batch := [], world := w.flush o s.world ctx batch, taken := s.taken + 1 }
    else { s with batch := batch, taken := s.taken + 1 }
  | .tick =>
    if s.batch.length > 0 then
      { s with batch := [], world := w.flush o s.world ctx s.batch }
    else s
  | .done =>
    if s.batch.length > 0 then
      { s with world := w.flush o s.world ctx.cancel s.batch, stopped := true }
    else { s with stopped := true }

/-- The `for` loop of `DBWriter.Run` along a sequence of events; the events
left over when the loop returns come back untouched. -/
def DBWriter.loop (w : DBWriter) (o : Oracle) (ctx : Context) (s : Loop) :
    List Event → Loop × List Event
  | [] => (s, [])
  | e :: es =>
    let s := w.handle o ctx s e
    if s.stopped then (s, es) else w.loop o ctx s es

/-- Method `DBWriter.Run`: `make` panics on a negative capacity and
`time.NewTicker` on a non-positive interval (`none`). -/
def DBWriter.Run (w : DBWriter) (o : Oracle) (ctx : Context) (world : World)
    (events : List Event) : Option (Loop × List Event) :=
  if w.batchSize < 0 then none
  else if wrapInt64 (w.flushMS * Millisecond) ≤ 0 then none
  else some (w.loop o ctx { batch := [], world := world, taken := 0, stopped := false } events)

structure StateWriter where

/-- Method `StateWriter.flushBatch`. -/
def StateWriter.flushBatch (_w : StateWriter) (o : Oracle) (world : World) (ctx : Context)
    (batch : List TelemetryMessage) : World :=
  batch.foldl (fun world msg => (world.PipelineStateUpdate o ctx msg).2) world

/-- One iteration of the loop of `StateWriter.Run`. -/
def StateWriter.handle (w : StateWriter) (o : Oracle) (ctx : Context) (s : Loop) (e : Event) :
    Loop :=
  match e with
  | .closed => { s with world := w.flushBatch o s.world ctx s.batch, stopped := true }
  | .recv msg =>
    let batch := s.batch ++ [msg]
    if batch.length ≥ 100 then
      { s with batch := [], world := w.flushBatch o s.world ctx batch, taken := s.taken + 1 }
    else { s with batch := batch, taken := s.taken + 1 }
  | .tick =>
    if s.batch.length > 0 then
      { s with batch := [], world := w.flushBatch o s.world ctx s.batch }
    else s
  | .done => { s with world := w.flushBatch o s.world ctx.cancel s.batch, stopped := true }

def StateWriter.loop (w : StateWriter) (o : Oracle) (ctx : Context) (s : Loop) :
    List Event → Loop × List Event
  | [] => (s, [])
  | e :: es =>
    let s := w.handle o ctx s e
    if s.stopped then (s, es) else w.loop o ctx s es

/-- Method `StateWriter.Run`. -/
def StateWriter.Run (w : StateWriter) (o : Oracle) (ctx : Context) (world : World)
    (events : List Event) : Loop × List Event :=
  w.loop o ctx { batch := [], world := world, taken := 0, stopped := false } events

/-! ## internal/pipeline/alert_evaluator.go -/

structure AlertEvaluator where
  rules : List AlertRule

def NewAlertEvaluator : AlertEvaluator := { rules := DefaultAlertRules }

/-- Method `AlertEvaluator.getTriggerValue`. -/
def AlertEvaluator.getTriggerValue (_e : AlertEvaluator) (msg : TelemetryMessage)
    (t : AlertType) : Float64 :=
  if t = AlertSpeeding then msg.SpeedKmh
  else if t = AlertLowFuel then msg.FuelPct
  else if t = AlertEngineOverheat then msg.EngineTempC
  else .fin 0

def alertPayload (msg : TelemetryMessage) (rule : AlertRule) (triggerValue : Float64)
    (now : Time) : List (String × Value) :=
  [ ("vehicle_id", .str msg.VehicleID),
    ("fleet_id", .str msg.FleetID),
    ("alert_type", .str rule.Typ),
    ("severity", .str rule.Severity),
    ("value", .num triggerValue),
    ("triggered_at", .int (unix now)) ]

/-- The body of the loop over the rules in `AlertEvaluator.evaluate`. -/
def AlertEvaluator.evalRule (e : AlertEvaluator) (o : Oracle) (ctx : Context)
    (msg : TelemetryMessage) (w : World) (rule : AlertRule) : World :=
  if !rule.Evaluator msg then w
  else
    let ((isDuplicate, err), w) := w.CheckAlertDedup o ctx msg.VehicleID rule.Typ
    if err.isSome then w
    else if isDuplicate then w
    else
      let triggerValue := e.getTriggerValue msg rule.Typ
      let (err, w) := w.InsertAlert o ctx msg.VehicleID msg.FleetID rule.Typ rule.Severity
        triggerValue
      if err.isSome then w
      else
        let (_, w) := w.SetAlertDedup o ctx msg.VehicleID rule.Typ
        let payload := (jsonMarshal (alertPayload msg rule triggerValue w.now)).toOption
        (w.PublishAlert o ctx msg.FleetID payload).2

/-- Method `AlertEvaluator.evaluate`. -/
def AlertEvaluator.evaluate (e : AlertEvaluator) (o : Oracle) (ctx : Context) (w : World)
    (msg : TelemetryMessage) : World :=
  e.rules.foldl (e.evalRule o ctx msg) w

/-- The cases the evaluator's `select` can take. -/
inductive AlertEvent where
  | recv (msg : TelemetryMessage)
  | closed
  | done
deriving DecidableEq

/-- Method `AlertEvaluator.Run` along a sequence of events: the final world
and the events left over when it returns. -/
def AlertEvaluator.Run (e : AlertEvaluator) (o : Oracle) (w : World) :
    List AlertEvent → World × List AlertEvent
  | [] => (w, [])
  | .recv msg :: es => e.Run o (e.evaluate o .Background w msg) es
  | .closed :: es => (w, es)
  | .done :: es => (w, es)

/-- The alert rows of one vehicle and type. -/
def alertsFor (rows : List AlertRow) (vehicleID : String) (alertType : AlertType) :
    List AlertRow :=
  rows.filter (fun r => r.vehicle_id = vehicleID ∧ r.alert_type = alertType)

/-- The alert rows of one vehicle and type created in the window of five
minutes that starts at `t0`. -/
def alertsInWindow (rows : List AlertRow) (vehicleID : String) (alertType : AlertType)
    (t0 : Time) : List AlertRow :=
  (alertsFor rows vehicleID alertType).filter
    (fun r => t0 ≤ r.created_at ∧ r.created_at < t0 + 5 * Minute)

/-! ## Specification vocabulary -/

/-- The rows a run has appended to the alert table of the initial world. -/
def insertedAlerts (w0 w : World) : List AlertRow :=
  w.db.vehicle_alerts.drop w0.db.vehicle_alerts.length

/-- The invariant behind the dedup window, for the rows `new` inserted so far
for one vehicle and type: two of them are at least five minutes apart, none
lies in the future, and until five minutes after a row the dedup key is live. -/
def DedupInv (vehicleID : String) (alertType : AlertType) (w : World) (new : List AlertRow) :
    Prop :=
  (alertsFor new vehicleID alertType).Pairwise
    (fun a b => a.created_at + 5 * Minute ≤ b.created_at) ∧
  ∀ r ∈ alertsFor new vehicleID alertType, r.created_at ≤ w.now ∧
    ∀ t, w.now ≤ t → t < r.created_at + 5 * Minute →
      w.redis.live t (alertDedupKey vehicleID alertType) ≠ none

/-- The answer of the live store to the lookup of a call. -/
def ValidateCall.lookupResult (c : ValidateCall) : String × Option Error :=
  (c.redis.GetAPIKey c.env.nowGet c.env.fault c.ctx c.apiKey).1

/-- The call made a lookup, and the lookup returned a non-empty identity
without error. -/
def Authenticator.positiveLookup (a : Authenticator) (c : ValidateCall) : Prop :=
  (a.call c).redis.calls = c.redis.calls ++ [.GetAPIKey c.ctx c.apiKey] ∧
  c.lookupResult.2 = none ∧ c.lookupResult.1 ≠ ""

instance (a : Authenticator) (c : ValidateCall) : Decidable (a.positiveLookup c) := by
  unfold Authenticator.positiveLookup; infer_instance

/-- A counter value from which `n` more can be counted inside `int64`. -/
def counts (counter : Int) (n : Int) : Prop := 0 ≤ counter ∧ counter + n < 2 ^ 63

instance (counter n : Int) : Decidable (counts counter n) := by
  unfold counts; infer_instance

/-! ## Concrete scenarios -/

def zeroMetrics : Metrics := ⟨0, 0, 0, 0, 0, 0⟩

def emptyRedis : RedisStore := { keys := fun _ => none, published := [], calls := [] }

def emptyWorld : World :=
  { now := 0, redis := emptyRedis,
    db := { vehicle_telemetry := [], vehicle_alerts := [], calls := [] },
    metrics := zeroMetrics }

/-- A reading of vehicle `v1` of fleet `F` at 120 km/h. -/
def speedingMsg : TelemetryMessage :=
  { ReceivedAt := 0, Timestamp := 0, VehicleID := "v1", FleetID := "F",
    Latitude := .fin 0, Longitude := .fin 0, SpeedKmh := .fin 120, FuelPct := .fin 50,
    EngineTempC := .fin 80, BatteryVoltage := .fin 12, OdometerKm := .fin 1000,
    IsMoving := true, EngineOn := true, RawPayload := "" }

/-- An environment without failures and delays. -/
def calmOracle : Oracle :=
  { delay := fun _ => 0, redisFault := fun _ _ => false, dbFault := fun _ _ => false }

/-- An environment in which every statement on the time-series store fails. -/
def dbDownOracle : Oracle :=
  { delay := fun _ => 0, redisFault := fun _ _ => false, dbFault := fun _ _ => true }

/-- An environment in which setting a dedup mark always fails. -/
def setDownOracle : Oracle :=
  { delay := fun _ => 0,
    redisFault := fun _ c =>
      match c with
      | .SetAlertDedup _ _ _ => true
      | _ => false,
    dbFault := fun _ _ => false }

/-- An environment without failures in which thirty seconds pass before the
fifth store call of the run. -/
def thirtySecondsOracle : Oracle :=
  { delay := fun n => if n = 4 then 30000000000 else 0,
    redisFault := fun _ _ => false, dbFault := fun _ _ => false }

/-- A live store that maps `vehicle:auth:K` to the identity `veh-7`. -/
def seededRedis : RedisStore :=
  emptyRedis.put (apiKeyKey "K") { value := .str "veh-7", expireAt := none }

/-- The default configuration: `VALID_API_KEYS` unset splits into one empty
string. -/
def scenarioConfig : Config :=
  { DBChannelSize := 10000, StateChannelSize := 50000, AlertChannelSize := 10000,
    DBBatchSize := 500, DBFlushIntervalMS := 100, AuthCacheTTLSeconds := 300,
    ValidAPIKeys := [""] }

def staticConfig : Config := { scenarioConfig with ValidAPIKeys := ["k1", "k2"] }

/-- A call for key `K` at time `t` against the given store. -/
def callAt (redis : RedisStore) (t : Time) (fault : Bool) : ValidateCall :=
  { apiKey := "K", ctx := .WithCancel false, redis := redis,
    env := { nowLoad := t, nowGet := t, nowStore := t, fault := fault } }

/-- The loop state of a writer that has just started. -/
def freshLoop : Loop := { batch := [], world := emptyWorld, taken := 0, stopped := false }

/-! ## Specification vocabulary for the alert rules and the call logs -/

/-- The columns of an alert row that come from the evaluator (all but the
creation time). -/
def AlertRow.content (r : AlertRow) : String × String × AlertType × AlertSeverity × Float64 :=
  (r.vehicle_id, r.fleet_id, r.alert_type, r.severity, r.triggered_value)

/-- A call of the live-store adapter without the payload it carries. -/
def RedisCall.shape : RedisCall → RedisCall
  | .PublishAlert ctx fleetID _ => .PublishAlert ctx fleetID none
  | c => c

/-- The alerts (type, severity, trigger value) of the rules of a list that fire
on a message, in rule order. -/
def firedAlerts (e : AlertEvaluator) (msg : TelemetryMessage) (rules : List AlertRule) :
    List (AlertType × AlertSeverity × Float64) :=
  (rules.filter (fun r => r.Evaluator msg)).map
    (fun r => (r.Typ, r.Severity, e.getTriggerValue msg r.Typ))

/-- The alerts the specification lists for a message: SPEEDING/WARNING when
speed > 100, LOW_FUEL/WARNING when fuel < 10, ENGINE_OVERHEAT/CRITICAL when
engine temperature > 100, each with that reading as trigger value. -/
def specAlerts (msg : TelemetryMessage) : List (AlertType × AlertSeverity × Float64) :=
  (if msg.SpeedKmh.gt (.fin 100) then [("SPEEDING", "WARNING", msg.SpeedKmh)] else []) ++
  (if msg.FuelPct.lt (.fin 10) then [("LOW_FUEL", "WARNING", msg.FuelPct)] else []) ++
  (if msg.EngineTempC.gt (.fin 100) then [("ENGINE_OVERHEAT", "CRITICAL", msg.EngineTempC)]
    else [])

/-- The world `w2` differs from `w1` by the emission of the alerts `as` for the
message: one row and one insert per alert, for each alert the calls check, set
and publish in this order, one publication on the alert channel of the fleet,
and the dedup mark of the alert set for five minutes; no other key changes. -/
structure Emits (ctx : Context) (msg : TelemetryMessage) (w1 w2 : World)
    (as : List (AlertType × AlertSeverity × Float64)) : Prop where
  rows : ∃ rows, w2.db.vehicle_alerts = w1.db.vehicle_alerts ++ rows ∧
    rows.map AlertRow.content =
      as.map (fun a => (msg.VehicleID, msg.FleetID, a.1, a.2.1, a.2.2))
  inserts : w2.db.calls = w1.db.calls ++
    as.map (fun a => DBCall.InsertAlert ctx msg.VehicleID msg.FleetID a.1 a.2.1 a.2.2)
  calls : ∃ calls, w2.redis.calls = w1.redis.calls ++ calls ∧
    calls.map RedisCall.shape = as.flatMap (fun a =>
      [ RedisCall.CheckAlertDedup ctx msg.VehicleID a.1,
        RedisCall.SetAlertDedup ctx msg.VehicleID a.1,
        RedisCall.PublishAlert ctx msg.FleetID none ])
  pubs : ∃ pubs, w2.redis.published = w1.redis.published ++ pubs ∧
    pubs.map Prod.fst = as.map (fun _ => alertChannel msg.FleetID)
  later : w1.now ≤ w2.now
  marks : ∀ a ∈ as, ∃ t, w1.now ≤ t ∧ t ≤ w2.now ∧
    w2.redis.keys (alertDedupKey msg.VehicleID a.1) =
      some { value := .str "1", expireAt := some (t + 5 * Minute) }
  frame : ∀ k, (∀ a ∈ as, k ≠ alertDedupKey msg.VehicleID a.1) →
    w2.redis.keys k = w1.redis.keys k

/-- The context an adapter call on the live store was made with. -/
def RedisCall.ctx : RedisCall → Context
  | .PipelineStateUpdate ctx _ => ctx
  | .GetAPIKey ctx _ => ctx
  | .CheckAlertDedup ctx _ _ => ctx
  | .SetAlertDedup ctx _ _ => ctx
  | .PublishAlert ctx _ _ => ctx

/-- The context an adapter call on the time-series store was made with. -/
def DBCall.ctx : DBCall → Context
  | .BatchInsert ctx _ => ctx
  | .InsertAlert ctx _ _ _ _ _ => ctx

/-! ## Further concrete scenarios -/

/-- A reading of vehicle `v1` with speed 150, fuel 5 and engine temperature 110. -/
def hotMsg : TelemetryMessage :=
  { speedingMsg with SpeedKmh := .fin 150, FuelPct := .fin 5, EngineTempC := .fin 110 }

/-- A reading of vehicle `v1` exactly at the three thresholds. -/
def boundaryMsg : TelemetryMessage :=
  { speedingMsg with SpeedKmh := .fin 100, FuelPct := .fin 10, EngineTempC := .fin 100 }

/-- An environment in which every call on the live store fails. -/
def redisDownOracle : Oracle :=
  { delay := fun _ => 0, redisFault := fun _ _ => true, dbFault := fun _ _ => false }

/-- The default SPEEDING rule. -/
def speedingRule : AlertRule :=
  { Typ := AlertSpeeding, Severity := SeverityWarning,
    Evaluator := fun m => m.SpeedKmh.gt (.fin 100) }

/-- A reading whose vehicle id is `auth`. -/
def authMsg : TelemetryMessage := { speedingMsg with VehicleID := "auth" }

/-- A live store that holds the credential of the API key `state`, without
expiry. -/
def stateKeyRedis : RedisStore :=
  emptyRedis.put (apiKeyKey "state") { value := .str "fleet_x", expireAt := none }

/-- The environment refuses every store call that is made with a context
which is already cancelled: the drivers of both stores check the context
before they send anything, and return its error. -/
def Oracle.honoursCancel (o : Oracle) : Prop :=
  (∀ n c, DBCall.ctx c = .WithCancel true → o.dbFault n c = true) ∧
  (∀ n c, RedisCall.ctx c = .WithCancel true → o.redisFault n c = true)

/-- An environment without delays in which a store call fails exactly when
its context is already cancelled. -/
def cancelOracle : Oracle :=
  { delay := fun _ => 0,
    redisFault := fun _ c => decide (c.ctx = .WithCancel true),
    dbFault := fun _ c => decide (c.ctx = .WithCancel true) }

/-- A reading of vehicle `v2`. -/
def secondMsg : TelemetryMessage := { speedingMsg with VehicleID := "v2", Timestamp := 1 }

/-! # Theorems -/

/-! ## Alert evaluator -/

theorem live_congr (r r' : RedisStore) (h : r'.keys = r.keys) (t : Time) (k : String) :
    r'.live t k = r.live t k := by
  simp [RedisStore.live, h]

theorem delay_nonneg (w : World) (o : Oracle) : w.now ≤ (w.advance o).now := by
  simp [World.advance]

theorem RedisStore_CheckAlertDedup_spec (r : RedisStore) (now : Time) (fault : Bool)
    (ctx : Context) (v : String) (t : AlertType) :
    (r.CheckAlertDedup now fault ctx v t).2.keys = r.keys ∧
    ((r.CheckAlertDedup now fault ctx v t).1.2 = none →
      (r.CheckAlertDedup now fault ctx v t).1.1 = false →
      r.live now (alertDedupKey v t) = none) := by
  have hl : (r.logCall (.CheckAlertDedup ctx v t)).live now (alertDedupKey v t) =
      r.live now (alertDedupKey v t) := live_congr _ _ rfl _ _
  unfold RedisStore.CheckAlertDedup
  simp only []
  split
  · simp [RedisStore.logCall]
  · refine ⟨by simp [RedisStore.logCall], ?_⟩
    intro _ h
    simp only [RedisStore.cmdExists, hl, decide_eq_false_iff_not] at h
    cases hx : r.live now (alertDedupKey v t) with
    | none => rfl
    | some e =>
      rw [hx] at h
      simp at h

/-- The dedup check: time passes, nothing is written, and the answer "no mark"
means that the key is not live at the time of the check. -/
theorem CheckAlertDedup_spec (w : World) (o : Oracle) (ctx : Context) (v : String)
    (t : AlertType) :
    w.now ≤ (w.CheckAlertDedup o ctx v t).2.now ∧
    (w.CheckAlertDedup o ctx v t).2.redis.keys = w.redis.keys ∧
    (w.CheckAlertDedup o ctx v t).2.db = w.db ∧
    ((w.CheckAlertDedup o ctx v t).1.2 = none → (w.CheckAlertDedup o ctx v t).1.1 = false →
      w.redis.live (w.CheckAlertDedup o ctx v t).2.now (alertDedupKey v t) = none) := by
  have h := RedisStore_CheckAlertDedup_spec (w.advance o).redis (w.advance o).now
    (o.redisFault (w.advance o).redis.calls.length (.CheckAlertDedup ctx v t)) ctx v t
  have hw : (w.advance o).redis = w.redis := by simp [World.advance]
  rw [hw] at h
  unfold World.CheckAlertDedup
  simp only [hw]
  exact ⟨delay_nonneg w o, h.1, by simp [World.advance], h.2⟩

/-- The alert insert: time passes, the live store is untouched, and on success
exactly one row stamped with the time of the statement is appended. -/
theorem InsertAlert_spec (w : World) (o : Oracle) (ctx : Context) (v f : String)
    (t : AlertType) (sev : AlertSeverity) (x : Float64) :
    w.now ≤ (w.InsertAlert o ctx v f t sev x).2.now ∧
    (w.InsertAlert o ctx v f t sev x).2.redis = w.redis ∧
    ((w.InsertAlert o ctx v f t sev x).1 = none →
      (w.InsertAlert o ctx v f t sev x).2.db.vehicle_alerts = w.db.vehicle_alerts ++
        [{ vehicle_id := v, fleet_id := f, alert_type := t, severity := sev,
           triggered_value := x, created_at := (w.InsertAlert o ctx v f t sev x).2.now }]) ∧
    ((w.InsertAlert o ctx v f t sev x).1 ≠ none →
      (w.InsertAlert o ctx v f t sev x).2.db.vehicle_alerts = w.db.vehicle_alerts) := by
  unfold World.InsertAlert TimescaleStore.InsertAlert
  simp only []
  split <;> simp [World.advance]

/-- Setting the dedup mark when the transport does not fail: the key holds a
mark that expires five minutes after the time of the command. -/
theorem SetAlertDedup_spec (w : World) (o : Oracle) (ctx : Context) (v : String)
    (t : AlertType) (hok : ∀ n c v t, o.redisFault n (.SetAlertDedup c v t) = false) :
    w.now ≤ (w.SetAlertDedup o ctx v t).2.now ∧
    (w.SetAlertDedup o ctx v t).2.db = w.db ∧
    (w.SetAlertDedup o ctx v t).2.redis.keys = (fun k =>
      if k = alertDedupKey v t then
        some ⟨.str "1", some ((w.SetAlertDedup o ctx v t).2.now + 5 * Minute)⟩
      else w.redis.keys k) := by
  unfold World.SetAlertDedup RedisStore.SetAlertDedup
  simp [hok, World.advance, RedisStore.cmdSet, RedisStore.put, RedisStore.logCall]

theorem PublishAlert_spec (w : World) (o : Oracle) (ctx : Context) (f : String)
    (p : Option Payload) :
    w.now ≤ (w.PublishAlert o ctx f p).2.now ∧
    (w.PublishAlert o ctx f p).2.db = w.db ∧
    (w.PublishAlert o ctx f p).2.redis.keys = w.redis.keys := by
  unfold World.PublishAlert RedisStore.PublishAlert
  simp only []
  split <;> simp [World.advance, RedisStore.cmdPublish, RedisStore.logCall]

/-- The two ways one rule can leave the world when no dedup set fails: nothing
is inserted and the keys are unchanged, or the mark was absent at the check,
one row is inserted and the mark is then set for five minutes. -/
theorem evalRule_cases (e : AlertEvaluator) (o : Oracle) (ctx : Context)
    (msg : TelemetryMessage) (w : World) (rule : AlertRule)
    (hok : ∀ n c v t, o.redisFault n (.SetAlertDedup c v t) = false) :
    w.now ≤ (e.evalRule o ctx msg w rule).now ∧
    (((e.evalRule o ctx msg w rule).db.vehicle_alerts = w.db.vehicle_alerts ∧
        (e.evalRule o ctx msg w rule).redis.keys = w.redis.keys) ∨
      ∃ t1 t2 t3 x, w.now ≤ t1 ∧ t1 ≤ t2 ∧ t2 ≤ t3 ∧
        t3 ≤ (e.evalRule o ctx msg w rule).now ∧
        w.redis.live t1 (alertDedupKey msg.VehicleID rule.Typ) = none ∧
        (e.evalRule o ctx msg w rule).db.vehicle_alerts = w.db.vehicle_alerts ++
          [{ vehicle_id := msg.VehicleID, fleet_id := msg.FleetID, alert_type := rule.Typ,
             severity := rule.Severity, triggered_value := x, created_at := t2 }] ∧
        (e.evalRule o ctx msg w rule).redis.keys = (fun k =>
          if k = alertDedupKey msg.VehicleID rule.Typ then
            some ⟨.str "1", some (t3 + 5 * Minute)⟩
          else w.redis.keys k)) := by
  unfold AlertEvaluator.evalRule
  by_cases hfire : rule.Evaluator msg = true
  swap
  · simp [hfire]
  simp only [hfire, Bool.not_true, Bool.false_eq_true, if_false]
  have hc := CheckAlertDedup_spec w o ctx msg.VehicleID rule.Typ
  rcases hcr : w.CheckAlertDedup o ctx msg.VehicleID rule.Typ with ⟨⟨dup, err⟩, w1⟩
  rw [hcr] at hc
  simp only [] at hc ⊢
  obtain ⟨hc1, hc2, hc3, hc4⟩ := hc
  cases err with
  | some er => simp [hc1, hc2, hc3]
  | none =>
    cases dup with
    | true => simp [hc1, hc2, hc3]
    | false =>
      simp only [Option.isSome_none, Bool.false_eq_true, if_false]
      have hi := InsertAlert_spec w1 o ctx msg.VehicleID msg.FleetID rule.Typ rule.Severity
        (e.getTriggerValue msg rule.Typ)
      rcases hir : w1.InsertAlert o ctx msg.VehicleID msg.FleetID rule.Typ rule.Severity
        (e.getTriggerValue msg rule.Typ) with ⟨ierr, w2⟩
      rw [hir] at hi
      simp only [] at hi ⊢
      obtain ⟨hi1, hi2, hi3, hi4⟩ := hi
      cases ierr with
      | some er =>
        simp only [Option.isSome_some, if_true]
        refine ⟨le_trans hc1 hi1, Or.inl ⟨?_, ?_⟩⟩
        · rw [hi4 (by simp), hc3]
        · rw [hi2, hc2]
      | none =>
        simp only [Option.isSome_none, Bool.false_eq_true, if_false]
        have hs := SetAlertDedup_spec w2 o ctx msg.VehicleID rule.Typ hok
        rcases hsr : w2.SetAlertDedup o ctx msg.VehicleID rule.Typ with ⟨serr, w3⟩
        rw [hsr] at hs
        simp only [] at hs ⊢
        obtain ⟨hs1, hs2, hs3⟩ := hs
        have hp := PublishAlert_spec w3 o ctx msg.FleetID
          (jsonMarshal (alertPayload msg rule (e.getTriggerValue msg rule.Typ) w3.now)).toOption
        obtain ⟨hp1, hp2, hp3⟩ := hp
        refine ⟨le_trans hc1 (le_trans hi1 (le_trans hs1 hp1)), Or.inr
          ⟨w1.now, w2.now, w3.now, e.getTriggerValue msg rule.Typ, hc1, hi1, hs1, hp1,
            hc4 rfl rfl, ?_, ?_⟩⟩
        · rw [hp2, hs2, hi3 rfl, hc3]
        · rw [hp3, hs3, hi2, hc2]

theorem live_after_set (r r' : RedisStore) (key' : String) (v : RedisValue) (dl : Time)
    (h : r'.keys = fun k => if k = key' then some ⟨v, some dl⟩ else r.keys k)
    (t : Time) (key : String) :
    (key = key' → t < dl → r'.live t key ≠ none) ∧
    (key ≠ key' → r'.live t key = r.live t key) := by
  constructor
  · intro hk ht
    simp [RedisStore.live, h, hk, ht]
  · intro hk
    simp [RedisStore.live, h, hk]

theorem alertsFor_append (l1 l2 : List AlertRow) (V : String) (T : AlertType) :
    alertsFor (l1 ++ l2) V T = alertsFor l1 V T ++ alertsFor l2 V T := by
  simp [alertsFor]

/-- One rule keeps the dedup invariant when no dedup set fails. -/
theorem evalRule_inv (e : AlertEvaluator) (o : Oracle) (ctx : Context)
    (msg : TelemetryMessage) (w : World) (rule : AlertRule)
    (hok : ∀ n c v t, o.redisFault n (.SetAlertDedup c v t) = false)
    (V : String) (T : AlertType) (base new : List AlertRow)
    (hrows : w.db.vehicle_alerts = base ++ new) (hinv : DedupInv V T w new) :
    ∃ new', (e.evalRule o ctx msg w rule).db.vehicle_alerts = base ++ new' ∧
      DedupInv V T (e.evalRule o ctx msg w rule) new' := by
  obtain ⟨hnow, hcase⟩ := evalRule_cases e o ctx msg w rule hok
  obtain ⟨hpw, hmark⟩ := hinv
  rcases hcase with ⟨hr, hk⟩ | ⟨t1, t2, t3, x, h1, h12, h23, h3, hlive, hr, hk⟩
  · refine ⟨new, by rw [hr, hrows], hpw, ?_⟩
    intro r hrin
    obtain ⟨hc, hl⟩ := hmark r hrin
    refine ⟨le_trans hc hnow, fun t ht hlt => ?_⟩
    rw [live_congr _ _ hk]
    exact hl t (le_trans hnow ht) hlt
  · have hset := fun t key => live_after_set w.redis (e.evalRule o ctx msg w rule).redis
      (alertDedupKey msg.VehicleID rule.Typ) (.str "1") (t3 + 5 * Minute) hk t key
    -- every row known so far, and the new one, was created no later than `t3`
    have hmark' : ∀ r : AlertRow, r.created_at ≤ t3 →
        (∀ t, w.now ≤ t → t < r.created_at + 5 * Minute →
          w.redis.live t (alertDedupKey V T) ≠ none) →
        ∀ t, (e.evalRule o ctx msg w rule).now ≤ t → t < r.created_at + 5 * Minute →
          (e.evalRule o ctx msg w rule).redis.live t (alertDedupKey V T) ≠ none := by
      intro r hr3 hold t ht hlt
      by_cases hkey : alertDedupKey V T = alertDedupKey msg.VehicleID rule.Typ
      · exact (hset t _).1 hkey (lt_of_lt_of_le hlt (add_le_add_right hr3 _))
      · rw [(hset t _).2 hkey]
        exact hold t (le_trans hnow ht) hlt
    obtain ⟨row, hrow⟩ : ∃ row : AlertRow, row =
        { vehicle_id := msg.VehicleID, fleet_id := msg.FleetID, alert_type := rule.Typ,
          severity := rule.Severity, triggered_value := x, created_at := t2 } := ⟨_, rfl⟩
    rw [← hrow] at hr
    have hv : row.vehicle_id = msg.VehicleID := by rw [hrow]
    have hty : row.alert_type = rule.Typ := by rw [hrow]
    have hcr : row.created_at = t2 := by rw [hrow]
    clear hrow
    refine ⟨new ++ [row], by rw [hr, hrows, List.append_assoc], ?_, ?_⟩
    · rw [alertsFor_append]
      by_cases hm : msg.VehicleID = V ∧ rule.Typ = T
      · have : alertsFor [row] V T = [row] := by
          simp [alertsFor, hv, hty, hm]
        rw [this, List.pairwise_append]
        refine ⟨hpw, List.pairwise_singleton _ _, ?_⟩
        intro a ha b hb
        rw [List.mem_singleton] at hb
        subst hb
        rw [hcr]
        obtain ⟨hc, hl⟩ := hmark a ha
        by_contra hcon
        have hlt : t1 < a.created_at + 5 * Minute :=
          lt_of_le_of_lt h12 (not_le.mp hcon)
        apply hl t1 h1 hlt
        rw [← hm.1, ← hm.2]
        exact hlive
      · have : alertsFor [row] V T = [] := by
          simp only [alertsFor, List.filter_cons, List.filter_nil]
          rw [if_neg (by simpa [hv, hty] using hm)]
        rw [this, List.append_nil]
        exact hpw
    · intro r hrin
      rw [alertsFor_append, List.mem_append] at hrin
      rcases hrin with hold | hnew
      · obtain ⟨hc, hl⟩ := hmark r hold
        have hr3 : r.created_at ≤ t3 := le_trans hc (le_trans h1 (le_trans h12 h23))
        exact ⟨le_trans hr3 h3, hmark' r hr3 hl⟩
      · have hmem : r ∈ [row] := by
          simp only [alertsFor] at hnew
          exact List.mem_of_mem_filter hnew
        rw [List.mem_singleton] at hmem
        subst hmem
        have hm : msg.VehicleID = V ∧ rule.Typ = T := by
          simpa [alertsFor, hv, hty] using hnew
        rw [hcr]
        refine ⟨le_trans h23 h3, ?_⟩
        intro t ht hlt
        apply (hset t _).1 _ (lt_of_lt_of_le hlt (add_le_add_right h23 _))
        rw [hm.1, hm.2]

theorem evaluate_inv (e : AlertEvaluator) (o : Oracle) (ctx : Context)
    (msg : TelemetryMessage)
    (hok : ∀ n c v t, o.redisFault n (.SetAlertDedup c v t) = false)
    (V : String) (T : AlertType) (base : List AlertRow) (rules : List AlertRule) :
    ∀ (w : World) (new : List AlertRow), w.db.vehicle_alerts = base ++ new →
      DedupInv V T w new →
      ∃ new', (rules.foldl (e.evalRule o ctx msg) w).db.vehicle_alerts = base ++ new' ∧
        DedupInv V T (rules.foldl (e.evalRule o ctx msg) w) new' := by
  induction rules with
  | nil => intro w new hr hi; exact ⟨new, hr, hi⟩
  | cons rule rules ih =>
    intro w new hr hi
    obtain ⟨new1, hr1, hi1⟩ := evalRule_inv e o ctx msg w rule hok V T base new hr hi
    exact ih _ new1 hr1 hi1

theorem Run_inv (e : AlertEvaluator) (o : Oracle)
    (hok : ∀ n c v t, o.redisFault n (.SetAlertDedup c v t) = false)
    (V : String) (T : AlertType) (base : List AlertRow) (events : List AlertEvent) :
    ∀ (w : World) (new : List AlertRow), w.db.vehicle_alerts = base ++ new →
      DedupInv V T w new →
      ∃ new', (e.Run o w events).1.db.vehicle_alerts = base ++ new' ∧
        DedupInv V T (e.Run o w events).1 new' := by
  induction events with
  | nil => intro w new hr hi; exact ⟨new, hr, hi⟩
  | cons ev events ih =>
    intro w new hr hi
    cases ev with
    | closed => exact ⟨new, hr, hi⟩
    | done => exact ⟨new, hr, hi⟩
    | recv msg =>
      obtain ⟨new1, hr1, hi1⟩ :=
        evaluate_inv e o .Background msg hok V T base e.rules w new hr hi
      exact ih _ new1 hr1 hi1

/-- Rows that are pairwise five minutes apart: at most one lies in a window of
five minutes. -/
theorem window_of_pairwise (l : List AlertRow) (t0 : Time)
    (h : l.Pairwise (fun a b => a.created_at + 5 * Minute ≤ b.created_at)) :
    (l.filter (fun r => t0 ≤ r.created_at ∧ r.created_at < t0 + 5 * Minute)).length ≤ 1 := by
  induction l with
  | nil => simp
  | cons a l ih =>
    rw [List.pairwise_cons] at h
    obtain ⟨ha, hl⟩ := h
    by_cases hin : t0 ≤ a.created_at ∧ a.created_at < t0 + 5 * Minute
    · have hnone : l.filter
          (fun r => t0 ≤ r.created_at ∧ r.created_at < t0 + 5 * Minute) = [] := by
        rw [List.filter_eq_nil_iff]
        intro b hb
        have := ha b hb
        have h2 : t0 + 5 * Minute ≤ b.created_at :=
          le_trans (add_le_add_right hin.1 _) this
        simp only [decide_eq_true_eq, not_and, not_lt]
        intro _
        exact h2
      rw [List.filter_cons, if_pos (by simpa using hin), hnone]
      simp
    · rw [List.filter_cons, if_neg (by simpa using hin)]
      exact ih hl

/-- Claim C1, as stated, fails: when setting the dedup mark fails, two messages
of the same vehicle at 120 km/h leave two SPEEDING rows in one window. -/
theorem C1_counterexample :
    ¬ (∀ (e : AlertEvaluator) (o : Oracle) (w0 : World) (events : List AlertEvent)
        (V : String) (T : AlertType) (t0 : Time),
        (alertsInWindow (insertedAlerts w0 (e.Run o w0 events).1) V T t0).length ≤ 1) := by
  intro h
  have := h NewAlertEvaluator setDownOracle emptyWorld [.recv speedingMsg, .recv speedingMsg]
    "v1" AlertSpeeding 0
  revert this
  decide

/-- Claim C1, amended.  In a run of one alert evaluator in which no call that
sets a dedup mark fails, the alert rows inserted for a vehicle and an alert
type are pairwise at least five minutes apart, so that at most one of them
lies in any window of five minutes. -/
theorem C1_one_alert_per_window (e : AlertEvaluator) (o : Oracle) (w0 : World)
    (events : List AlertEvent) (V : String) (T : AlertType) (t0 : Time)
    (hok : ∀ n c v t, o.redisFault n (.SetAlertDedup c v t) = false) :
    (alertsFor (insertedAlerts w0 (e.Run o w0 events).1) V T).Pairwise
      (fun a b => a.created_at + 5 * Minute ≤ b.created_at) ∧
    (alertsInWindow (insertedAlerts w0 (e.Run o w0 events).1) V T t0).length ≤ 1 := by
  obtain ⟨new, hr, hpw, -⟩ := Run_inv e o hok V T w0.db.vehicle_alerts events w0 []
    (by simp) ⟨by simp [alertsFor], by simp [alertsFor]⟩
  have hins : insertedAlerts w0 (e.Run o w0 events).1 = new := by
    simp [insertedAlerts, hr]
  rw [hins]
  exact ⟨hpw, window_of_pairwise _ t0 hpw⟩

theorem C1_one_alert_per_window_witness :
    (alertsFor (insertedAlerts emptyWorld (NewAlertEvaluator.Run thirtySecondsOracle emptyWorld
      [.recv speedingMsg, .recv speedingMsg]).1) "v1" AlertSpeeding).Pairwise
      (fun a b => a.created_at + 5 * Minute ≤ b.created_at) ∧
    (alertsInWindow (insertedAlerts emptyWorld (NewAlertEvaluator.Run thirtySecondsOracle
      emptyWorld [.recv speedingMsg, .recv speedingMsg]).1) "v1" AlertSpeeding 0).length ≤ 1 :=
  C1_one_alert_per_window NewAlertEvaluator thirtySecondsOracle emptyWorld
    [.recv speedingMsg, .recv speedingMsg] "v1" AlertSpeeding 0 (fun _ _ _ _ => rfl)

/-- The speeding scenario: two messages thirty seconds apart leave one row and
one publication on the alert channel of the fleet. -/
theorem speeding_scenario :
    (NewAlertEvaluator.Run thirtySecondsOracle emptyWorld
      [.recv speedingMsg, .recv speedingMsg]).1.db.vehicle_alerts.length = 1 ∧
    (NewAlertEvaluator.Run thirtySecondsOracle emptyWorld
      [.recv speedingMsg, .recv speedingMsg]).1.redis.published.map Prod.fst
      = ["fleet:F:alerts"] := by
  decide

/-! ## Credential validator -/

theorem GetAPIKey_redis (r : RedisStore) (now : Time) (fault : Bool) (ctx : Context)
    (k : String) :
    (r.GetAPIKey now fault ctx k).2 = r.logCall (.GetAPIKey ctx k) := by
  unfold RedisStore.GetAPIKey
  simp only []
  split
  · rfl
  · split <;> rfl

theorem lookup_redis (a : Authenticator) (r : RedisStore) (env : ValidateEnv) (ctx : Context)
    (k : String) (pre : List AuthEffect) :
    (a.lookup r env ctx k pre).redis = r.logCall (.GetAPIKey ctx k) := by
  unfold Authenticator.lookup
  simp only []
  split <;> simp [GetAPIKey_redis]

theorem lookup_fields (a : Authenticator) (r : RedisStore) (env : ValidateEnv) (ctx : Context)
    (k : String) (pre : List AuthEffect) :
    (a.lookup r env ctx k pre).auth.ttl = a.ttl ∧
    (a.lookup r env ctx k pre).auth.staticKeys = a.staticKeys := by
  unfold Authenticator.lookup
  simp only []
  split <;> simp [Authenticator.cacheStore]

theorem lookup_cache_other (a : Authenticator) (r : RedisStore) (env : ValidateEnv)
    (ctx : Context) (k : String) (pre : List AuthEffect) (k' : String) (h : k' ≠ k) :
    (a.lookup r env ctx k pre).auth.localCache k' = a.localCache k' := by
  unfold Authenticator.lookup
  simp only []
  split <;> simp [Authenticator.cacheStore, h]

/-- What the lookup level returns when the live store answers with an identity. -/
theorem lookup_pos (a : Authenticator) (r : RedisStore) (env : ValidateEnv) (ctx : Context)
    (k : String) (pre : List AuthEffect)
    (h1 : (r.GetAPIKey env.nowGet env.fault ctx k).1.2 = none)
    (h2 : (r.GetAPIKey env.nowGet env.fault ctx k).1.1 ≠ "") :
    (a.lookup r env ctx k pre).ok = true ∧
    (a.lookup r env ctx k pre).auth.localCache k =
      some ⟨(r.GetAPIKey env.nowGet env.fault ctx k).1.1, env.nowStore + a.ttl⟩ ∧
    (a.lookup r env ctx k pre).effects = pre ++
      [.Lookup k (r.GetAPIKey env.nowGet env.fault ctx k).1.1 none,
       .Store k ⟨(r.GetAPIKey env.nowGet env.fault ctx k).1.1, env.nowStore + a.ttl⟩] := by
  rcases hres : r.GetAPIKey env.nowGet env.fault ctx k with ⟨⟨v, err⟩, r1⟩
  rw [hres] at h1 h2
  simp only at h1 h2
  subst h1
  simp [Authenticator.lookup, hres, h2, Authenticator.cacheStore]

/-- What the lookup level returns when the live store fails or has no identity. -/
theorem lookup_neg (a : Authenticator) (r : RedisStore) (env : ValidateEnv) (ctx : Context)
    (k : String) (pre : List AuthEffect)
    (h : ¬ ((r.GetAPIKey env.nowGet env.fault ctx k).1.2 = none ∧
      (r.GetAPIKey env.nowGet env.fault ctx k).1.1 ≠ "")) :
    (a.lookup r env ctx k pre).ok = false ∧
    (a.lookup r env ctx k pre).auth = a ∧
    (a.lookup r env ctx k pre).effects = pre ++
      [.Lookup k (r.GetAPIKey env.nowGet env.fault ctx k).1.1
        (r.GetAPIKey env.nowGet env.fault ctx k).1.2] := by
  rcases hres : r.GetAPIKey env.nowGet env.fault ctx k with ⟨⟨v, err⟩, r1⟩
  rw [hres] at h
  simp only at h
  have : (err.isSome || v == "") = true := by
    cases err with
    | some e => simp
    | none =>
      have h2 : v = "" := by
        by_contra h2
        exact h ⟨rfl, h2⟩
      simp [h2]
  simp [Authenticator.lookup, hres, this]

theorem Validate_static (a : Authenticator) (r : RedisStore) (env : ValidateEnv)
    (ctx : Context) (k : String) (h : a.staticKeys.contains k = true) :
    a.Validate r env ctx k = { ok := true, auth := a, redis := r, effects := [] } := by
  unfold Authenticator.Validate
  rw [if_pos h]

theorem Validate_hit (a : Authenticator) (r : RedisStore) (env : ValidateEnv)
    (ctx : Context) (k : String) (e : cacheEntry) (hc : a.localCache k = some e)
    (ht : env.nowLoad < e.expiresAt) :
    a.Validate r env ctx k = { ok := true, auth := a, redis := r, effects := [] } := by
  unfold Authenticator.Validate
  split
  · rfl
  · simp only [hc, if_pos ht]

theorem Validate_miss_none (a : Authenticator) (r : RedisStore) (env : ValidateEnv)
    (ctx : Context) (k : String) (hs : a.staticKeys.contains k = false)
    (hc : a.localCache k = none) :
    a.Validate r env ctx k = a.lookup r env ctx k [] := by
  unfold Authenticator.Validate
  simp only [hs, hc]
  simp

theorem Validate_miss_expired (a : Authenticator) (r : RedisStore) (env : ValidateEnv)
    (ctx : Context) (k : String) (e : cacheEntry) (hs : a.staticKeys.contains k = false)
    (hc : a.localCache k = some e) (ht : ¬ env.nowLoad < e.expiresAt) :
    a.Validate r env ctx k = (a.cacheDelete k).lookup r env ctx k [.Delete k] := by
  unfold Authenticator.Validate
  simp only [hs, hc, if_neg ht]
  simp

theorem Validate_fields (a : Authenticator) (r : RedisStore) (env : ValidateEnv)
    (ctx : Context) (k : String) :
    (a.Validate r env ctx k).auth.ttl = a.ttl ∧
    (a.Validate r env ctx k).auth.staticKeys = a.staticKeys := by
  unfold Authenticator.Validate
  split
  · simp
  · split
    · split
      · simp
      · have := lookup_fields (a.cacheDelete k) r env ctx k [.Delete k]
        simpa [Authenticator.cacheDelete] using this
    · exact lookup_fields a r env ctx k []

theorem Validate_cache_other (a : Authenticator) (r : RedisStore) (env : ValidateEnv)
    (ctx : Context) (k k' : String) (h : k' ≠ k) :
    (a.Validate r env ctx k).auth.localCache k' = a.localCache k' := by
  unfold Authenticator.Validate
  split
  · rfl
  · split
    · split
      · rfl
      · rw [lookup_cache_other _ _ _ _ _ _ _ h]
        simp [Authenticator.cacheDelete, h]
    · exact lookup_cache_other _ _ _ _ _ _ _ h

theorem after_snoc (a : Authenticator) (pre : List ValidateCall) (c : ValidateCall) :
    a.after (pre ++ [c]) = ((a.after pre).call c).auth := by
  simp [Authenticator.after, List.foldl_append]

theorem after_fields (a : Authenticator) (cs : List ValidateCall) :
    (a.after cs).ttl = a.ttl ∧ (a.after cs).staticKeys = a.staticKeys := by
  induction cs using List.reverseRecOn with
  | nil => simp [Authenticator.after]
  | append_singleton pre c ih =>
    rw [after_snoc]
    have := Validate_fields (a.after pre) c.redis c.env c.ctx c.apiKey
    simp only [Authenticator.call]
    rw [this.1, this.2]
    exact ih

/-- A call that reaches the lookup level: what it returns and what it leaves
in the cache for its key. -/
theorem Validate_miss (a : Authenticator) (r : RedisStore) (env : ValidateEnv)
    (ctx : Context) (k : String) (hs : a.staticKeys.contains k = false)
    (hc : ∀ e, a.localCache k = some e → ¬ env.nowLoad < e.expiresAt) :
    (a.Validate r env ctx k).redis = r.logCall (.GetAPIKey ctx k) ∧
    (((r.GetAPIKey env.nowGet env.fault ctx k).1.2 = none ∧
        (r.GetAPIKey env.nowGet env.fault ctx k).1.1 ≠ "") →
      (a.Validate r env ctx k).ok = true ∧
      (a.Validate r env ctx k).auth.localCache k =
        some ⟨(r.GetAPIKey env.nowGet env.fault ctx k).1.1, env.nowStore + a.ttl⟩) ∧
    (¬ ((r.GetAPIKey env.nowGet env.fault ctx k).1.2 = none ∧
        (r.GetAPIKey env.nowGet env.fault ctx k).1.1 ≠ "") →
      (a.Validate r env ctx k).ok = false ∧
      (a.Validate r env ctx k).auth.localCache k = none) := by
  cases hk : a.localCache k with
  | none =>
    rw [Validate_miss_none a r env ctx k hs hk]
    refine ⟨lookup_redis _ _ _ _ _ _, ?_, ?_⟩
    · rintro ⟨h1, h2⟩
      have := lookup_pos a r env ctx k [] h1 h2
      exact ⟨this.1, this.2.1⟩
    · intro h
      have := lookup_neg a r env ctx k [] h
      refine ⟨this.1, ?_⟩
      rw [this.2.1, hk]
  | some e =>
    rw [Validate_miss_expired a r env ctx k e hs hk (hc e hk)]
    refine ⟨lookup_redis _ _ _ _ _ _, ?_, ?_⟩
    · rintro ⟨h1, h2⟩
      have := lookup_pos (a.cacheDelete k) r env ctx k [.Delete k] h1 h2
      exact ⟨this.1, by simpa [Authenticator.cacheDelete] using this.2.1⟩
    · intro h
      have := lookup_neg (a.cacheDelete k) r env ctx k [.Delete k] h
      refine ⟨this.1, ?_⟩
      rw [this.2.1]
      simp [Authenticator.cacheDelete]

/-- Every entry of the local cache was stored by an earlier call whose lookup
was positive, with that call's store time plus the TTL as expiry. -/
theorem cache_provenance (a0 : Authenticator) (h0 : ∀ k, a0.localCache k = none)
    (pre : List ValidateCall) :
    ∀ k e, (a0.after pre).localCache k = some e →
      ∃ pre1 c post, pre = pre1 ++ c :: post ∧ c.apiKey = k ∧
        (a0.after pre1).positiveLookup c ∧
        ((a0.after pre1).call c).auth.localCache k = some e ∧
        e.expiresAt = c.env.nowStore + a0.ttl := by
  induction pre using List.reverseRecOn with
  | nil =>
    intro k e h
    simp [Authenticator.after, h0] at h
  | append_singleton pre c ih =>
    intro k e h
    rw [after_snoc] at h
    have old : (a0.after pre).localCache k = some e →
        ∃ pre1 c' post, pre ++ [c] = pre1 ++ c' :: post ∧ c'.apiKey = k ∧
        (a0.after pre1).positiveLookup c' ∧
        ((a0.after pre1).call c').auth.localCache k = some e ∧
        e.expiresAt = c'.env.nowStore + a0.ttl := by
      intro h'
      obtain ⟨pre1, c', post, hp, hk, hpos, hst, hexp⟩ := ih k e h'
      exact ⟨pre1, c', post ++ [c], by simp [hp], hk, hpos, hst, hexp⟩
    by_cases hkc : k = c.apiKey
    · subst hkc
      by_cases hs : (a0.after pre).staticKeys.contains c.apiKey = true
      · apply old
        simpa [Authenticator.call, Validate_static _ _ _ _ _ hs] using h
      · have hs' : (a0.after pre).staticKeys.contains c.apiKey = false := by
          simpa using hs
        by_cases hhit : ∃ e', (a0.after pre).localCache c.apiKey = some e' ∧
            c.env.nowLoad < e'.expiresAt
        · obtain ⟨e', he', ht⟩ := hhit
          apply old
          simpa [Authenticator.call, Validate_hit _ _ _ _ _ e' he' ht] using h
        · have hc : ∀ e', (a0.after pre).localCache c.apiKey = some e' →
              ¬ c.env.nowLoad < e'.expiresAt := fun e' he' ht => hhit ⟨e', he', ht⟩
          have hm := Validate_miss (a0.after pre) c.redis c.env c.ctx c.apiKey hs' hc
          by_cases hpos : (c.redis.GetAPIKey c.env.nowGet c.env.fault c.ctx c.apiKey).1.2 = none ∧
              (c.redis.GetAPIKey c.env.nowGet c.env.fault c.ctx c.apiKey).1.1 ≠ ""
          · have h2 := (hm.2.1 hpos).2
            simp only [Authenticator.call] at h
            rw [h2] at h
            refine ⟨pre, c, [], by simp, rfl, ?_, ?_, ?_⟩
            · refine ⟨?_, hpos.1, hpos.2⟩
              simp only [Authenticator.call]
              rw [hm.1]
              rfl
            · simp only [Authenticator.call]
              rw [h2]
              exact h
            · have := Option.some.inj h
              rw [← this, (after_fields a0 pre).1]
          · have h2 := (hm.2.2 hpos).2
            simp only [Authenticator.call] at h
            rw [h2] at h
            exact absurd h (by simp)
    · apply old
      simp only [Authenticator.call] at h
      rwa [Validate_cache_other _ _ _ _ _ _ hkc] at h

/-- Claim C2.  Starting from an empty local cache, whenever a call of `Validate`
returns true, its key is in the static set, or the lookup made in this call
returned a non-empty identity without error, or an earlier call for the same
key made such a lookup and stored a cache entry, with that call's store time
plus the TTL as expiry, that is still in the cache and expires later than the
time of this call. -/
theorem C2_validate_true_is_grounded (a0 : Authenticator)
    (h0 : ∀ k, a0.localCache k = none) (pre : List ValidateCall) (c : ValidateCall)
    (hok : ((a0.after pre).call c).ok = true) :
    c.apiKey ∈ a0.staticKeys ∨
    (a0.after pre).positiveLookup c ∨
    ∃ pre1 c1 post e, pre = pre1 ++ c1 :: post ∧ c1.apiKey = c.apiKey ∧
      (a0.after pre1).positiveLookup c1 ∧
      ((a0.after pre1).call c1).auth.localCache c.apiKey = some e ∧
      e.expiresAt = c1.env.nowStore + a0.ttl ∧
      (a0.after pre).localCache c.apiKey = some e ∧
      c.env.nowLoad < e.expiresAt := by
  by_cases hs : (a0.after pre).staticKeys.contains c.apiKey = true
  · left
    rw [(after_fields a0 pre).2] at hs
    simpa using hs
  · right
    have hs' : (a0.after pre).staticKeys.contains c.apiKey = false := by simpa using hs
    by_cases hhit : ∃ e, (a0.after pre).localCache c.apiKey = some e ∧
        c.env.nowLoad < e.expiresAt
    · right
      obtain ⟨e, he, ht⟩ := hhit
      obtain ⟨pre1, c1, post, hp, hk, hpos, hst, hexp⟩ :=
        cache_provenance a0 h0 pre c.apiKey e he
      exact ⟨pre1, c1, post, e, hp, hk, hpos, hst, hexp, he, ht⟩
    · left
      have hc : ∀ e, (a0.after pre).localCache c.apiKey = some e →
          ¬ c.env.nowLoad < e.expiresAt := fun e he ht => hhit ⟨e, he, ht⟩
      have hm := Validate_miss (a0.after pre) c.redis c.env c.ctx c.apiKey hs' hc
      by_cases hpos : (c.redis.GetAPIKey c.env.nowGet c.env.fault c.ctx c.apiKey).1.2 = none ∧
          (c.redis.GetAPIKey c.env.nowGet c.env.fault c.ctx c.apiKey).1.1 ≠ ""
      · refine ⟨?_, hpos.1, hpos.2⟩
        simp only [Authenticator.call]
        rw [hm.1]
        rfl
      · have := (hm.2.2 hpos).1
        simp only [Authenticator.call] at hok
        rw [this] at hok
        exact absurd hok (by simp)

theorem C2_validate_true_is_grounded_witness :
    (((NewAuthenticator scenarioConfig).after [callAt seededRedis 0 false]).call
        (callAt emptyRedis 1 false)).ok = true ∧
    ("K" ∈ (NewAuthenticator scenarioConfig).staticKeys ∨
      ((NewAuthenticator scenarioConfig).after [callAt seededRedis 0 false]).positiveLookup
        (callAt emptyRedis 1 false) ∨
      ∃ pre1 c1 post e, [callAt seededRedis 0 false] = pre1 ++ c1 :: post ∧ c1.apiKey = "K" ∧
        ((NewAuthenticator scenarioConfig).after pre1).positiveLookup c1 ∧
        (((NewAuthenticator scenarioConfig).after pre1).call c1).auth.localCache "K" = some e ∧
        e.expiresAt = c1.env.nowStore + (NewAuthenticator scenarioConfig).ttl ∧
        ((NewAuthenticator scenarioConfig).after [callAt seededRedis 0 false]).localCache "K"
          = some e ∧
        (1 : Time) < e.expiresAt) :=
  ⟨by decide,
   C2_validate_true_is_grounded (NewAuthenticator scenarioConfig) (fun _ => rfl)
     [callAt seededRedis 0 false] (callAt emptyRedis 1 false) (by decide)⟩

theorem GetAPIKey_absent (r : RedisStore) (now : Time) (fault : Bool) (ctx : Context)
    (k : String) (h : r.live now (apiKeyKey k) = none) :
    (r.GetAPIKey now fault ctx k).1.1 = "" := by
  have hl : (r.logCall (.GetAPIKey ctx k)).live now (apiKeyKey k) = none := by
    simpa [RedisStore.live, RedisStore.logCall] using h
  unfold RedisStore.GetAPIKey
  simp only []
  split
  · rfl
  · simp [RedisStore.cmdGet, hl]

/-- Claim C3, as stated, fails: a key that was looked up successfully stays
valid from the local cache after its entry has left the live store. -/
theorem C3_counterexample :
    ¬ (∀ (a0 : Authenticator) (pre : List ValidateCall) (c : ValidateCall),
        (∀ k, a0.localCache k = none) → c.apiKey ∉ a0.staticKeys →
        c.redis.live c.env.nowGet (apiKeyKey c.apiKey) = none →
        ((a0.after pre).call c).ok = false) := by
  intro h
  have := h (NewAuthenticator scenarioConfig) [callAt seededRedis 0 false]
    (callAt emptyRedis 1 false) (fun _ => rfl) (by decide) (by decide)
  revert this
  decide

/-- Claim C3, amended.  For a key outside the static set, with no entry
`vehicle:auth:K` in the live store at the time of the call, `Validate` returns
false whenever the local cache holds no unexpired entry for the key. -/
theorem C3_validate_unknown_key_fails (a : Authenticator) (r : RedisStore)
    (env : ValidateEnv) (ctx : Context) (K : String)
    (hs : K ∉ a.staticKeys)
    (hstore : r.live env.nowGet (apiKeyKey K) = none)
    (hcache : ∀ e, a.localCache K = some e → e.expiresAt ≤ env.nowLoad) :
    (a.Validate r env ctx K).ok = false := by
  have hs' : a.staticKeys.contains K = false := by simpa using hs
  have hc : ∀ e, a.localCache K = some e → ¬ env.nowLoad < e.expiresAt :=
    fun e he => not_lt.mpr (hcache e he)
  have hm := Validate_miss a r env ctx K hs' hc
  apply (hm.2.2 ?_).1
  rintro ⟨_, h2⟩
  exact h2 (GetAPIKey_absent r env.nowGet env.fault ctx K hstore)

theorem C3_validate_unknown_key_fails_witness :
    ((NewAuthenticator scenarioConfig).Validate emptyRedis
      { nowLoad := 0, nowGet := 0, nowStore := 0, fault := false } .Background "K").ok
      = false :=
  C3_validate_unknown_key_fails (NewAuthenticator scenarioConfig) emptyRedis
    { nowLoad := 0, nowGet := 0, nowStore := 0, fault := false } .Background "K"
    (by decide) (by decide) (fun e he => by simp [NewAuthenticator] at he)

/-- Claim C4.  For a key outside the static set and without an unexpired cache
entry, a lookup that returns an error (as it does when the transport fails)
makes `Validate` return false and leaves no cache entry for the key. -/
theorem C4_validate_fails_closed (a : Authenticator) (r : RedisStore)
    (env : ValidateEnv) (ctx : Context) (K : String)
    (hs : K ∉ a.staticKeys)
    (hcache : ∀ e, a.localCache K = some e → e.expiresAt ≤ env.nowLoad)
    (herr : env.fault = true ∨ (r.GetAPIKey env.nowGet env.fault ctx K).1.2 ≠ none) :
    (r.GetAPIKey env.nowGet env.fault ctx K).1.2 ≠ none ∧
    (a.Validate r env ctx K).ok = false ∧
    (a.Validate r env ctx K).auth.localCache K = none := by
  have herr' : (r.GetAPIKey env.nowGet env.fault ctx K).1.2 ≠ none := by
    rcases herr with hf | he
    · simp [RedisStore.GetAPIKey, hf]
    · exact he
  have hs' : a.staticKeys.contains K = false := by simpa using hs
  have hc : ∀ e, a.localCache K = some e → ¬ env.nowLoad < e.expiresAt :=
    fun e he => not_lt.mpr (hcache e he)
  have hm := Validate_miss a r env ctx K hs' hc
  exact ⟨herr', hm.2.2 (fun h => herr' h.1)⟩

theorem C4_validate_fails_closed_witness :
    ((NewAuthenticator scenarioConfig).Validate seededRedis
      { nowLoad := 0, nowGet := 0, nowStore := 0, fault := true } .Background "K").ok
      = false ∧
    ((NewAuthenticator scenarioConfig).Validate seededRedis
      { nowLoad := 0, nowGet := 0, nowStore := 0, fault := true } .Background "K").auth.localCache
      "K" = none :=
  (C4_validate_fails_closed (NewAuthenticator scenarioConfig) seededRedis
    { nowLoad := 0, nowGet := 0, nowStore := 0, fault := true } .Background "K"
    (by decide) (fun e he => by simp [NewAuthenticator] at he) (Or.inl rfl)).2

/-- Claim C5.  A non-empty key of the configured static list validates
successfully without a call to the live store, whatever the local cache and
the store contain. -/
theorem C5_static_key_no_lookup (cfg : Config) (cache : String → Option cacheEntry)
    (r : RedisStore) (env : ValidateEnv) (ctx : Context) (K : String)
    (hne : K ≠ "") (hin : K ∈ cfg.ValidAPIKeys) :
    ({ NewAuthenticator cfg with localCache := cache }.Validate r env ctx K).ok = true ∧
    ({ NewAuthenticator cfg with localCache := cache }.Validate r env ctx K).redis = r ∧
    ({ NewAuthenticator cfg with localCache := cache }.Validate r env ctx K).redis.calls
      = r.calls ∧
    ({ NewAuthenticator cfg with localCache := cache }.Validate r env ctx K).effects = [] := by
  have hs : ({ NewAuthenticator cfg with localCache := cache } : Authenticator).staticKeys.contains
      K = true := by
    simp [NewAuthenticator, hin, hne]
  rw [Validate_static _ r env ctx K hs]
  simp

theorem C5_static_key_no_lookup_witness :
    ({ NewAuthenticator staticConfig with localCache := fun _ => none }.Validate seededRedis
      { nowLoad := 0, nowGet := 0, nowStore := 0, fault := true } .Background "k1").ok = true ∧
    ({ NewAuthenticator staticConfig with localCache := fun _ => none }.Validate seededRedis
      { nowLoad := 0, nowGet := 0, nowStore := 0, fault := true } .Background "k1").redis.calls
      = seededRedis.calls :=
  have h := C5_static_key_no_lookup staticConfig (fun _ => none) seededRedis
    { nowLoad := 0, nowGet := 0, nowStore := 0, fault := true } .Background "k1"
    (by decide) (by decide)
  ⟨h.1, h.2.2.1⟩

/-- An unexpired entry stays in the cache along calls that all come before
its expiry. -/
theorem cache_entry_stable (a : Authenticator) (K : String) (e : cacheEntry)
    (he : a.localCache K = some e) (cs : List ValidateCall)
    (hcs : ∀ c ∈ cs, c.apiKey = K → c.env.nowLoad < e.expiresAt) :
    (a.after cs).localCache K = some e := by
  induction cs using List.reverseRecOn with
  | nil => simpa [Authenticator.after] using he
  | append_singleton pre c ih =>
    have ih' := ih (fun c' hc' => hcs c' (by simp [hc']))
    rw [after_snoc]
    simp only [Authenticator.call]
    by_cases hk : c.apiKey = K
    · have ht := hcs c (by simp) hk
      rw [hk, Validate_hit _ _ _ _ _ e ih' ht]
      exact ih'
    · rw [Validate_cache_other _ _ _ _ _ _ (fun h => hk h.symm)]
      exact ih'

theorem GetAPIKey_present (r : RedisStore) (now : Time) (ctx : Context)
    (k v : String) (h : r.cmdGet now (apiKeyKey k) = .ok v) :
    (r.GetAPIKey now false ctx k).1 = (v, none) := by
  have hl : (r.logCall (.GetAPIKey ctx k)).cmdGet now (apiKeyKey k) = .ok v := by
    simpa [RedisStore.cmdGet, RedisStore.live, RedisStore.logCall] using h
  simp [RedisStore.GetAPIKey, hl]

/-- Claim C6.  With an empty static set and a live store that maps `K` to a
non-empty identity `v`: the first `Validate(K)` makes exactly one lookup,
returns true and stores an entry expiring at its store time plus the TTL;
every later `Validate(K)` strictly before that expiry makes no lookup and
returns true; the first `Validate(K)` at or after that expiry deletes the
entry and makes exactly one lookup.  After that call the expired entry is
gone: the cache holds for `K` the entry of the new lookup when the lookup
returned an identity, and nothing at all when it did not. -/
theorem C6_cold_then_warm_cache (a : Authenticator) (K v : String)
    (first : ValidateCall) (mid : List ValidateCall) (last : ValidateCall)
    (hs : a.staticKeys = []) (hc : a.localCache K = none)
    (hk1 : first.apiKey = K) (hf : first.env.fault = false)
    (hstore : first.redis.cmdGet first.env.nowGet (apiKeyKey K) = .ok v) (hv : v ≠ "")
    (hmid : ∀ c ∈ mid, c.apiKey = K → c.env.nowLoad < first.env.nowStore + a.ttl)
    (hk3 : last.apiKey = K) (hlast : first.env.nowStore + a.ttl ≤ last.env.nowLoad) :
    ((a.call first).ok = true ∧
      (a.call first).redis.calls = first.redis.calls ++ [.GetAPIKey first.ctx K] ∧
      (a.call first).auth.localCache K = some ⟨v, first.env.nowStore + a.ttl⟩) ∧
    (∀ pre c post, mid = pre ++ c :: post → c.apiKey = K →
      (((a.call first).auth.after pre).call c).ok = true ∧
      (((a.call first).auth.after pre).call c).redis.calls = c.redis.calls ∧
      (((a.call first).auth.after pre).call c).effects = []) ∧
    ((((a.call first).auth.after mid).call last).effects.head? = some (.Delete K) ∧
      (((a.call first).auth.after mid).call last).redis.calls =
        last.redis.calls ++ [.GetAPIKey last.ctx K] ∧
      ((last.lookupResult.2 = none ∧ last.lookupResult.1 ≠ "") →
        (((a.call first).auth.after mid).call last).ok = true ∧
        (((a.call first).auth.after mid).call last).auth.localCache K =
          some ⟨last.lookupResult.1, last.env.nowStore + a.ttl⟩ ∧
        (((a.call first).auth.after mid).call last).effects =
          [.Delete K, .Lookup K last.lookupResult.1 none,
           .Store K ⟨last.lookupResult.1, last.env.nowStore + a.ttl⟩]) ∧
      (¬ (last.lookupResult.2 = none ∧ last.lookupResult.1 ≠ "") →
        (((a.call first).auth.after mid).call last).ok = false ∧
        (((a.call first).auth.after mid).call last).auth.localCache K = none ∧
        (((a.call first).auth.after mid).call last).effects =
          [.Delete K, .Lookup K last.lookupResult.1 last.lookupResult.2])) := by
  have hs' : a.staticKeys.contains K = false := by simp [hs]
  have hget := GetAPIKey_present first.redis first.env.nowGet first.ctx K v hstore
  have hm := Validate_miss a first.redis first.env first.ctx K hs'
    (fun e he => by rw [hc] at he; exact absurd he (by simp))
  rw [hf] at hm
  have hpos := hm.2.1 (by rw [hget]; exact ⟨rfl, hv⟩)
  rw [hget] at hpos
  have h1 : (a.call first).auth.localCache K = some ⟨v, first.env.nowStore + a.ttl⟩ := by
    simp only [Authenticator.call, hk1, hf]
    exact hpos.2
  have hstat : ∀ cs, (((a.call first).auth).after cs).staticKeys.contains K = false := by
    intro cs
    rw [(after_fields _ cs).2]
    simp only [Authenticator.call]
    rw [(Validate_fields _ _ _ _ _).2]
    exact hs'
  have httl : ∀ cs, (((a.call first).auth).after cs).ttl = a.ttl := by
    intro cs
    rw [(after_fields _ cs).1]
    simp only [Authenticator.call]
    rw [(Validate_fields _ _ _ _ _).1]
  refine ⟨⟨?_, ?_, h1⟩, ?_, ?_⟩
  · simp only [Authenticator.call, hk1, hf]
    exact hpos.1
  · simp only [Authenticator.call, hk1, hf]
    rw [hm.1]
    rfl
  · intro pre c post hsplit hk
    have hpre : ∀ c' ∈ pre, c'.apiKey = K →
        c'.env.nowLoad < (⟨v, first.env.nowStore + a.ttl⟩ : cacheEntry).expiresAt :=
      fun c' hc' => hmid c' (by simp [hsplit, hc'])
    have hst := cache_entry_stable _ K _ h1 pre hpre
    have ht := hmid c (by simp [hsplit]) hk
    rw [show ((a.call first).auth.after pre).call c =
      ((a.call first).auth.after pre).Validate c.redis c.env c.ctx c.apiKey from rfl]
    rw [hk, Validate_hit _ _ _ _ _ _ hst ht]
    simp
  · have hst := cache_entry_stable _ K _ h1 mid hmid
    have hexp : ¬ last.env.nowLoad <
        (⟨v, first.env.nowStore + a.ttl⟩ : cacheEntry).expiresAt := not_lt.mpr hlast
    have hlr : last.lookupResult =
        (last.redis.GetAPIKey last.env.nowGet last.env.fault last.ctx K).1 := by
      simp only [ValidateCall.lookupResult, hk3]
    rw [show ((a.call first).auth.after mid).call last =
      ((a.call first).auth.after mid).Validate last.redis last.env last.ctx last.apiKey from rfl]
    rw [hk3, Validate_miss_expired _ _ _ _ _ _ (hstat mid) hst hexp, hlr]
    refine ⟨?_, ?_, ?_, ?_⟩
    · unfold Authenticator.lookup
      simp only []
      split <;> simp
    · rw [lookup_redis]
      rfl
    · rintro ⟨p1, p2⟩
      have hp := lookup_pos (((a.call first).auth.after mid).cacheDelete K) last.redis
        last.env last.ctx K [.Delete K] p1 p2
      refine ⟨hp.1, ?_, ?_⟩
      · rw [hp.2.1]
        simp only [Authenticator.cacheDelete]
        rw [httl mid]
      · rw [hp.2.2]
        simp only [Authenticator.cacheDelete]
        rw [httl mid]
        rfl
    · intro hn
      have hp := lookup_neg (((a.call first).auth.after mid).cacheDelete K) last.redis
        last.env last.ctx K [.Delete K] hn
      refine ⟨hp.1, ?_, ?_⟩
      · rw [hp.2.1]
        simp [Authenticator.cacheDelete]
      · rw [hp.2.2]
        rfl

theorem C6_cold_then_warm_cache_witness :
    (((NewAuthenticator scenarioConfig).call (callAt seededRedis 0 false)).ok = true ∧
      ((NewAuthenticator scenarioConfig).call (callAt seededRedis 0 false)).redis.calls
        = [.GetAPIKey (.WithCancel false) "K"] ∧
      ((NewAuthenticator scenarioConfig).call (callAt seededRedis 0 false)).auth.localCache "K"
        = some ⟨"veh-7", 300 * Second⟩) ∧
    ((((NewAuthenticator scenarioConfig).call (callAt seededRedis 0 false)).auth.call
        (callAt seededRedis (299 * Second) false)).ok = true ∧
      (((NewAuthenticator scenarioConfig).call (callAt seededRedis 0 false)).auth.call
        (callAt seededRedis (299 * Second) false)).redis.calls = []) ∧
    ((((NewAuthenticator scenarioConfig).call (callAt seededRedis 0 false)).auth.after
        [callAt seededRedis (299 * Second) false]).call
        (callAt emptyRedis (300 * Second) false)).redis.calls
      = [.GetAPIKey (.WithCancel false) "K"] ∧
    ((((NewAuthenticator scenarioConfig).call (callAt seededRedis 0 false)).auth.after
        [callAt seededRedis (299 * Second) false]).call
        (callAt emptyRedis (300 * Second) false)).ok = false ∧
    ((((NewAuthenticator scenarioConfig).call (callAt seededRedis 0 false)).auth.after
        [callAt seededRedis (299 * Second) false]).call
        (callAt emptyRedis (300 * Second) false)).auth.localCache "K" = none :=
  have h := C6_cold_then_warm_cache (NewAuthenticator scenarioConfig) "K" "veh-7"
    (callAt seededRedis 0 false) [callAt seededRedis (299 * Second) false]
    (callAt emptyRedis (300 * Second) false)
    (by decide) rfl rfl rfl rfl (by decide) (by decide) rfl (by decide)
  ⟨⟨h.1.1, h.1.2.1, by decide⟩,
   ⟨(h.2.1 [] _ [] rfl rfl).1, (h.2.1 [] _ [] rfl rfl).2.1⟩, h.2.2.2.1,
   (h.2.2.2.2.2 (by decide)).1, (h.2.2.2.2.2 (by decide)).2.1⟩

/-! ## Dispatcher -/

theorem atomicAdd_eq (c n : Int) (hn : 0 ≤ n) (h : counts c n) : atomicAdd c n = c + n := by
  obtain ⟨h0, h1⟩ := h
  unfold atomicAdd wrapInt64
  have : (c + n + 2 ^ 63) % 2 ^ 64 = c + n + 2 ^ 63 := by
    apply Int.emod_eq_of_lt <;> omega
  omega

/-- On a channel of capacity 0 the send succeeds exactly when a receiver is
parked, and the message goes to that receiver. -/
theorem trySend_handoff (c : Chan) (msg : TelemetryMessage) (h0 : c.cap = 0) :
    (0 < c.parked → c.trySend msg = some { c with parked := c.parked - 1 }) ∧
    (c.parked = 0 → c.trySend msg = none) := by
  constructor
  · intro hp
    simp [Chan.trySend, h0, hp]
  · intro hp
    simp [Chan.trySend, h0, hp]

/-- What one bulk insert does to the world. -/
theorem BatchInsert_spec (w : World) (o : Oracle) (ctx : Context)
    (msgs : List TelemetryMessage) :
    (w.BatchInsert o ctx msgs).2.db.calls = w.db.calls ++ [.BatchInsert ctx msgs] ∧
    (w.BatchInsert o ctx msgs).2.db.vehicle_alerts = w.db.vehicle_alerts ∧
    (w.BatchInsert o ctx msgs).2.redis = w.redis ∧
    (w.BatchInsert o ctx msgs).2.metrics = w.metrics ∧
    w.now ≤ (w.BatchInsert o ctx msgs).2.now ∧
    (((w.BatchInsert o ctx msgs).1 = none ∧
        (w.BatchInsert o ctx msgs).2.db.vehicle_telemetry =
          w.db.vehicle_telemetry ++ msgs.map telemetryRow) ∨
      ((w.BatchInsert o ctx msgs).1 ≠ none ∧
        (w.BatchInsert o ctx msgs).2.db.vehicle_telemetry = w.db.vehicle_telemetry)) := by
  unfold World.BatchInsert TimescaleStore.BatchInsert World.advance
  simp only []
  split
  · rename_i h
    have : msgs = [] := by simpa using h
    subst this
    simp
  · split <;> simp

theorem sleep_fields (w : World) (d : Duration) :
    (w.sleep d).db = w.db ∧ (w.sleep d).redis = w.redis ∧ (w.sleep d).metrics = w.metrics ∧
    (w.sleep d).now = w.now + d := by
  simp [World.sleep]

/-- What one flush does to the world, by the outcome of the first attempt and
of the retry. -/
theorem flush_spec (w : DBWriter) (o : Oracle) (world : World) (ctx : Context)
    (batch : List TelemetryMessage) :
    ((world.BatchInsert o ctx batch).1 = none →
      (w.flush o world ctx batch).db = (world.BatchInsert o ctx batch).2.db ∧
      (w.flush o world ctx batch).redis = world.redis ∧
      (w.flush o world ctx batch).metrics = { world.metrics with
        DBWriteSuccess := atomicAdd world.metrics.DBWriteSuccess batch.length }) ∧
    ((world.BatchInsert o ctx batch).1 ≠ none →
      (w.flush o world ctx batch).db =
        (((world.BatchInsert o ctx batch).2.sleep (500 * Millisecond)).BatchInsert o ctx
          batch).2.db ∧
      (w.flush o world ctx batch).redis = world.redis ∧
      world.now + 500 * Millisecond ≤ (w.flush o world ctx batch).now ∧
      ((((world.BatchInsert o ctx batch).2.sleep (500 * Millisecond)).BatchInsert o ctx
          batch).1 = none →
        (w.flush o world ctx batch).metrics = { world.metrics with
          DBWriteSuccess := atomicAdd world.metrics.DBWriteSuccess batch.length }) ∧
      ((((world.BatchInsert o ctx batch).2.sleep (500 * Millisecond)).BatchInsert o ctx
          batch).1 ≠ none →
        (w.flush o world ctx batch).metrics = { world.metrics with
          DBWriteFailures := atomicAdd world.metrics.DBWriteFailures batch.length })) := by
  have s1 := BatchInsert_spec world o ctx batch
  have s2 := BatchInsert_spec ((world.BatchInsert o ctx batch).2.sleep (500 * Millisecond))
    o ctx batch
  have sl := sleep_fields (world.BatchInsert o ctx batch).2 (500 * Millisecond)
  unfold DBWriter.flush
  rcases h1 : world.BatchInsert o ctx batch with ⟨e1, w1⟩
  rw [h1] at s1 s2 sl
  simp only [] at s1 s2 sl ⊢
  rcases h2 : (w1.sleep (500 * Millisecond)).BatchInsert o ctx batch with ⟨e2, w2⟩
  rw [h2] at s2
  simp only [] at s2 ⊢
  obtain ⟨-, -, s1r, s1m, s1n, -⟩ := s1
  obtain ⟨-, -, s2r, s2m, s2n, -⟩ := s2
  obtain ⟨-, slr, slm, sln⟩ := sl
  constructor
  · intro he
    subst he
    simp [s1r, s1m]
  · intro he
    have : e1.isSome = true := by
      cases e1 with
      | none => exact absurd rfl he
      | some _ => rfl
    simp only [this, if_true]
    refine ⟨?_, ?_, ?_, ?_, ?_⟩
    · split <;> rfl
    · split <;> simp [s2r, slr, s1r]
    · have : world.now + 500 * Millisecond ≤ w2.now := by
        rw [sln] at s2n
        exact le_trans (add_le_add_right s1n _) s2n
      split <;> simpa using this
    · intro h
      subst h
      simp [s2m, slm, s1m]
    · intro h
      have : e2.isSome = true := by
        cases e2 with
        | none => exact absurd rfl h
        | some _ => rfl
      simp [this, s2m, slm, s1m]

/-- The calls and counters of one flush: `flush` calls the bulk insert once, and a second time exactly
when the first call failed.  If the first or the second call succeeds the
success counter rises by the batch size and the failure counter is unchanged;
if both fail the failure counter rises by the batch size and the success
counter is unchanged. -/
theorem flush_outcome (w : DBWriter) (o : Oracle) (world : World) (ctx : Context)
    (batch : List TelemetryMessage)
    (hs : counts world.metrics.DBWriteSuccess batch.length)
    (hf : counts world.metrics.DBWriteFailures batch.length) :
    ((world.BatchInsert o ctx batch).1 = none →
      (w.flush o world ctx batch).db.calls = world.db.calls ++ [.BatchInsert ctx batch] ∧
      (w.flush o world ctx batch).metrics.DBWriteSuccess =
        world.metrics.DBWriteSuccess + batch.length ∧
      (w.flush o world ctx batch).metrics.DBWriteFailures = world.metrics.DBWriteFailures) ∧
    ((world.BatchInsert o ctx batch).1 ≠ none →
      (w.flush o world ctx batch).db.calls =
        world.db.calls ++ [.BatchInsert ctx batch, .BatchInsert ctx batch] ∧
      ((((world.BatchInsert o ctx batch).2.sleep (500 * Millisecond)).BatchInsert o ctx
          batch).1 = none →
        (w.flush o world ctx batch).metrics.DBWriteSuccess =
          world.metrics.DBWriteSuccess + batch.length ∧
        (w.flush o world ctx batch).metrics.DBWriteFailures = world.metrics.DBWriteFailures) ∧
      ((((world.BatchInsert o ctx batch).2.sleep (500 * Millisecond)).BatchInsert o ctx
          batch).1 ≠ none →
        (w.flush o world ctx batch).metrics.DBWriteFailures =
          world.metrics.DBWriteFailures + batch.length ∧
        (w.flush o world ctx batch).metrics.DBWriteSuccess = world.metrics.DBWriteSuccess)) := by
  have fs := flush_spec w o world ctx batch
  have s1 := BatchInsert_spec world o ctx batch
  have s2 := BatchInsert_spec ((world.BatchInsert o ctx batch).2.sleep (500 * Millisecond))
    o ctx batch
  have as := atomicAdd_eq _ _ (Int.ofNat_nonneg batch.length) hs
  have af := atomicAdd_eq _ _ (Int.ofNat_nonneg batch.length) hf
  constructor
  · intro h
    obtain ⟨hd, -, hm⟩ := fs.1 h
    rw [hd, hm, s1.1]
    simp [as]
  · intro h
    obtain ⟨hd, -, -, hm1, hm2⟩ := fs.2 h
    refine ⟨?_, ?_, ?_⟩
    · rw [hd, s2.1, (sleep_fields _ _).1, s1.1]
      simp
    · intro h2
      rw [hm1 h2]
      simp [as]
    · intro h2
      rw [hm2 h2]
      simp [af]

/-- Claim C8.  `flush` calls the bulk insert once, and a second time exactly
when the first call failed.  If the first or the second call succeeds the
success counter rises by the batch size and the failure counter is unchanged;
if both fail the failure counter rises by the batch size and the success
counter is unchanged. -/
theorem C8_flush_retries_once (w : DBWriter) (o : Oracle) (world : World) (ctx : Context)
    (batch : List TelemetryMessage)
    (hs : counts world.metrics.DBWriteSuccess batch.length)
    (hf : counts world.metrics.DBWriteFailures batch.length) :
    ((world.BatchInsert o ctx batch).1 = none →
      (w.flush o world ctx batch).db.calls = world.db.calls ++ [.BatchInsert ctx batch] ∧
      (w.flush o world ctx batch).metrics.DBWriteSuccess =
        world.metrics.DBWriteSuccess + batch.length ∧
      (w.flush o world ctx batch).metrics.DBWriteFailures = world.metrics.DBWriteFailures) ∧
    ((world.BatchInsert o ctx batch).1 ≠ none →
      (w.flush o world ctx batch).db.calls =
        world.db.calls ++ [.BatchInsert ctx batch, .BatchInsert ctx batch] ∧
      ((((world.BatchInsert o ctx batch).2.sleep (500 * Millisecond)).BatchInsert o ctx
          batch).1 = none →
        (w.flush o world ctx batch).metrics.DBWriteSuccess =
          world.metrics.DBWriteSuccess + batch.length ∧
        (w.flush o world ctx batch).metrics.DBWriteFailures = world.metrics.DBWriteFailures) ∧
      ((((world.BatchInsert o ctx batch).2.sleep (500 * Millisecond)).BatchInsert o ctx
          batch).1 ≠ none →
        (w.flush o world ctx batch).metrics.DBWriteFailures =
          world.metrics.DBWriteFailures + batch.length ∧
        (w.flush o world ctx batch).metrics.DBWriteSuccess = world.metrics.DBWriteSuccess)) :=
  flush_outcome w o world ctx batch hs hf

theorem C8_flush_retries_once_witness :
    ((DBWriter.mk 500 100).flush dbDownOracle emptyWorld .Background
        (List.replicate 10 speedingMsg)).metrics.DBWriteFailures = 10 ∧
    ((DBWriter.mk 500 100).flush dbDownOracle emptyWorld .Background
        (List.replicate 10 speedingMsg)).metrics.DBWriteSuccess = 0 ∧
    ((DBWriter.mk 500 100).flush dbDownOracle emptyWorld .Background
        (List.replicate 10 speedingMsg)).db.calls.length = 2 :=
  have h := (C8_flush_retries_once (DBWriter.mk 500 100) dbDownOracle emptyWorld .Background
    (List.replicate 10 speedingMsg) (by decide) (by decide)).2 (by decide)
  ⟨(h.2.2 (by decide)).1, (h.2.2 (by decide)).2, by rw [h.1]; rfl⟩

/-- The counters after a flush: one of them has grown by the batch size. -/
theorem flush_counts (w : DBWriter) (o : Oracle) (world : World) (ctx : Context)
    (batch : List TelemetryMessage)
    (h0s : 0 ≤ world.metrics.DBWriteSuccess) (h0f : 0 ≤ world.metrics.DBWriteFailures)
    (hb : world.metrics.DBWriteSuccess + world.metrics.DBWriteFailures + batch.length
      < 2 ^ 63) :
    0 ≤ (w.flush o world ctx batch).metrics.DBWriteSuccess ∧
    0 ≤ (w.flush o world ctx batch).metrics.DBWriteFailures ∧
    (w.flush o world ctx batch).metrics.DBWriteSuccess +
      (w.flush o world ctx batch).metrics.DBWriteFailures =
      world.metrics.DBWriteSuccess + world.metrics.DBWriteFailures + batch.length := by
  have hn : (0 : Int) ≤ batch.length := Int.ofNat_nonneg _
  have hs : counts world.metrics.DBWriteSuccess batch.length := ⟨h0s, by omega⟩
  have hf : counts world.metrics.DBWriteFailures batch.length := ⟨h0f, by omega⟩
  have c8 := flush_outcome w o world ctx batch hs hf
  by_cases h1 : (world.BatchInsert o ctx batch).1 = none
  · obtain ⟨-, e1, e2⟩ := c8.1 h1
    rw [e1, e2]
    omega
  · obtain ⟨-, c1, c2⟩ := c8.2 h1
    by_cases h2 : (((world.BatchInsert o ctx batch).2.sleep (500 * Millisecond)).BatchInsert
        o ctx batch).1 = none
    · obtain ⟨e1, e2⟩ := c1 h2
      rw [e1, e2]
      omega
    · obtain ⟨e1, e2⟩ := c2 h2
      rw [e1, e2]
      omega

/-- One iteration of the bulk writer keeps the accounting of the counters. -/
theorem DBWriter_handle_inv (w : DBWriter) (o : Oracle) (ctx : Context) (s : Loop) (e : Event)
    (h0s : 0 ≤ s.world.metrics.DBWriteSuccess) (h0f : 0 ≤ s.world.metrics.DBWriteFailures)
    (hinv : s.world.metrics.DBWriteSuccess + s.world.metrics.DBWriteFailures
      + s.batch.length = s.taken)
    (hb : (s.taken : Int) + 1 < 2 ^ 63) (hst : s.stopped = false) :
    0 ≤ (w.handle o ctx s e).world.metrics.DBWriteSuccess ∧
    0 ≤ (w.handle o ctx s e).world.metrics.DBWriteFailures ∧
    (w.handle o ctx s e).taken = s.taken + (if e.isRecv then 1 else 0) ∧
    ((w.handle o ctx s e).stopped = false →
      (w.handle o ctx s e).world.metrics.DBWriteSuccess +
        (w.handle o ctx s e).world.metrics.DBWriteFailures +
        (w.handle o ctx s e).batch.length = (w.handle o ctx s e).taken) ∧
    ((w.handle o ctx s e).stopped = true →
      (w.handle o ctx s e).world.metrics.DBWriteSuccess +
        (w.handle o ctx s e).world.metrics.DBWriteFailures = (w.handle o ctx s e).taken) := by
  have hfl : ∀ c, 0 ≤ (w.flush o s.world c s.batch).metrics.DBWriteSuccess ∧
      0 ≤ (w.flush o s.world c s.batch).metrics.DBWriteFailures ∧
      (w.flush o s.world c s.batch).metrics.DBWriteSuccess +
        (w.flush o s.world c s.batch).metrics.DBWriteFailures = s.taken :=
    fun c => by
      have := flush_counts w o s.world c s.batch h0s h0f (by omega)
      refine ⟨this.1, this.2.1, ?_⟩
      rw [this.2.2, hinv]
  cases e with
  | closed =>
    unfold DBWriter.handle
    simp only []
    split
    · have := hfl ctx
      simp [Event.isRecv, this.1, this.2.1, this.2.2]
    · rename_i hlen
      have : s.batch.length = 0 := by omega
      rw [this] at hinv
      simp [Event.isRecv, h0s, h0f]
      simpa using hinv
  | done =>
    unfold DBWriter.handle
    simp only []
    split
    · have := hfl ctx.cancel
      simp [Event.isRecv, this.1, this.2.1, this.2.2]
    · rename_i hlen
      have : s.batch.length = 0 := by omega
      rw [this] at hinv
      simp [Event.isRecv, h0s, h0f]
      simpa using hinv
  | tick =>
    unfold DBWriter.handle
    simp only []
    split
    · have := hfl ctx
      simp [Event.isRecv, this.1, this.2.1]
      constructor
      · intro _; exact this.2.2
      · intro _; exact this.2.2
    · rename_i hlen
      have hz : s.batch.length = 0 := by omega
      simp [Event.isRecv, h0s, h0f]
      constructor
      · intro _; exact hinv
      · intro _; rw [hz] at hinv; simpa using hinv
  | recv msg =>
    unfold DBWriter.handle
    simp only []
    split
    · have := flush_counts w o s.world ctx (s.batch ++ [msg]) h0s h0f
        (by simp only [List.length_append, List.length_singleton]; push_cast; omega)
      simp only [List.length_append, List.length_singleton] at this
      push_cast at this
      simp [Event.isRecv, this.1, this.2.1]
      constructor
      · intro _; rw [this.2.2]; omega
      · intro _; rw [this.2.2]; omega
    · simp only [Event.isRecv, if_true, List.length_append, List.length_singleton, h0s, h0f,
        true_and]
      refine ⟨?_, ?_⟩
      · intro _
        push_cast
        omega
      · intro h
        rw [hst] at h
        exact absurd h (by simp)

/-- The accounting of the counters along the loop of the bulk writer, from any
state that satisfies it. -/
theorem DBWriter_loop_inv (w : DBWriter) (o : Oracle) (ctx : Context) (events : List Event) :
    ∀ (s : Loop), s.stopped = false →
      0 ≤ s.world.metrics.DBWriteSuccess → 0 ≤ s.world.metrics.DBWriteFailures →
      s.world.metrics.DBWriteSuccess + s.world.metrics.DBWriteFailures
        + s.batch.length = s.taken →
      (s.taken : Int) + events.length < 2 ^ 63 →
      (∃ handled, events = handled ++ (w.loop o ctx s events).2 ∧
        (w.loop o ctx s events).1.taken = s.taken + (handled.filter Event.isRecv).length) ∧
      ((w.loop o ctx s events).1.stopped = false →
        (w.loop o ctx s events).1.world.metrics.DBWriteSuccess +
          (w.loop o ctx s events).1.world.metrics.DBWriteFailures =
          (w.loop o ctx s events).1.taken - (w.loop o ctx s events).1.batch.length) ∧
      ((w.loop o ctx s events).1.stopped = true →
        (w.loop o ctx s events).1.world.metrics.DBWriteSuccess +
          (w.loop o ctx s events).1.world.metrics.DBWriteFailures =
          (w.loop o ctx s events).1.taken) := by
  induction events with
  | nil =>
    intro s hst h0s h0f hinv _
    refine ⟨⟨[], by simp [DBWriter.loop], by simp [DBWriter.loop]⟩, ?_, ?_⟩
    · intro _
      simp only [DBWriter.loop]
      omega
    · intro h
      simp only [DBWriter.loop] at h
      rw [hst] at h
      exact absurd h (by simp)
  | cons e es ih =>
    intro s hst h0s h0f hinv hb
    simp only [List.length_cons] at hb
    push_cast at hb
    obtain ⟨g0s, g0f, gtk, grun, gstop⟩ :=
      DBWriter_handle_inv w o ctx s e h0s h0f hinv (by omega) hst
    have hle : (w.handle o ctx s e).taken ≤ s.taken + 1 := by
      rw [gtk]; split <;> omega
    by_cases hs' : (w.handle o ctx s e).stopped = true
    · have hl : w.loop o ctx s (e :: es) = (w.handle o ctx s e, es) := by
        simp [DBWriter.loop, hs']
      rw [hl]
      refine ⟨⟨[e], by simp, ?_⟩, ?_, ?_⟩
      · rw [gtk]
        cases e <;> simp [Event.isRecv]
      · intro h
        simp only [] at h
        rw [hs'] at h
        exact absurd h (by simp)
      · intro _
        exact gstop hs'
    · have hs'' : (w.handle o ctx s e).stopped = false := by simpa using hs'
      have hl : w.loop o ctx s (e :: es) = w.loop o ctx (w.handle o ctx s e) es := by
        simp [DBWriter.loop, hs'']
      rw [hl]
      obtain ⟨⟨handled, hh, ht⟩, r1, r2⟩ :=
        ih (w.handle o ctx s e) hs'' g0s g0f (grun hs'') (by omega)
      refine ⟨⟨e :: handled, ?_, ?_⟩, r1, r2⟩
      · simp only [List.cons_append]
        rw [← hh]
      · rw [ht, gtk]
        cases e <;> (simp [Event.isRecv, List.filter_cons]; try omega)

/-- Claim C9.  In the event loop of a bulk writer started with both counters at
0, after the events handled so far the success counter plus the failure counter
equals the number of messages taken from the queue minus the number in the
batch buffer, and equals the number of messages taken once the worker has
returned on shutdown or queue close.  `Run` itself returns this loop state
when the configuration does not make it panic. -/
theorem C9_counters_account_for_taken (w : DBWriter) (o : Oracle) (ctx : Context)
    (world : World) (events : List Event)
    (hcfg : 0 ≤ w.batchSize ∧ 0 < wrapInt64 (w.flushMS * Millisecond))
    (h0s : world.metrics.DBWriteSuccess = 0) (h0f : world.metrics.DBWriteFailures = 0)
    (hlen : (events.length : Int) < 2 ^ 63) :
    ∃ out handled, w.Run o ctx world events = some out ∧
      events = handled ++ out.2 ∧
      out.1.taken = (handled.filter Event.isRecv).length ∧
      (out.1.stopped = false →
        out.1.world.metrics.DBWriteSuccess + out.1.world.metrics.DBWriteFailures =
          out.1.taken - out.1.batch.length) ∧
      (out.1.stopped = true →
        out.1.world.metrics.DBWriteSuccess + out.1.world.metrics.DBWriteFailures =
          out.1.taken) := by
  obtain ⟨⟨handled, hh, ht⟩, r1, r2⟩ := DBWriter_loop_inv w o ctx events
    { batch := [], world := world, taken := 0, stopped := false } rfl
    (by simp [h0s]) (by simp [h0f]) (by simp [h0s, h0f]) (by simpa using hlen)
  refine ⟨_, handled, ?_, hh, ?_, r1, r2⟩
  · unfold DBWriter.Run
    rw [if_neg (by omega), if_neg (by omega)]
  · simpa using ht

theorem C9_counters_account_for_taken_witness :
    ∃ out handled, (DBWriter.mk 2 100).Run dbDownOracle (.WithCancel false) emptyWorld
        [.recv speedingMsg, .recv speedingMsg, .recv speedingMsg, .done, .recv speedingMsg]
        = some out ∧
      [.recv speedingMsg, .recv speedingMsg, .recv speedingMsg, .done, .recv speedingMsg]
        = handled ++ out.2 ∧
      out.1.taken = (handled.filter Event.isRecv).length ∧
      (out.1.stopped = false →
        out.1.world.metrics.DBWriteSuccess + out.1.world.metrics.DBWriteFailures =
          out.1.taken - out.1.batch.length) ∧
      (out.1.stopped = true →
        out.1.world.metrics.DBWriteSuccess + out.1.world.metrics.DBWriteFailures =
          out.1.taken) :=
  C9_counters_account_for_taken (DBWriter.mk 2 100) dbDownOracle (.WithCancel false) emptyWorld
    [.recv speedingMsg, .recv speedingMsg, .recv speedingMsg, .done, .recv speedingMsg]
    (by decide) rfl rfl (by decide)

theorem DBWriter_loop_cons (w : DBWriter) (o : Oracle) (ctx : Context) (s : Loop) (e : Event)
    (es : List Event) (h : (w.handle o ctx s e).stopped = false) :
    w.loop o ctx s (e :: es) = w.loop o ctx (w.handle o ctx s e) es := by
  simp [DBWriter.loop, h]

theorem StateWriter_loop_cons (w : StateWriter) (o : Oracle) (ctx : Context) (s : Loop)
    (e : Event) (es : List Event) (h : (w.handle o ctx s e).stopped = false) :
    w.loop o ctx s (e :: es) = w.loop o ctx (w.handle o ctx s e) es := by
  simp [StateWriter.loop, h]

/-- Messages received while the batch stays below the maximum are appended to
the buffer in arrival order and nothing else happens. -/
theorem DBWriter_loop_recv (w : DBWriter) (o : Oracle) (ctx : Context)
    (ms : List TelemetryMessage) (es : List Event) :
    ∀ (s : Loop), s.stopped = false → ((s.batch ++ ms).length : Int) < w.batchSize →
      w.loop o ctx s (ms.map .recv ++ es) =
        w.loop o ctx { s with batch := s.batch ++ ms, taken := s.taken + ms.length } es := by
  induction ms with
  | nil => intro s _ _; simp
  | cons m ms ih =>
    intro s hst hlen
    simp only [List.length_append, List.length_cons] at hlen
    push_cast at hlen
    have hno : ¬ (((s.batch ++ [m]).length : Int) ≥ w.batchSize) := by
      simp only [List.length_append, List.length_singleton]
      push_cast
      omega
    have hh : w.handle o ctx s (.recv m) =
        { s with batch := s.batch ++ [m], taken := s.taken + 1 } := by
      simp only [DBWriter.handle, if_neg hno]
    rw [List.map_cons, List.cons_append, DBWriter_loop_cons _ _ _ _ _ _ (by rw [hh]; exact hst),
      hh, ih { s with batch := s.batch ++ [m], taken := s.taken + 1 } hst (by
        simp only [List.length_append, List.length_singleton]
        push_cast
        omega)]
    simp [List.append_assoc, Nat.add_assoc, Nat.add_comm 1]

theorem StateWriter_loop_recv (w : StateWriter) (o : Oracle) (ctx : Context)
    (ms : List TelemetryMessage) (es : List Event) :
    ∀ (s : Loop), s.stopped = false → (s.batch ++ ms).length < 100 →
      w.loop o ctx s (ms.map .recv ++ es) =
        w.loop o ctx { s with batch := s.batch ++ ms, taken := s.taken + ms.length } es := by
  induction ms with
  | nil => intro s _ _; simp
  | cons m ms ih =>
    intro s hst hlen
    simp only [List.length_append, List.length_cons] at hlen
    have hno : ¬ ((s.batch ++ [m]).length ≥ 100) := by
      simp only [List.length_append, List.length_singleton]
      omega
    have hh : w.handle o ctx s (.recv m) =
        { s with batch := s.batch ++ [m], taken := s.taken + 1 } := by
      simp only [StateWriter.handle, if_neg hno]
    rw [List.map_cons, List.cons_append,
      StateWriter_loop_cons _ _ _ _ _ _ (by rw [hh]; exact hst),
      hh, ih { s with batch := s.batch ++ [m], taken := s.taken + 1 } hst (by
        simp only [List.length_append, List.length_singleton]
        omega)]
    simp [List.append_assoc, Nat.add_assoc, Nat.add_comm 1]

theorem put_calls (r : RedisStore) (k : String) (e : RedisEntry) :
    (r.put k e).calls = r.calls ∧ (r.put k e).published = r.published := by
  simp [RedisStore.put]

theorem cmdHSet_calls (r : RedisStore) (now : Time) (k : String) (f : List (String × Value)) :
    (r.cmdHSet now k f).2.calls = r.calls ∧ (r.cmdHSet now k f).2.published = r.published := by
  unfold RedisStore.cmdHSet
  split
  · simp [put_calls]
  · split <;> simp [put_calls]

theorem cmdExpire_calls (r : RedisStore) (now : Time) (k : String) (d : Duration) :
    (r.cmdExpire now k d).calls = r.calls ∧
    (r.cmdExpire now k d).published = r.published := by
  unfold RedisStore.cmdExpire
  split <;> simp [put_calls]

theorem cmdGeoAdd_calls (r : RedisStore) (now : Time) (k n : String) (x y : Float64) :
    (r.cmdGeoAdd now k n x y).2.calls = r.calls ∧
    (r.cmdGeoAdd now k n x y).2.published = r.published := by
  unfold RedisStore.cmdGeoAdd
  split
  · simp
  · split
    · simp [put_calls]
    · split <;> simp [put_calls]

theorem RedisStore_PipelineStateUpdate_calls (r : RedisStore) (now : Time) (fault : Bool)
    (ctx : Context) (msg : TelemetryMessage) :
    (r.PipelineStateUpdate now fault ctx msg).2.calls =
      r.calls ++ [.PipelineStateUpdate ctx msg] := by
  unfold RedisStore.PipelineStateUpdate
  simp only []
  split
  · simp [RedisStore.logCall]
  · split
    · simp [RedisStore.logCall]
    · have h1 := cmdHSet_calls (r.logCall (.PipelineStateUpdate ctx msg)) now
        (vehicleStateKey msg.VehicleID) (stateData msg)
      have h2 := cmdExpire_calls ((r.logCall (.PipelineStateUpdate ctx msg)).cmdHSet now
        (vehicleStateKey msg.VehicleID) (stateData msg)).2 now
        (vehicleStateKey msg.VehicleID) (30 * Second)
      have h3 := cmdGeoAdd_calls (((r.logCall (.PipelineStateUpdate ctx msg)).cmdHSet now
        (vehicleStateKey msg.VehicleID) (stateData msg)).2.cmdExpire now
        (vehicleStateKey msg.VehicleID) (30 * Second)) now (geoKey msg.FleetID)
        msg.VehicleID msg.Longitude msg.Latitude
      split <;> simp only [RedisStore.cmdPublish, h3.1, h2.1, h1.1] <;>
        simp [RedisStore.logCall]

theorem PipelineStateUpdate_spec (w : World) (o : Oracle) (ctx : Context)
    (msg : TelemetryMessage) :
    (w.PipelineStateUpdate o ctx msg).2.redis.calls =
      w.redis.calls ++ [.PipelineStateUpdate ctx msg] ∧
    (w.PipelineStateUpdate o ctx msg).2.db = w.db ∧
    (w.PipelineStateUpdate o ctx msg).2.metrics = w.metrics := by
  unfold World.PipelineStateUpdate World.advance
  simp [RedisStore_PipelineStateUpdate_calls]

/-- A flush of the state writer calls the grouped state update once for each
message of the batch, in order, and touches nothing else. -/
theorem flushBatch_spec (w : StateWriter) (o : Oracle) (ctx : Context)
    (batch : List TelemetryMessage) :
    ∀ (world : World),
      (w.flushBatch o world ctx batch).redis.calls =
        world.redis.calls ++ batch.map (.PipelineStateUpdate ctx) ∧
      (w.flushBatch o world ctx batch).db = world.db ∧
      (w.flushBatch o world ctx batch).metrics = world.metrics := by
  induction batch with
  | nil => intro world; simp [StateWriter.flushBatch]
  | cons m ms ih =>
    intro world
    have h1 := PipelineStateUpdate_spec world o ctx m
    have h2 := ih (world.PipelineStateUpdate o ctx m).2
    simp only [StateWriter.flushBatch, List.foldl_cons] at h2 ⊢
    rw [h2.1, h2.2.1, h2.2.2, h1.1, h1.2.1, h1.2.2]
    simp

/-- One flush of the bulk writer issues the bulk insert of the batch once, or
twice when the first attempt failed, and stores the rows of the batch at most
once, in batch order. -/
theorem flush_calls_rows (w : DBWriter) (o : Oracle) (world : World) (ctx : Context)
    (batch : List TelemetryMessage) :
    (w.flush o world ctx batch).redis = world.redis ∧
    (((w.flush o world ctx batch).db.calls = world.db.calls ++ [.BatchInsert ctx batch] ∧
        (w.flush o world ctx batch).db.vehicle_telemetry =
          world.db.vehicle_telemetry ++ batch.map telemetryRow) ∨
      ((w.flush o world ctx batch).db.calls =
          world.db.calls ++ [.BatchInsert ctx batch, .BatchInsert ctx batch] ∧
        ((w.flush o world ctx batch).db.vehicle_telemetry =
            world.db.vehicle_telemetry ++ batch.map telemetryRow ∨
          (w.flush o world ctx batch).db.vehicle_telemetry = world.db.vehicle_telemetry))) := by
  have fs := flush_spec w o world ctx batch
  have s1 := BatchInsert_spec world o ctx batch
  have s2 := BatchInsert_spec ((world.BatchInsert o ctx batch).2.sleep (500 * Millisecond))
    o ctx batch
  have sl := sleep_fields (world.BatchInsert o ctx batch).2 (500 * Millisecond)
  by_cases h1 : (world.BatchInsert o ctx batch).1 = none
  · obtain ⟨hd, hr, -⟩ := fs.1 h1
    refine ⟨hr, Or.inl ⟨?_, ?_⟩⟩
    · rw [hd, s1.1]
    · rw [hd]
      rcases s1.2.2.2.2.2 with ⟨-, h⟩ | ⟨h, -⟩
      · exact h
      · exact absurd h1 h
  · obtain ⟨hd, hr, -, -, -⟩ := fs.2 h1
    refine ⟨hr, Or.inr ⟨?_, ?_⟩⟩
    · rw [hd, s2.1, sl.1, s1.1]
      simp
    · have hrow1 : (world.BatchInsert o ctx batch).2.db.vehicle_telemetry
          = world.db.vehicle_telemetry := by
        rcases s1.2.2.2.2.2 with ⟨h, -⟩ | ⟨-, h⟩
        · exact absurd h h1
        · exact h
      rw [hd]
      rcases s2.2.2.2.2.2 with ⟨-, h⟩ | ⟨-, h⟩
      · left
        rw [h, sl.1, hrow1]
      · right
        rw [h, sl.1, hrow1]

/-- The calls of the final flush.  A bulk writer or a state writer that has
received the messages `ms` on top of its buffer, without reaching its maximum
batch size, and then handles the shutdown signal or the close of its queue,
issues the flush of exactly the buffered messages, in arrival order, once (no
store call at all when it holds none; the bulk writer repeats the insert of
the batch once when the first attempt fails, the state writer calls the store
once per held message), and returns without taking any of the remaining
events.  On the shutdown signal the calls carry the cancelled context. -/
theorem final_flush_calls :
    (∀ (w : DBWriter) (o : Oracle) (ctx : Context) (s : Loop) (ms : List TelemetryMessage)
        (e : Event) (rest : List Event),
      s.stopped = false → (ms = [] ∨ ((s.batch ++ ms).length : Int) < w.batchSize) →
      (e = .done ∨ e = .closed) →
      (w.loop o ctx s (ms.map .recv ++ e :: rest)).2 = rest ∧
      (w.loop o ctx s (ms.map .recv ++ e :: rest)).1.stopped = true ∧
      (w.loop o ctx s (ms.map .recv ++ e :: rest)).1.taken = s.taken + ms.length ∧
      (s.batch ++ ms = [] →
        (w.loop o ctx s (ms.map .recv ++ e :: rest)).1.world = s.world) ∧
      (s.batch ++ ms ≠ [] →
        (w.loop o ctx s (ms.map .recv ++ e :: rest)).1.world =
          w.flush o s.world (if e = .done then ctx.cancel else ctx) (s.batch ++ ms) ∧
        (w.loop o ctx s (ms.map .recv ++ e :: rest)).1.world.redis = s.world.redis ∧
        (((w.loop o ctx s (ms.map .recv ++ e :: rest)).1.world.db.calls = s.world.db.calls ++
              [.BatchInsert (if e = .done then ctx.cancel else ctx) (s.batch ++ ms)] ∧
            (w.loop o ctx s (ms.map .recv ++ e :: rest)).1.world.db.vehicle_telemetry =
              s.world.db.vehicle_telemetry ++ (s.batch ++ ms).map telemetryRow) ∨
          ((w.loop o ctx s (ms.map .recv ++ e :: rest)).1.world.db.calls = s.world.db.calls ++
              [.BatchInsert (if e = .done then ctx.cancel else ctx) (s.batch ++ ms),
               .BatchInsert (if e = .done then ctx.cancel else ctx) (s.batch ++ ms)] ∧
            ((w.loop o ctx s (ms.map .recv ++ e :: rest)).1.world.db.vehicle_telemetry =
                s.world.db.vehicle_telemetry ++ (s.batch ++ ms).map telemetryRow ∨
              (w.loop o ctx s (ms.map .recv ++ e :: rest)).1.world.db.vehicle_telemetry =
                s.world.db.vehicle_telemetry))))) ∧
    (∀ (w : StateWriter) (o : Oracle) (ctx : Context) (s : Loop) (ms : List TelemetryMessage)
        (e : Event) (rest : List Event),
      s.stopped = false → (ms = [] ∨ (s.batch ++ ms).length < 100) →
      (e = .done ∨ e = .closed) →
      (w.loop o ctx s (ms.map .recv ++ e :: rest)).2 = rest ∧
      (w.loop o ctx s (ms.map .recv ++ e :: rest)).1.stopped = true ∧
      (w.loop o ctx s (ms.map .recv ++ e :: rest)).1.taken = s.taken + ms.length ∧
      (w.loop o ctx s (ms.map .recv ++ e :: rest)).1.world =
        w.flushBatch o s.world (if e = .done then ctx.cancel else ctx) (s.batch ++ ms) ∧
      (w.loop o ctx s (ms.map .recv ++ e :: rest)).1.world.redis.calls = s.world.redis.calls ++
        (s.batch ++ ms).map (.PipelineStateUpdate (if e = .done then ctx.cancel else ctx)) ∧
      (w.loop o ctx s (ms.map .recv ++ e :: rest)).1.world.db = s.world.db) := by
  constructor
  · intro w o ctx s ms e rest hst hlen he
    have hrecv : w.loop o ctx s (ms.map .recv ++ e :: rest) =
        w.loop o ctx { s with batch := s.batch ++ ms, taken := s.taken + ms.length }
          (e :: rest) := by
      rcases hlen with rfl | h
      · simp
      · exact DBWriter_loop_recv w o ctx ms (e :: rest) s hst h
    rw [hrecv]
    by_cases hb : s.batch ++ ms = []
    · have hl : ¬ ((s.batch ++ ms).length > 0) := by simp [hb]
      rcases he with rfl | rfl <;>
        simp [DBWriter.loop, DBWriter.handle, hl, hb]
    · have hl : (s.batch ++ ms).length > 0 := List.length_pos.mpr hb
      have hloop : w.loop o ctx { s with batch := s.batch ++ ms, taken := s.taken + ms.length }
          (e :: rest) =
          ({ batch := s.batch ++ ms,
             world := w.flush o s.world (if e = .done then ctx.cancel else ctx) (s.batch ++ ms),
             taken := s.taken + ms.length, stopped := true }, rest) := by
        rcases he with rfl | rfl <;>
          (simp only [DBWriter.loop, DBWriter.handle, hl, if_true]; try simp)
      rw [hloop]
      have fc := flush_calls_rows w o s.world (if e = .done then ctx.cancel else ctx)
        (s.batch ++ ms)
      exact ⟨rfl, rfl, rfl, fun h => absurd h hb, fun _ => ⟨rfl, fc.1, fc.2⟩⟩
  · intro w o ctx s ms e rest hst hlen he
    have hrecv : w.loop o ctx s (ms.map .recv ++ e :: rest) =
        w.loop o ctx { s with batch := s.batch ++ ms, taken := s.taken + ms.length }
          (e :: rest) := by
      rcases hlen with rfl | h
      · simp
      · exact StateWriter_loop_recv w o ctx ms (e :: rest) s hst h
    rw [hrecv]
    have hloop : w.loop o ctx { s with batch := s.batch ++ ms, taken := s.taken + ms.length }
        (e :: rest) =
        ({ batch := s.batch ++ ms,
           world := w.flushBatch o s.world (if e = .done then ctx.cancel else ctx)
             (s.batch ++ ms),
           taken := s.taken + ms.length, stopped := true }, rest) := by
      rcases he with rfl | rfl <;> simp [StateWriter.loop, StateWriter.handle]
    rw [hloop]
    have fb := flushBatch_spec w o (if e = .done then ctx.cancel else ctx) (s.batch ++ ms)
      s.world
    exact ⟨rfl, rfl, rfl, rfl, fb.1, fb.2.1⟩

/-- A bulk insert of a non-empty batch with a cancelled context returns an
error and stores no row, in every environment that honours cancellation. -/
theorem BatchInsert_refused (w : World) (o : Oracle) (msgs : List TelemetryMessage)
    (hm : msgs ≠ []) (ho : o.honoursCancel) :
    (w.BatchInsert o (.WithCancel true) msgs).1 ≠ none ∧
    (w.BatchInsert o (.WithCancel true) msgs).2.db.vehicle_telemetry =
      w.db.vehicle_telemetry := by
  have hf : ∀ n, o.dbFault n (.BatchInsert (.WithCancel true) msgs) = true :=
    fun n => ho.1 n _ rfl
  have hl : (msgs.length == 0) = false := by
    cases msgs with
    | nil => exact absurd rfl hm
    | cons _ _ => rfl
  simp [World.BatchInsert, TimescaleStore.BatchInsert, World.advance, hf, hl]

/-- The shutdown flush of the bulk writer: both attempts are made with the
cancelled context and are refused, so no row is stored and the batch is
counted as failed. -/
theorem flush_cancelled_stores_nothing (w : DBWriter) (o : Oracle) (world : World)
    (batch : List TelemetryMessage) (hb : batch ≠ []) (ho : o.honoursCancel)
    (hs : counts world.metrics.DBWriteSuccess batch.length)
    (hf : counts world.metrics.DBWriteFailures batch.length) :
    (w.flush o world (.WithCancel true) batch).db.vehicle_telemetry =
      world.db.vehicle_telemetry ∧
    (w.flush o world (.WithCancel true) batch).db.calls = world.db.calls ++
      [.BatchInsert (.WithCancel true) batch, .BatchInsert (.WithCancel true) batch] ∧
    (w.flush o world (.WithCancel true) batch).metrics.DBWriteFailures =
      world.metrics.DBWriteFailures + batch.length ∧
    (w.flush o world (.WithCancel true) batch).metrics.DBWriteSuccess =
      world.metrics.DBWriteSuccess := by
  have r1 := BatchInsert_refused world o batch hb ho
  have r2 := BatchInsert_refused
    ((world.BatchInsert o (.WithCancel true) batch).2.sleep (500 * Millisecond)) o batch hb ho
  have fs := (flush_spec w o world (.WithCancel true) batch).2 r1.1
  have fo := (flush_outcome w o world (.WithCancel true) batch hs hf).2 r1.1
  have sl := sleep_fields (world.BatchInsert o (.WithCancel true) batch).2 (500 * Millisecond)
  refine ⟨?_, fo.1, (fo.2.2 r2.1).1, (fo.2.2 r2.1).2⟩
  rw [fs.1, r2.2, sl.1, r1.2]

/-- A state update with a cancelled context writes nothing to the live store,
in every environment that honours cancellation. -/
theorem PipelineStateUpdate_refused (w : World) (o : Oracle) (msg : TelemetryMessage)
    (ho : o.honoursCancel) :
    (w.PipelineStateUpdate o (.WithCancel true) msg).1 ≠ none ∧
    (w.PipelineStateUpdate o (.WithCancel true) msg).2.redis.keys = w.redis.keys ∧
    (w.PipelineStateUpdate o (.WithCancel true) msg).2.redis.published =
      w.redis.published := by
  have hf : ∀ n, o.redisFault n (.PipelineStateUpdate (.WithCancel true) msg) = true :=
    fun n => ho.2 n _ rfl
  unfold World.PipelineStateUpdate RedisStore.PipelineStateUpdate World.advance
  simp only [hf]
  split <;> simp [RedisStore.logCall]

/-- The shutdown flush of the state writer writes nothing. -/
theorem shutdown_flushBatch_writes_nothing (w : StateWriter) (o : Oracle)
    (ho : o.honoursCancel) (batch : List TelemetryMessage) :
    ∀ (world : World),
      (w.flushBatch o world (.WithCancel true) batch).redis.keys = world.redis.keys ∧
      (w.flushBatch o world (.WithCancel true) batch).redis.published =
        world.redis.published := by
  induction batch with
  | nil => intro world; simp [StateWriter.flushBatch]
  | cons m ms ih =>
    intro world
    have h1 := PipelineStateUpdate_refused world o m ho
    have h2 := ih (world.PipelineStateUpdate o (.WithCancel true) m).2
    simp only [StateWriter.flushBatch, List.foldl_cons] at h2 ⊢
    exact ⟨h2.1.trans h1.2.1, h2.2.trans h1.2.2⟩

/-- On the shutdown signal neither writer stores any of the messages it
holds, in every environment that honours cancellation. -/
theorem shutdown_stores_nothing (o : Oracle) (ho : o.honoursCancel) (b : Bool) (s : Loop) :
    (∀ w : DBWriter,
      (w.handle o (.WithCancel b) s .done).stopped = true ∧
      (w.handle o (.WithCancel b) s .done).world.db.vehicle_telemetry =
        s.world.db.vehicle_telemetry) ∧
    (∀ w : StateWriter,
      (w.handle o (.WithCancel b) s .done).stopped = true ∧
      (w.handle o (.WithCancel b) s .done).world.redis.keys = s.world.redis.keys ∧
      (w.handle o (.WithCancel b) s .done).world.redis.published =
        s.world.redis.published) := by
  constructor
  · intro w
    by_cases hb : s.batch.length > 0
    · have hne : s.batch ≠ [] := List.length_pos.mp hb
      have r1 := BatchInsert_refused s.world o s.batch hne ho
      have r2 := BatchInsert_refused
        ((s.world.BatchInsert o (.WithCancel true) s.batch).2.sleep (500 * Millisecond))
        o s.batch hne ho
      have fs := (flush_spec w o s.world (.WithCancel true) s.batch).2 r1.1
      have sl := sleep_fields (s.world.BatchInsert o (.WithCancel true) s.batch).2
        (500 * Millisecond)
      simp only [DBWriter.handle, hb, if_true, Context.cancel]
      exact ⟨trivial, by rw [fs.1, r2.2, sl.1, r1.2]⟩
    · simp [DBWriter.handle, hb]
  · intro w
    have h := shutdown_flushBatch_writes_nothing w o ho s.batch s.world
    simp only [StateWriter.handle, Context.cancel]
    exact ⟨trivial, h.1, h.2⟩

/-- Claim C10, on the code.  A bulk writer and a state writer each
receive two messages and then handle the shutdown signal, in an environment
that refuses the calls made with a cancelled context.  Each worker returns
without taking the next message, but the final flush is issued with the
cancelled context: the bulk writer makes two refused inserts, stores no row
and counts the two messages as failed; the state writer makes two refused
updates and writes no state key and no publication.  When the queue is closed
instead, the same messages are stored. -/
theorem C10_shutdown_flush_stores_nothing :
    ((DBWriter.mk 500 100).loop cancelOracle (.WithCancel false) freshLoop
        [.recv speedingMsg, .recv secondMsg, .done, .recv hotMsg]).2 = [.recv hotMsg] ∧
    ((DBWriter.mk 500 100).loop cancelOracle (.WithCancel false) freshLoop
        [.recv speedingMsg, .recv secondMsg, .done, .recv hotMsg]).1.stopped = true ∧
    ((DBWriter.mk 500 100).loop cancelOracle (.WithCancel false) freshLoop
        [.recv speedingMsg, .recv secondMsg, .done, .recv hotMsg]).1.world.db.calls =
      [.BatchInsert (.WithCancel true) [speedingMsg, secondMsg],
       .BatchInsert (.WithCancel true) [speedingMsg, secondMsg]] ∧
    ((DBWriter.mk 500 100).loop cancelOracle (.WithCancel false) freshLoop
        [.recv speedingMsg, .recv secondMsg, .done, .recv hotMsg]).1.world.db.vehicle_telemetry
      = [] ∧
    ((DBWriter.mk 500 100).loop cancelOracle (.WithCancel false) freshLoop
        [.recv speedingMsg, .recv secondMsg, .done, .recv hotMsg]).1.world.metrics.DBWriteFailures
      = 2 ∧
    ((DBWriter.mk 500 100).loop cancelOracle (.WithCancel false) freshLoop
        [.recv speedingMsg, .recv secondMsg, .done, .recv hotMsg]).1.world.metrics.DBWriteSuccess
      = 0 ∧
    ((DBWriter.mk 500 100).loop cancelOracle (.WithCancel false) freshLoop
        [.recv speedingMsg, .recv secondMsg, .closed, .recv hotMsg]).1.world.db.vehicle_telemetry
      = [telemetryRow speedingMsg, telemetryRow secondMsg] ∧
    (StateWriter.mk.loop cancelOracle (.WithCancel false) freshLoop
        [.recv speedingMsg, .recv secondMsg, .done, .recv hotMsg]).2 = [.recv hotMsg] ∧
    (StateWriter.mk.loop cancelOracle (.WithCancel false) freshLoop
        [.recv speedingMsg, .recv secondMsg, .done, .recv hotMsg]).1.stopped = true ∧
    (StateWriter.mk.loop cancelOracle (.WithCancel false) freshLoop
        [.recv speedingMsg, .recv secondMsg, .done, .recv hotMsg]).1.world.redis.calls =
      [.PipelineStateUpdate (.WithCancel true) speedingMsg,
       .PipelineStateUpdate (.WithCancel true) secondMsg] ∧
    (StateWriter.mk.loop cancelOracle (.WithCancel false) freshLoop
        [.recv speedingMsg, .recv secondMsg, .done, .recv hotMsg]).1.world.redis.keys
        (vehicleStateKey "v1") = none ∧
    (StateWriter.mk.loop cancelOracle (.WithCancel false) freshLoop
        [.recv speedingMsg, .recv secondMsg, .done, .recv hotMsg]).1.world.redis.keys
        (vehicleStateKey "v2") = none ∧
    (StateWriter.mk.loop cancelOracle (.WithCancel false) freshLoop
        [.recv speedingMsg, .recv secondMsg, .done, .recv hotMsg]).1.world.redis.published
      = [] ∧
    (StateWriter.mk.loop cancelOracle (.WithCancel false) freshLoop
        [.recv speedingMsg, .recv secondMsg, .closed, .recv hotMsg]).1.world.redis.keys
        (vehicleStateKey "v1") =
      some { value := .hash (stateData speedingMsg), expireAt := some (30 * Second) } ∧
    (StateWriter.mk.loop cancelOracle (.WithCancel false) freshLoop
        [.recv speedingMsg, .recv secondMsg, .closed, .recv hotMsg]).1.world.redis.keys
        (vehicleStateKey "v2") =
      some { value := .hash (stateData secondMsg), expireAt := some (30 * Second) } := by
  decide

/-! ## Alert evaluator: the default rules, skipped rules, contexts -/

/-- The dedup check in full: one call is logged, time passes, nothing else
changes, and without a transport fault the answer says whether the key is
live. -/
theorem CheckAlertDedup_full (w : World) (o : Oracle) (ctx : Context) (v : String)
    (t : AlertType) :
    (w.CheckAlertDedup o ctx v t).2.redis.calls =
      w.redis.calls ++ [.CheckAlertDedup ctx v t] ∧
    (w.CheckAlertDedup o ctx v t).2.redis.published = w.redis.published ∧
    (w.CheckAlertDedup o ctx v t).2.redis.keys = w.redis.keys ∧
    (w.CheckAlertDedup o ctx v t).2.db = w.db ∧
    (w.CheckAlertDedup o ctx v t).2.metrics = w.metrics ∧
    w.now ≤ (w.CheckAlertDedup o ctx v t).2.now ∧
    (o.redisFault w.redis.calls.length (.CheckAlertDedup ctx v t) = false →
      w.redis.live (w.CheckAlertDedup o ctx v t).2.now (alertDedupKey v t) = none →
      (w.CheckAlertDedup o ctx v t).1 = (false, none)) := by
  have hl : ∀ now, ((w.advance o).redis.logCall (.CheckAlertDedup ctx v t)).live now
      (alertDedupKey v t) = w.redis.live now (alertDedupKey v t) :=
    fun now => live_congr _ _ rfl _ _
  unfold World.CheckAlertDedup RedisStore.CheckAlertDedup
  simp only []
  split
  · rename_i hf
    refine ⟨by simp [World.advance, RedisStore.logCall], by simp [World.advance, RedisStore.logCall],
      by simp [World.advance, RedisStore.logCall], by simp [World.advance],
      by simp [World.advance], delay_nonneg w o, ?_⟩
    intro hnf
    have : (w.advance o).redis = w.redis := by simp [World.advance]
    rw [this] at hf
    rw [hnf] at hf
    exact absurd hf (by simp)
  · refine ⟨by simp [World.advance, RedisStore.logCall], by simp [World.advance, RedisStore.logCall],
      by simp [World.advance, RedisStore.logCall], by simp [World.advance],
      by simp [World.advance], delay_nonneg w o, ?_⟩
    intro _ hlive
    simp only [RedisStore.cmdExists, hl, hlive]
    simp

/-- The alert insert in full. -/
theorem InsertAlert_full (w : World) (o : Oracle) (ctx : Context) (v f : String)
    (t : AlertType) (sev : AlertSeverity) (x : Float64) :
    (w.InsertAlert o ctx v f t sev x).2.db.calls =
      w.db.calls ++ [.InsertAlert ctx v f t sev x] ∧
    (w.InsertAlert o ctx v f t sev x).2.db.vehicle_telemetry = w.db.vehicle_telemetry ∧
    (w.InsertAlert o ctx v f t sev x).2.redis = w.redis ∧
    (w.InsertAlert o ctx v f t sev x).2.metrics = w.metrics ∧
    w.now ≤ (w.InsertAlert o ctx v f t sev x).2.now ∧
    ((w.InsertAlert o ctx v f t sev x).1 = none →
      (w.InsertAlert o ctx v f t sev x).2.db.vehicle_alerts = w.db.vehicle_alerts ++
        [{ vehicle_id := v, fleet_id := f, alert_type := t, severity := sev,
           triggered_value := x, created_at := (w.InsertAlert o ctx v f t sev x).2.now }]) ∧
    ((w.InsertAlert o ctx v f t sev x).1 ≠ none →
      (w.InsertAlert o ctx v f t sev x).2.db.vehicle_alerts = w.db.vehicle_alerts) ∧
    (o.dbFault w.db.calls.length (.InsertAlert ctx v f t sev x) = false →
      (w.InsertAlert o ctx v f t sev x).1 = none) := by
  unfold World.InsertAlert TimescaleStore.InsertAlert
  simp only []
  split
  · rename_i hf
    have hf' : o.dbFault w.db.calls.length (.InsertAlert ctx v f t sev x) = true := by
      simpa [World.advance] using hf
    simp [World.advance, hf']
  · simp [World.advance]

/-- Setting the dedup mark in full. -/
theorem SetAlertDedup_full (w : World) (o : Oracle) (ctx : Context) (v : String)
    (t : AlertType) :
    (w.SetAlertDedup o ctx v t).2.redis.calls = w.redis.calls ++ [.SetAlertDedup ctx v t] ∧
    (w.SetAlertDedup o ctx v t).2.redis.published = w.redis.published ∧
    (w.SetAlertDedup o ctx v t).2.db = w.db ∧
    (w.SetAlertDedup o ctx v t).2.metrics = w.metrics ∧
    w.now ≤ (w.SetAlertDedup o ctx v t).2.now ∧
    (o.redisFault w.redis.calls.length (.SetAlertDedup ctx v t) = false →
      (w.SetAlertDedup o ctx v t).2.redis.keys = (fun k =>
        if k = alertDedupKey v t then
          some ⟨.str "1", some ((w.SetAlertDedup o ctx v t).2.now + 5 * Minute)⟩
        else w.redis.keys k)) := by
  unfold World.SetAlertDedup RedisStore.SetAlertDedup
  simp only []
  split
  · rename_i hf
    have hf' : o.redisFault w.redis.calls.length (.SetAlertDedup ctx v t) = true := by
      simpa [World.advance] using hf
    simp [World.advance, RedisStore.logCall, hf']
  · simp [World.advance, RedisStore.cmdSet, RedisStore.put, RedisStore.logCall]

/-- Publishing an alert in full. -/
theorem PublishAlert_full (w : World) (o : Oracle) (ctx : Context) (f : String)
    (p : Option Payload) :
    (w.PublishAlert o ctx f p).2.redis.calls = w.redis.calls ++ [.PublishAlert ctx f p] ∧
    (w.PublishAlert o ctx f p).2.redis.keys = w.redis.keys ∧
    (w.PublishAlert o ctx f p).2.db = w.db ∧
    (w.PublishAlert o ctx f p).2.metrics = w.metrics ∧
    w.now ≤ (w.PublishAlert o ctx f p).2.now ∧
    (o.redisFault w.redis.calls.length (.PublishAlert ctx f p) = false →
      (w.PublishAlert o ctx f p).2.redis.published =
        w.redis.published ++ [(alertChannel f, p)]) := by
  unfold World.PublishAlert RedisStore.PublishAlert
  simp only []
  split
  · rename_i hf
    have hf' : o.redisFault w.redis.calls.length (.PublishAlert ctx f p) = true := by
      simpa [World.advance] using hf
    simp [World.advance, RedisStore.logCall, hf']
  · simp [World.advance, RedisStore.cmdPublish, RedisStore.logCall]


/-- A rule that does not fire leaves the world as it is. -/
theorem evalRule_quiet (e : AlertEvaluator) (o : Oracle) (ctx : Context)
    (msg : TelemetryMessage) (w : World) (rule : AlertRule)
    (h : rule.Evaluator msg = false) : e.evalRule o ctx msg w rule = w := by
  simp [AlertEvaluator.evalRule, h]

/-- A firing rule whose dedup check fails or finds a mark stops after the
check. -/
theorem evalRule_stop_at_check (e : AlertEvaluator) (o : Oracle) (ctx : Context)
    (msg : TelemetryMessage) (w : World) (rule : AlertRule)
    (hfire : rule.Evaluator msg = true)
    (h : (w.CheckAlertDedup o ctx msg.VehicleID rule.Typ).1.2 ≠ none ∨
      (w.CheckAlertDedup o ctx msg.VehicleID rule.Typ).1.1 = true) :
    e.evalRule o ctx msg w rule = (w.CheckAlertDedup o ctx msg.VehicleID rule.Typ).2 := by
  unfold AlertEvaluator.evalRule
  rcases hc : w.CheckAlertDedup o ctx msg.VehicleID rule.Typ with ⟨⟨dup, err⟩, w1⟩
  rw [hc] at h
  simp only [] at h
  simp only [hfire, Bool.not_true, Bool.false_eq_true, if_false]
  cases err with
  | some er => simp
  | none =>
    rcases h with h | h
    · exact absurd rfl h
    · simp [h]

/-- A firing rule whose alert insert fails stops after the insert. -/
theorem evalRule_stop_at_insert (e : AlertEvaluator) (o : Oracle) (ctx : Context)
    (msg : TelemetryMessage) (w : World) (rule : AlertRule)
    (hfire : rule.Evaluator msg = true)
    (hc : (w.CheckAlertDedup o ctx msg.VehicleID rule.Typ).1 = (false, none))
    (hi : ((w.CheckAlertDedup o ctx msg.VehicleID rule.Typ).2.InsertAlert o ctx msg.VehicleID
      msg.FleetID rule.Typ rule.Severity (e.getTriggerValue msg rule.Typ)).1 ≠ none) :
    e.evalRule o ctx msg w rule =
      ((w.CheckAlertDedup o ctx msg.VehicleID rule.Typ).2.InsertAlert o ctx msg.VehicleID
        msg.FleetID rule.Typ rule.Severity (e.getTriggerValue msg rule.Typ)).2 := by
  unfold AlertEvaluator.evalRule
  rcases hcr : w.CheckAlertDedup o ctx msg.VehicleID rule.Typ with ⟨⟨dup, err⟩, w1⟩
  rw [hcr] at hc hi
  simp only [Prod.mk.injEq] at hc
  obtain ⟨rfl, rfl⟩ := hc
  simp only [] at hi
  simp only [hfire, Bool.not_true, Bool.false_eq_true, if_false, Option.isSome_none]
  rcases hir : w1.InsertAlert o ctx msg.VehicleID msg.FleetID rule.Typ rule.Severity
    (e.getTriggerValue msg rule.Typ) with ⟨ierr, w2⟩
  rw [hir] at hi
  simp only [] at hi
  cases ierr with
  | none => exact absurd rfl hi
  | some er => simp

/-- A firing rule whose check finds no mark and whose insert succeeds sets the
mark and publishes. -/
theorem evalRule_emit (e : AlertEvaluator) (o : Oracle) (ctx : Context)
    (msg : TelemetryMessage) (w : World) (rule : AlertRule)
    (hfire : rule.Evaluator msg = true)
    (hc : (w.CheckAlertDedup o ctx msg.VehicleID rule.Typ).1 = (false, none))
    (hi : ((w.CheckAlertDedup o ctx msg.VehicleID rule.Typ).2.InsertAlert o ctx msg.VehicleID
      msg.FleetID rule.Typ rule.Severity (e.getTriggerValue msg rule.Typ)).1 = none) :
    e.evalRule o ctx msg w rule =
      ((((w.CheckAlertDedup o ctx msg.VehicleID rule.Typ).2.InsertAlert o ctx msg.VehicleID
        msg.FleetID rule.Typ rule.Severity (e.getTriggerValue msg rule.Typ)).2.SetAlertDedup
        o ctx msg.VehicleID rule.Typ).2.PublishAlert o ctx msg.FleetID
        (jsonMarshal (alertPayload msg rule (e.getTriggerValue msg rule.Typ)
          (((w.CheckAlertDedup o ctx msg.VehicleID rule.Typ).2.InsertAlert o ctx msg.VehicleID
            msg.FleetID rule.Typ rule.Severity (e.getTriggerValue msg rule.Typ)).2.SetAlertDedup
            o ctx msg.VehicleID rule.Typ).2.now)).toOption).2 := by
  unfold AlertEvaluator.evalRule
  rcases hcr : w.CheckAlertDedup o ctx msg.VehicleID rule.Typ with ⟨⟨dup, err⟩, w1⟩
  rw [hcr] at hc hi
  simp only [Prod.mk.injEq] at hc
  obtain ⟨rfl, rfl⟩ := hc
  simp only [] at hi
  simp only [hfire, Bool.not_true, Bool.false_eq_true, if_false, Option.isSome_none]
  rcases hir : w1.InsertAlert o ctx msg.VehicleID msg.FleetID rule.Typ rule.Severity
    (e.getTriggerValue msg rule.Typ) with ⟨ierr, w2⟩
  rw [hir] at hi
  simp only [] at hi
  subst hi
  simp only [Option.isSome_none, Bool.false_eq_true, if_false]


theorem alertDedupKey_inj (v t1 t2 : String) (h : alertDedupKey v t1 = alertDedupKey v t2) :
    t1 = t2 := by
  have := congrArg String.data h
  simp only [alertDedupKey, String.data_append] at this
  have h2 := List.append_cancel_left this
  exact String.ext h2

theorem Emits_refl (ctx : Context) (msg : TelemetryMessage) (w : World) :
    Emits ctx msg w w [] where
  rows := ⟨[], by simp⟩
  inserts := by simp
  calls := ⟨[], by simp⟩
  pubs := ⟨[], by simp⟩
  later := le_refl _
  marks := by simp
  frame := by simp

theorem Emits_trans (ctx : Context) (msg : TelemetryMessage) (w1 w2 w3 : World)
    (as bs : List (AlertType × AlertSeverity × Float64))
    (h12 : Emits ctx msg w1 w2 as) (h23 : Emits ctx msg w2 w3 bs)
    (hd : ∀ a ∈ as, ∀ b ∈ bs, a.1 ≠ b.1) :
    Emits ctx msg w1 w3 (as ++ bs) where
  rows := by
    obtain ⟨r1, e1, m1⟩ := h12.rows
    obtain ⟨r2, e2, m2⟩ := h23.rows
    exact ⟨r1 ++ r2, by rw [e2, e1, List.append_assoc], by simp [m1, m2]⟩
  inserts := by rw [h23.inserts, h12.inserts]; simp
  calls := by
    obtain ⟨c1, e1, m1⟩ := h12.calls
    obtain ⟨c2, e2, m2⟩ := h23.calls
    exact ⟨c1 ++ c2, by rw [e2, e1, List.append_assoc], by simp [m1, m2]⟩
  pubs := by
    obtain ⟨p1, e1, m1⟩ := h12.pubs
    obtain ⟨p2, e2, m2⟩ := h23.pubs
    exact ⟨p1 ++ p2, by rw [e2, e1, List.append_assoc], by simp [m1, m2]⟩
  later := le_trans h12.later h23.later
  marks := by
    intro a ha
    rw [List.mem_append] at ha
    rcases ha with ha | ha
    · obtain ⟨t, h1, h2, hk⟩ := h12.marks a ha
      refine ⟨t, h1, le_trans h2 h23.later, ?_⟩
      rw [h23.frame _ (fun b hb hkey => hd a ha b hb (alertDedupKey_inj _ _ _ hkey))]
      exact hk
    · obtain ⟨t, h1, h2, hk⟩ := h23.marks a ha
      exact ⟨t, le_trans h12.later h1, h2, hk⟩
  frame := by
    intro k hk
    rw [h23.frame k (fun b hb => hk b (List.mem_append_right _ hb)),
      h12.frame k (fun a ha => hk a (List.mem_append_left _ ha))]


/-- A firing rule, when no store call fails and no mark is live for its key,
emits its alert. -/
theorem evalRule_Emits (e : AlertEvaluator) (o : Oracle) (ctx : Context)
    (msg : TelemetryMessage) (w : World) (rule : AlertRule)
    (hr : ∀ n c, o.redisFault n c = false) (hd : ∀ n c, o.dbFault n c = false)
    (hfire : rule.Evaluator msg = true)
    (hmark : ∀ t, w.now ≤ t → w.redis.live t (alertDedupKey msg.VehicleID rule.Typ) = none) :
    Emits ctx msg w (e.evalRule o ctx msg w rule)
      [(rule.Typ, rule.Severity, e.getTriggerValue msg rule.Typ)] := by
  have hc := CheckAlertDedup_full w o ctx msg.VehicleID rule.Typ
  obtain ⟨hc1, hc2, hc3, hc4, -, hc6, hc7⟩ := hc
  have hck := hc7 (hr _ _) (hmark _ hc6)
  have hi := InsertAlert_full (w.CheckAlertDedup o ctx msg.VehicleID rule.Typ).2 o ctx
    msg.VehicleID msg.FleetID rule.Typ rule.Severity (e.getTriggerValue msg rule.Typ)
  obtain ⟨hi1, -, hi3, -, hi5, hi6, -, hi8⟩ := hi
  have hins := hi8 (hd _ _)
  rw [evalRule_emit e o ctx msg w rule hfire hck hins]
  generalize (w.CheckAlertDedup o ctx msg.VehicleID rule.Typ).2 = w1 at *
  generalize hw2 : (w1.InsertAlert o ctx msg.VehicleID msg.FleetID rule.Typ rule.Severity
    (e.getTriggerValue msg rule.Typ)).2 = w2 at *
  have hs := SetAlertDedup_full w2 o ctx msg.VehicleID rule.Typ
  obtain ⟨hs1, hs2, hs3, -, hs5, hs6⟩ := hs
  have hkeys := hs6 (hr _ _)
  generalize (w2.SetAlertDedup o ctx msg.VehicleID rule.Typ).2 = w3 at *
  generalize (jsonMarshal (alertPayload msg rule (e.getTriggerValue msg rule.Typ)
    w3.now)).toOption = payload
  have hp := PublishAlert_full w3 o ctx msg.FleetID payload
  obtain ⟨hp1, hp2, hp3, -, hp5, hp6⟩ := hp
  have hpub := hp6 (hr _ _)
  generalize (w3.PublishAlert o ctx msg.FleetID payload).2 = w4 at *
  have hrows := hi6 hins
  exact {
    rows := ⟨_, by rw [hp3, hs3, hrows, hc4], by simp [AlertRow.content]⟩
    inserts := by rw [hp3, hs3, hi1, hc4]; simp
    calls := ⟨[.CheckAlertDedup ctx msg.VehicleID rule.Typ,
        .SetAlertDedup ctx msg.VehicleID rule.Typ, .PublishAlert ctx msg.FleetID payload],
      by rw [hp1, hs1, hi3, hc1]; simp, by simp [RedisCall.shape]⟩
    pubs := ⟨[(alertChannel msg.FleetID, payload)],
      by rw [hpub, hs2, hi3, hc2], by simp⟩
    later := le_trans hc6 (le_trans hi5 (le_trans hs5 hp5))
    marks := by
      intro a ha
      rw [List.mem_singleton] at ha
      subst ha
      refine ⟨w3.now, le_trans hc6 (le_trans hi5 hs5), hp5, ?_⟩
      rw [hp2, hkeys]
      simp
    frame := by
      intro k hk
      have hne : k ≠ alertDedupKey msg.VehicleID rule.Typ := hk _ (List.mem_singleton.mpr rfl)
      rw [hp2, hkeys]
      simp only [hne, if_false]
      rw [hi3, hc3] }


theorem live_key_congr (r r' : RedisStore) (k : String) (h : r'.keys k = r.keys k) (t : Time) :
    r'.live t k = r.live t k := by
  simp [RedisStore.live, h]

theorem firedAlerts_cons (e : AlertEvaluator) (msg : TelemetryMessage) (rule : AlertRule)
    (rest : List AlertRule) :
    firedAlerts e msg (rule :: rest) =
      (if rule.Evaluator msg then [(rule.Typ, rule.Severity, e.getTriggerValue msg rule.Typ)]
        else []) ++ firedAlerts e msg rest := by
  unfold firedAlerts
  by_cases h : rule.Evaluator msg = true <;> simp [List.filter_cons, h]

theorem firedAlerts_type (e : AlertEvaluator) (msg : TelemetryMessage) (rules : List AlertRule)
    (a : AlertType × AlertSeverity × Float64) (ha : a ∈ firedAlerts e msg rules) :
    ∃ r ∈ rules, r.Evaluator msg = true ∧ a.1 = r.Typ := by
  unfold firedAlerts at ha
  rw [List.mem_map] at ha
  obtain ⟨r, hr, rfl⟩ := ha
  rw [List.mem_filter] at hr
  exact ⟨r, hr.1, hr.2, rfl⟩

/-- The rules of a list with pairwise different types, when no store call fails
and no mark is live for a rule that fires, emit the alerts of the rules that
fire, in rule order. -/
theorem foldl_Emits (e : AlertEvaluator) (o : Oracle) (ctx : Context)
    (msg : TelemetryMessage)
    (hr : ∀ n c, o.redisFault n c = false) (hd : ∀ n c, o.dbFault n c = false)
    (rules : List AlertRule) (hpw : rules.Pairwise (fun a b => a.Typ ≠ b.Typ)) :
    ∀ w : World,
      (∀ r ∈ rules, r.Evaluator msg = true → ∀ t, w.now ≤ t →
        w.redis.live t (alertDedupKey msg.VehicleID r.Typ) = none) →
      Emits ctx msg w (rules.foldl (e.evalRule o ctx msg) w) (firedAlerts e msg rules) := by
  induction rules with
  | nil => intro w _; exact Emits_refl ctx msg w
  | cons rule rest ih =>
    intro w hmark
    rw [List.pairwise_cons] at hpw
    obtain ⟨hne, hrest⟩ := hpw
    rw [List.foldl_cons, firedAlerts_cons]
    by_cases hfire : rule.Evaluator msg = true
    · have h1 := evalRule_Emits e o ctx msg w rule hr hd hfire
        (hmark rule (List.mem_cons_self _ _) hfire)
      have h2 := ih hrest (e.evalRule o ctx msg w rule) (by
        intro r hrin hrf t ht
        have hk : alertDedupKey msg.VehicleID r.Typ ≠ alertDedupKey msg.VehicleID rule.Typ :=
          fun hkey => hne r hrin (alertDedupKey_inj _ _ _ hkey).symm
        rw [live_key_congr _ _ _ (h1.frame _ (by
          intro a ha
          rw [List.mem_singleton] at ha
          subst ha
          exact hk))]
        exact hmark r (List.mem_cons_of_mem _ hrin) hrf t (le_trans h1.later ht))
      simp only [hfire, if_true]
      refine Emits_trans ctx msg _ _ _ _ _ h1 h2 ?_
      intro a ha b hb
      rw [List.mem_singleton] at ha
      subst ha
      obtain ⟨r, hrin, -, hty⟩ := firedAlerts_type e msg rest b hb
      rw [hty]
      exact hne r hrin
    · have hq : rule.Evaluator msg = false := by simpa using hfire
      rw [evalRule_quiet e o ctx msg w rule hq]
      simp only [hq, Bool.false_eq_true, if_false, List.nil_append]
      exact ih hrest w (fun r hrin => hmark r (List.mem_cons_of_mem _ hrin))

/-- The default rules fire exactly the alerts the specification lists. -/
theorem firedAlerts_default (msg : TelemetryMessage) :
    firedAlerts NewAlertEvaluator msg DefaultAlertRules = specAlerts msg := by
  have d1 : ("LOW_FUEL" : String) ≠ "SPEEDING" := by decide
  have d2 : ("ENGINE_OVERHEAT" : String) ≠ "SPEEDING" := by decide
  have d3 : ("ENGINE_OVERHEAT" : String) ≠ "LOW_FUEL" := by decide
  cases h1 : msg.SpeedKmh.gt (.fin 100) <;> cases h2 : msg.FuelPct.lt (.fin 10) <;>
    cases h3 : msg.EngineTempC.gt (.fin 100) <;>
    simp [firedAlerts, DefaultAlertRules, specAlerts, List.filter_cons, h1, h2, h3,
      AlertEvaluator.getTriggerValue, AlertSpeeding, AlertLowFuel, AlertEngineOverheat,
      SeverityWarning, SeverityCritical, d1, d2, d3]

theorem default_types_distinct :
    DefaultAlertRules.Pairwise (fun a b => a.Typ ≠ b.Typ) := by
  simp [DefaultAlertRules, AlertSpeeding, AlertLowFuel, AlertEngineOverheat]


/-- Claim C11.  When no dedup mark of the vehicle is live and no store call
fails, `evaluate` with the default rules inserts exactly one alert row for each
alert the specification lists for the message (SPEEDING/WARNING iff speed >
100, LOW_FUEL/WARNING iff fuel < 10, ENGINE_OVERHEAT/CRITICAL iff engine
temperature > 100, with that reading as trigger value) and none for the others;
for each of them it checks, then sets the dedup mark of the vehicle and type for
five minutes, and publishes once on the alert channel of the fleet. -/
theorem C11_default_rules_emit (o : Oracle) (ctx : Context) (w : World)
    (msg : TelemetryMessage)
    (hr : ∀ n c, o.redisFault n c = false) (hd : ∀ n c, o.dbFault n c = false)
    (hmark : ∀ T ∈ [AlertSpeeding, AlertLowFuel, AlertEngineOverheat], ∀ t, w.now ≤ t →
      w.redis.live t (alertDedupKey msg.VehicleID T) = none) :
    (∃ rows, (NewAlertEvaluator.evaluate o ctx w msg).db.vehicle_alerts =
        w.db.vehicle_alerts ++ rows ∧
      rows.map AlertRow.content =
        (specAlerts msg).map (fun a => (msg.VehicleID, msg.FleetID, a.1, a.2.1, a.2.2))) ∧
    (NewAlertEvaluator.evaluate o ctx w msg).db.calls = w.db.calls ++
      (specAlerts msg).map
        (fun a => DBCall.InsertAlert ctx msg.VehicleID msg.FleetID a.1 a.2.1 a.2.2) ∧
    (∃ calls, (NewAlertEvaluator.evaluate o ctx w msg).redis.calls = w.redis.calls ++ calls ∧
      calls.map RedisCall.shape = (specAlerts msg).flatMap (fun a =>
        [ RedisCall.CheckAlertDedup ctx msg.VehicleID a.1,
          RedisCall.SetAlertDedup ctx msg.VehicleID a.1,
          RedisCall.PublishAlert ctx msg.FleetID none ])) ∧
    (∃ pubs, (NewAlertEvaluator.evaluate o ctx w msg).redis.published =
        w.redis.published ++ pubs ∧
      pubs.map Prod.fst = (specAlerts msg).map (fun _ => alertChannel msg.FleetID)) ∧
    (∀ a ∈ specAlerts msg, ∃ t, w.now ≤ t ∧
      t ≤ (NewAlertEvaluator.evaluate o ctx w msg).now ∧
      (NewAlertEvaluator.evaluate o ctx w msg).redis.keys (alertDedupKey msg.VehicleID a.1) =
        some { value := .str "1", expireAt := some (t + 5 * Minute) }) := by
  have h := foldl_Emits NewAlertEvaluator o ctx msg hr hd DefaultAlertRules
    default_types_distinct w (by
      intro r hrin _ t ht
      apply hmark r.Typ _ t ht
      simp only [DefaultAlertRules, List.mem_cons, List.mem_singleton, List.not_mem_nil,
        or_false] at hrin
      rcases hrin with rfl | rfl | rfl <;> simp)
  rw [firedAlerts_default] at h
  exact ⟨h.rows, h.inserts, h.calls, h.pubs, h.marks⟩

theorem C11_default_rules_emit_witness :
    (∃ rows, (NewAlertEvaluator.evaluate calmOracle .Background emptyWorld hotMsg).db.vehicle_alerts
        = emptyWorld.db.vehicle_alerts ++ rows ∧
      rows.map AlertRow.content =
        [ ("v1", "F", "SPEEDING", "WARNING", .fin 150),
          ("v1", "F", "LOW_FUEL", "WARNING", .fin 5),
          ("v1", "F", "ENGINE_OVERHEAT", "CRITICAL", .fin 110) ]) ∧
    (∃ pubs, (NewAlertEvaluator.evaluate calmOracle .Background emptyWorld hotMsg).redis.published
        = emptyWorld.redis.published ++ pubs ∧
      pubs.map Prod.fst = ["fleet:F:alerts", "fleet:F:alerts", "fleet:F:alerts"]) :=
  have h := C11_default_rules_emit calmOracle .Background emptyWorld hotMsg
    (fun _ _ => rfl) (fun _ _ => rfl) (fun _ _ _ _ => rfl)
  ⟨h.1, h.2.2.2.1⟩

/-- The multi-rule scenario on the code: three rows of three types, three
different dedup keys set, three publications; and readings exactly at the
thresholds insert nothing. -/
theorem multi_rule_scenario :
    (NewAlertEvaluator.evaluate calmOracle .Background emptyWorld hotMsg).db.vehicle_alerts.map
      AlertRow.content =
      [ ("v1", "F", "SPEEDING", "WARNING", .fin 150),
        ("v1", "F", "LOW_FUEL", "WARNING", .fin 5),
        ("v1", "F", "ENGINE_OVERHEAT", "CRITICAL", .fin 110) ] ∧
    ["alert:v1:SPEEDING", "alert:v1:LOW_FUEL", "alert:v1:ENGINE_OVERHEAT"].map
      (fun k => ((NewAlertEvaluator.evaluate calmOracle .Background emptyWorld
        hotMsg).redis.keys k).isSome) = [true, true, true] ∧
    (NewAlertEvaluator.evaluate calmOracle .Background emptyWorld hotMsg).redis.published.length
      = 3 ∧
    (NewAlertEvaluator.evaluate calmOracle .Background emptyWorld boundaryMsg).db.vehicle_alerts
      = [] ∧
    (NewAlertEvaluator.evaluate calmOracle .Background emptyWorld boundaryMsg).redis.calls
      = [] := by
  decide


/-- Claim C12.  For a rule whose predicate holds, reached in the world `w` after
the rules before it: when the dedup check returns an error or reports a mark,
the rule ends with the check (no alert insert, no dedup set, nothing
published); when the check passes and the alert insert returns an error, the
rule ends with the insert (no dedup set, nothing published); in each case
`evaluate` goes on with the rules that follow. -/
theorem C12_failed_rule_is_skipped (e : AlertEvaluator) (o : Oracle) (ctx : Context)
    (msg : TelemetryMessage) (w0 w : World) (pre : List AlertRule) (rule : AlertRule)
    (rest : List AlertRule)
    (hrules : e.rules = pre ++ rule :: rest)
    (hw : w = pre.foldl (e.evalRule o ctx msg) w0)
    (hfire : rule.Evaluator msg = true) :
    (((w.CheckAlertDedup o ctx msg.VehicleID rule.Typ).1.2 ≠ none ∨
        (w.CheckAlertDedup o ctx msg.VehicleID rule.Typ).1.1 = true) →
      (e.evalRule o ctx msg w rule).db = w.db ∧
      (e.evalRule o ctx msg w rule).redis.calls =
        w.redis.calls ++ [.CheckAlertDedup ctx msg.VehicleID rule.Typ] ∧
      (e.evalRule o ctx msg w rule).redis.keys = w.redis.keys ∧
      (e.evalRule o ctx msg w rule).redis.published = w.redis.published) ∧
    ((w.CheckAlertDedup o ctx msg.VehicleID rule.Typ).1 = (false, none) →
      ((w.CheckAlertDedup o ctx msg.VehicleID rule.Typ).2.InsertAlert o ctx msg.VehicleID
        msg.FleetID rule.Typ rule.Severity (e.getTriggerValue msg rule.Typ)).1 ≠ none →
      (e.evalRule o ctx msg w rule).db.vehicle_alerts = w.db.vehicle_alerts ∧
      (e.evalRule o ctx msg w rule).db.calls = w.db.calls ++
        [.InsertAlert ctx msg.VehicleID msg.FleetID rule.Typ rule.Severity
          (e.getTriggerValue msg rule.Typ)] ∧
      (e.evalRule o ctx msg w rule).redis.calls =
        w.redis.calls ++ [.CheckAlertDedup ctx msg.VehicleID rule.Typ] ∧
      (e.evalRule o ctx msg w rule).redis.keys = w.redis.keys ∧
      (e.evalRule o ctx msg w rule).redis.published = w.redis.published) ∧
    e.evaluate o ctx w0 msg =
      rest.foldl (e.evalRule o ctx msg) (e.evalRule o ctx msg w rule) := by
  have hc := CheckAlertDedup_full w o ctx msg.VehicleID rule.Typ
  refine ⟨?_, ?_, ?_⟩
  · intro h
    rw [evalRule_stop_at_check e o ctx msg w rule hfire h]
    exact ⟨hc.2.2.2.1, hc.1, hc.2.2.1, hc.2.1⟩
  · intro hck hins
    rw [evalRule_stop_at_insert e o ctx msg w rule hfire hck hins]
    have hi := InsertAlert_full (w.CheckAlertDedup o ctx msg.VehicleID rule.Typ).2 o ctx
      msg.VehicleID msg.FleetID rule.Typ rule.Severity (e.getTriggerValue msg rule.Typ)
    refine ⟨?_, ?_, ?_, ?_, ?_⟩
    · rw [hi.2.2.2.2.2.2.1 hins, hc.2.2.2.1]
    · rw [hi.1, hc.2.2.2.1]
    · rw [hi.2.2.1, hc.1]
    · rw [hi.2.2.1, hc.2.2.1]
    · rw [hi.2.2.1, hc.2.1]
  · unfold AlertEvaluator.evaluate
    rw [hrules, List.foldl_append, List.foldl_cons, hw]

theorem C12_failed_rule_is_skipped_witness :
    ((NewAlertEvaluator.evalRule redisDownOracle .Background hotMsg emptyWorld speedingRule).db
        = emptyWorld.db ∧
      (NewAlertEvaluator.evalRule redisDownOracle .Background hotMsg emptyWorld
        speedingRule).redis.calls
        = emptyWorld.redis.calls ++ [.CheckAlertDedup .Background "v1" "SPEEDING"]) ∧
    ((NewAlertEvaluator.evalRule dbDownOracle .Background hotMsg emptyWorld
        speedingRule).db.vehicle_alerts = emptyWorld.db.vehicle_alerts ∧
      (NewAlertEvaluator.evalRule dbDownOracle .Background hotMsg emptyWorld
        speedingRule).redis.calls
        = emptyWorld.redis.calls ++ [.CheckAlertDedup .Background "v1" "SPEEDING"]) ∧
    (NewAlertEvaluator.evaluate dbDownOracle .Background emptyWorld hotMsg).db.calls.length
      = 3 :=
  have h1 := (C12_failed_rule_is_skipped NewAlertEvaluator redisDownOracle .Background hotMsg
    emptyWorld emptyWorld [] speedingRule (DefaultAlertRules.drop 1) rfl rfl rfl).1
    (Or.inl (by decide))
  have h2 := C12_failed_rule_is_skipped NewAlertEvaluator dbDownOracle .Background hotMsg
    emptyWorld emptyWorld [] speedingRule (DefaultAlertRules.drop 1) rfl rfl rfl
  have h3 := h2.2.1 rfl (by decide)
  ⟨⟨h1.1, h1.2.1⟩, ⟨h3.1, h3.2.2.1⟩, by rw [h2.2.2]; decide⟩

/-- Every store call of one rule is made with the context given to
`evaluate`. -/
theorem evalRule_ctx (e : AlertEvaluator) (o : Oracle) (ctx : Context)
    (msg : TelemetryMessage) (w : World) (rule : AlertRule) :
    ∃ nr nd, (e.evalRule o ctx msg w rule).redis.calls = w.redis.calls ++ nr ∧
      (∀ c ∈ nr, RedisCall.ctx c = ctx) ∧
      (e.evalRule o ctx msg w rule).db.calls = w.db.calls ++ nd ∧
      (∀ c ∈ nd, DBCall.ctx c = ctx) := by
  by_cases hfire : rule.Evaluator msg = true
  swap
  · rw [evalRule_quiet e o ctx msg w rule (by simpa using hfire)]
    exact ⟨[], [], by simp, by simp, by simp, by simp⟩
  have hc := CheckAlertDedup_full w o ctx msg.VehicleID rule.Typ
  by_cases hstop : (w.CheckAlertDedup o ctx msg.VehicleID rule.Typ).1.2 ≠ none ∨
      (w.CheckAlertDedup o ctx msg.VehicleID rule.Typ).1.1 = true
  · rw [evalRule_stop_at_check e o ctx msg w rule hfire hstop]
    exact ⟨[.CheckAlertDedup ctx msg.VehicleID rule.Typ], [], hc.1,
      by simp [RedisCall.ctx], by rw [hc.2.2.2.1]; simp, by simp⟩
  have hck : (w.CheckAlertDedup o ctx msg.VehicleID rule.Typ).1 = (false, none) := by
    rw [not_or, not_not] at hstop
    obtain ⟨h1, h2⟩ := hstop
    have h3 : (w.CheckAlertDedup o ctx msg.VehicleID rule.Typ).1.1 = false := by
      simpa using h2
    exact Prod.ext h3 h1
  have hi := InsertAlert_full (w.CheckAlertDedup o ctx msg.VehicleID rule.Typ).2 o ctx
    msg.VehicleID msg.FleetID rule.Typ rule.Severity (e.getTriggerValue msg rule.Typ)
  by_cases hins : ((w.CheckAlertDedup o ctx msg.VehicleID rule.Typ).2.InsertAlert o ctx
      msg.VehicleID msg.FleetID rule.Typ rule.Severity
      (e.getTriggerValue msg rule.Typ)).1 = none
  · rw [evalRule_emit e o ctx msg w rule hfire hck hins]
    generalize (w.CheckAlertDedup o ctx msg.VehicleID rule.Typ).2 = w1 at *
    generalize (w1.InsertAlert o ctx msg.VehicleID msg.FleetID rule.Typ rule.Severity
      (e.getTriggerValue msg rule.Typ)).2 = w2 at *
    have hs := SetAlertDedup_full w2 o ctx msg.VehicleID rule.Typ
    generalize (w2.SetAlertDedup o ctx msg.VehicleID rule.Typ).2 = w3 at *
    generalize (jsonMarshal (alertPayload msg rule (e.getTriggerValue msg rule.Typ)
      w3.now)).toOption = payload
    have hp := PublishAlert_full w3 o ctx msg.FleetID payload
    refine ⟨[.CheckAlertDedup ctx msg.VehicleID rule.Typ,
        .SetAlertDedup ctx msg.VehicleID rule.Typ, .PublishAlert ctx msg.FleetID payload],
      [.InsertAlert ctx msg.VehicleID msg.FleetID rule.Typ rule.Severity
        (e.getTriggerValue msg rule.Typ)], ?_, by simp [RedisCall.ctx], ?_,
      by simp [DBCall.ctx]⟩
    · rw [hp.1, hs.1, hi.2.2.1, hc.1]
      simp
    · rw [hp.2.2.1, hs.2.2.1, hi.1, hc.2.2.2.1]
  · rw [evalRule_stop_at_insert e o ctx msg w rule hfire hck hins]
    refine ⟨[.CheckAlertDedup ctx msg.VehicleID rule.Typ],
      [.InsertAlert ctx msg.VehicleID msg.FleetID rule.Typ rule.Severity
        (e.getTriggerValue msg rule.Typ)], ?_, by simp [RedisCall.ctx], ?_,
      by simp [DBCall.ctx]⟩
    · rw [hi.2.2.1, hc.1]
    · rw [hi.1, hc.2.2.2.1]

theorem foldl_evalRule_ctx (e : AlertEvaluator) (o : Oracle) (ctx : Context)
    (msg : TelemetryMessage) (rules : List AlertRule) :
    ∀ w : World, ∃ nr nd,
      (rules.foldl (e.evalRule o ctx msg) w).redis.calls = w.redis.calls ++ nr ∧
      (∀ c ∈ nr, RedisCall.ctx c = ctx) ∧
      (rules.foldl (e.evalRule o ctx msg) w).db.calls = w.db.calls ++ nd ∧
      (∀ c ∈ nd, DBCall.ctx c = ctx) := by
  induction rules with
  | nil => intro w; exact ⟨[], [], by simp, by simp, by simp, by simp⟩
  | cons rule rest ih =>
    intro w
    obtain ⟨r1, d1, h1, h2, h3, h4⟩ := evalRule_ctx e o ctx msg w rule
    obtain ⟨r2, d2, g1, g2, g3, g4⟩ := ih (e.evalRule o ctx msg w rule)
    refine ⟨r1 ++ r2, d1 ++ d2, ?_, ?_, ?_, ?_⟩
    · rw [List.foldl_cons, g1, h1, List.append_assoc]
    · intro c hc
      rw [List.mem_append] at hc
      rcases hc with hc | hc
      · exact h2 c hc
      · exact g2 c hc
    · rw [List.foldl_cons, g3, h3, List.append_assoc]
    · intro c hc
      rw [List.mem_append] at hc
      rcases hc with hc | hc
      · exact h4 c hc
      · exact g4 c hc

/-- Every store call of the alert evaluator is made with the background
context. -/
theorem AlertEvaluator_Run_background (e : AlertEvaluator) (o : Oracle)
    (events : List AlertEvent) :
    ∀ w : World, ∃ nr nd,
      (e.Run o w events).1.redis.calls = w.redis.calls ++ nr ∧
      (∀ c ∈ nr, RedisCall.ctx c = .Background) ∧
      (e.Run o w events).1.db.calls = w.db.calls ++ nd ∧
      (∀ c ∈ nd, DBCall.ctx c = .Background) := by
  induction events with
  | nil => intro w; exact ⟨[], [], by simp [AlertEvaluator.Run], by simp,
      by simp [AlertEvaluator.Run], by simp⟩
  | cons ev es ih =>
    intro w
    cases ev with
    | closed => exact ⟨[], [], by simp [AlertEvaluator.Run], by simp,
        by simp [AlertEvaluator.Run], by simp⟩
    | done => exact ⟨[], [], by simp [AlertEvaluator.Run], by simp,
        by simp [AlertEvaluator.Run], by simp⟩
    | recv msg =>
      obtain ⟨r1, d1, h1, h2, h3, h4⟩ := foldl_evalRule_ctx e o .Background msg e.rules w
      obtain ⟨r2, d2, g1, g2, g3, g4⟩ := ih (e.evaluate o .Background w msg)
      simp only [AlertEvaluator.evaluate] at g1 g3
      refine ⟨r1 ++ r2, d1 ++ d2, ?_, ?_, ?_, ?_⟩
      · simp only [AlertEvaluator.Run, AlertEvaluator.evaluate]
        rw [g1, h1, List.append_assoc]
      · intro c hc
        rw [List.mem_append] at hc
        rcases hc with hc | hc
        · exact h2 c hc
        · exact g2 c hc
      · simp only [AlertEvaluator.Run, AlertEvaluator.evaluate]
        rw [g3, h3, List.append_assoc]
      · intro c hc
        rw [List.mem_append] at hc
        rcases hc with hc | hc
        · exact h4 c hc
        · exact g4 c hc

/-- Claim C13, on the code.  A bulk writer and a state writer started with a
cancellable context pass that context to the store, on a tick as well as in
the flush after the shutdown signal, when it is already cancelled; only the
alert evaluator calls the stores with the background context. -/
theorem C13_writers_pass_worker_context :
    ((DBWriter.mk 500 100).loop calmOracle (.WithCancel false) freshLoop
        [.recv speedingMsg, .tick]).1.world.db.calls
      = [.BatchInsert (.WithCancel false) [speedingMsg]] ∧
    ((DBWriter.mk 500 100).loop calmOracle (.WithCancel false) freshLoop
        [.recv speedingMsg, .done]).1.world.db.calls
      = [.BatchInsert (.WithCancel true) [speedingMsg]] ∧
    (StateWriter.mk.loop calmOracle (.WithCancel false) freshLoop
        [.recv speedingMsg, .tick]).1.world.redis.calls
      = [.PipelineStateUpdate (.WithCancel false) speedingMsg] ∧
    (StateWriter.mk.loop calmOracle (.WithCancel false) freshLoop
        [.recv speedingMsg, .done]).1.world.redis.calls
      = [.PipelineStateUpdate (.WithCancel true) speedingMsg] ∧
    (NewAlertEvaluator.Run calmOracle emptyWorld [.recv speedingMsg]).1.redis.calls.map
        RedisCall.ctx = [.Background, .Background, .Background] ∧
    (NewAlertEvaluator.Run calmOracle emptyWorld [.recv speedingMsg]).1.db.calls.map
        DBCall.ctx = [.Background] := by
  decide

/-! ## State update: the fields of the state hash -/

theorem geoKey_ne_vehicleStateKey (f v : String) : geoKey f ≠ vehicleStateKey v := by
  intro h
  have := congrArg String.data h
  simp [geoKey, vehicleStateKey, String.data_append] at this

theorem geoKey_ne_apiKeyKey (f k : String) : geoKey f ≠ apiKeyKey k := by
  intro h
  have := congrArg String.data h
  simp [geoKey, apiKeyKey, String.data_append] at this

theorem put_keys (r : RedisStore) (key : String) (e : RedisEntry) (k : String) :
    (r.put key e).keys k = if k = key then some e else r.keys k := by
  simp [RedisStore.put]

theorem live_some (r : RedisStore) (now : Time) (k : String) (e : RedisEntry)
    (h : r.live now k = some e) :
    r.keys k = some e ∧ ∀ t, e.expireAt = some t → now < t := by
  unfold RedisStore.live at h
  cases hk : r.keys k with
  | none => rw [hk] at h; simp at h
  | some e0 =>
    rw [hk] at h
    simp only [] at h
    cases hx : e0.expireAt with
    | none =>
      rw [hx] at h
      simp only [Option.some.injEq] at h
      subst h
      exact ⟨rfl, fun t ht => by rw [hx] at ht; simp at ht⟩
    | some t0 =>
      rw [hx] at h
      simp only [] at h
      split at h
      · rename_i hlt
        simp only [Option.some.injEq] at h
        subst h
        exact ⟨rfl, fun t ht => by
          rw [hx] at ht
          simp only [Option.some.injEq] at ht
          subst ht
          exact hlt⟩
      · simp at h

/-- Command `HSET` changes no other key. -/
theorem cmdHSet_keys_other (r : RedisStore) (now : Time) (key : String)
    (f : List (String × Value)) (k : String) (h : k ≠ key) :
    (r.cmdHSet now key f).2.keys k = r.keys k := by
  unfold RedisStore.cmdHSet
  split
  · simp [put_keys, h]
  · split <;> simp [put_keys, h]

/-- Command `EXPIRE` changes no other key. -/
theorem cmdExpire_keys_other (r : RedisStore) (now : Time) (key : String) (d : Duration)
    (k : String) (h : k ≠ key) :
    (r.cmdExpire now key d).keys k = r.keys k := by
  unfold RedisStore.cmdExpire
  split <;> simp [put_keys, h]

/-- Command `GEOADD` changes no other key. -/
theorem cmdGeoAdd_keys_other (r : RedisStore) (now : Time) (key n : String) (x y : Float64)
    (k : String) (h : k ≠ key) :
    (r.cmdGeoAdd now key n x y).2.keys k = r.keys k := by
  unfold RedisStore.cmdGeoAdd
  split
  · simp
  · split
    · simp [put_keys, h]
    · split <;> simp [put_keys, h]

/-- The grouped state update changes no key besides the state key of the
vehicle and the geo key of the fleet. -/
theorem PipelineStateUpdate_keys_other (r : RedisStore) (now : Time) (fault : Bool)
    (ctx : Context) (msg : TelemetryMessage) (k : String)
    (h1 : k ≠ vehicleStateKey msg.VehicleID) (h2 : k ≠ geoKey msg.FleetID) :
    (r.PipelineStateUpdate now fault ctx msg).2.keys k = r.keys k := by
  unfold RedisStore.PipelineStateUpdate
  simp only []
  split
  · simp [RedisStore.logCall]
  · split
    · simp [RedisStore.logCall]
    · split <;>
        simp only [RedisStore.cmdPublish] <;>
        rw [cmdGeoAdd_keys_other _ _ _ _ _ _ _ h2, cmdExpire_keys_other _ _ _ _ _ h1,
          cmdHSet_keys_other _ _ _ _ _ h1] <;>
        simp [RedisStore.logCall]

/-- The answer of `GetAPIKey` depends on the entry of the credential key only. -/
theorem GetAPIKey_congr (r r' : RedisStore) (now : Time) (fault : Bool) (ctx : Context)
    (K : String) (h : r'.keys (apiKeyKey K) = r.keys (apiKeyKey K)) :
    (r'.GetAPIKey now fault ctx K).1 = (r.GetAPIKey now fault ctx K).1 := by
  have hl : ∀ c, (r'.logCall c).live now (apiKeyKey K) = (r.logCall c).live now (apiKeyKey K) := by
    intro c
    simp [RedisStore.live, RedisStore.logCall, h]
  unfold RedisStore.GetAPIKey
  simp only [RedisStore.cmdGet, hl]
  split
  · rfl
  · split <;> simp_all

/-- When the state key of the vehicle is not the credential key, a state update
leaves the answer of `GetAPIKey` as it was. -/
theorem GetAPIKey_after_state_update (r : RedisStore) (now now2 : Time) (fault fault2 : Bool)
    (ctx ctx2 : Context) (msg : TelemetryMessage) (K : String)
    (h : vehicleStateKey msg.VehicleID ≠ apiKeyKey K) :
    ((r.PipelineStateUpdate now fault ctx msg).2.GetAPIKey now2 fault2 ctx2 K).1 =
      (r.GetAPIKey now2 fault2 ctx2 K).1 :=
  GetAPIKey_congr _ _ _ _ _ _
    (PipelineStateUpdate_keys_other r now fault ctx msg _ (fun e => h e.symm)
      (fun e => geoKey_ne_apiKeyKey _ _ e.symm))


theorem lookup_append_left (k : String) (v : Value) (l1 l2 : List (String × Value))
    (h : l1.lookup k = some v) : (l1 ++ l2).lookup k = some v := by
  induction l1 with
  | nil => simp at h
  | cons a l ih =>
    obtain ⟨a1, a2⟩ := a
    simp only [List.cons_append, List.lookup_cons] at h ⊢
    split
    · rename_i heq
      rw [heq] at h
      exact h
    · rename_i heq
      rw [heq] at h
      exact ih h

theorem lookup_mem (k : String) (v : Value) (l : List (String × Value))
    (h : l.lookup k = some v) : ∃ kv ∈ l, kv.2 = v := by
  induction l with
  | nil => simp at h
  | cons a l ih =>
    obtain ⟨a1, a2⟩ := a
    simp only [List.lookup_cons] at h
    split at h
    · simp only [Option.some.injEq] at h
      exact ⟨(a1, a2), List.mem_cons_self _ _, h⟩
    · obtain ⟨kv, hkv, hv⟩ := ih h
      exact ⟨kv, List.mem_cons_of_mem _ hkv, hv⟩

/-- A successful `HSET` leaves a live hash under the key that holds every
field written. -/
theorem cmdHSet_ok (r : RedisStore) (now : Time) (key : String) (f : List (String × Value))
    (h : (r.cmdHSet now key f).1 = none) :
    ∃ e fs, (r.cmdHSet now key f).2.live now key = some e ∧ e.value = .hash fs ∧
      ∀ n v, f.lookup n = some v → fs.lookup n = some v := by
  cases hl : r.live now key with
  | none =>
    have h2 : (r.cmdHSet now key f).2 = r.put key { value := .hash f, expireAt := none } := by
      simp only [RedisStore.cmdHSet, hl]
    refine ⟨{ value := .hash f, expireAt := none }, f, ?_, rfl, fun _ _ hv => hv⟩
    rw [h2]
    simp [RedisStore.live, put_keys]
  | some e =>
    obtain ⟨hk, hexp⟩ := live_some r now key e hl
    obtain ⟨v, x⟩ := e
    cases v with
    | hash old =>
      have h2 : (r.cmdHSet now key f).2 =
          r.put key { value := .hash (hashMerge old f), expireAt := x } := by
        simp only [RedisStore.cmdHSet, hl]
      refine ⟨{ value := .hash (hashMerge old f), expireAt := x }, hashMerge old f, ?_, rfl, ?_⟩
      · rw [h2]
        simp only [RedisStore.live, put_keys, if_true]
        cases x with
        | none => rfl
        | some t => simp [hexp t rfl]
      · intro n v hnv
        exact lookup_append_left n v f _ hnv
    | str s => simp [RedisStore.cmdHSet, hl] at h
    | geo ms => simp [RedisStore.cmdHSet, hl] at h

theorem cmdExpire_live (r : RedisStore) (now : Time) (key : String) (d : Duration)
    (e : RedisEntry) (h : r.live now key = some e) :
    (r.cmdExpire now key d).keys key = some { e with expireAt := some (now + d) } := by
  unfold RedisStore.cmdExpire
  rw [h]
  simp [put_keys]

theorem firstErr_none (a b : Option Error) (h : firstErr a b = none) : a = none ∧ b = none := by
  cases a <;> cases b <;> simp_all [firstErr]

/-- After a state update that returns no error, the key `vehicle:{id}:state`
holds a hash, expiring thirty seconds later, with a field for each of the
readings speed, fuel percent, engine temperature and battery voltage that
holds the value of the message; the fields do not depend on the odometer
reading. -/
theorem state_hash_fields (r : RedisStore) (now : Time) (fault : Bool) (ctx : Context)
    (msg : TelemetryMessage)
    (hok : (r.PipelineStateUpdate now fault ctx msg).1 = none) :
    (∃ fs, (r.PipelineStateUpdate now fault ctx msg).2.keys (vehicleStateKey msg.VehicleID) =
        some { value := .hash fs, expireAt := some (now + 30 * Second) } ∧
      fs.lookup "speed_kmh" = some (.num msg.SpeedKmh) ∧
      fs.lookup "fuel_pct" = some (.num msg.FuelPct) ∧
      fs.lookup "engine_temp" = some (.num msg.EngineTempC) ∧
      fs.lookup "battery" = some (.num msg.BatteryVoltage)) ∧
    (∀ x, stateData { msg with OdometerKm := x } = stateData msg) := by
  refine ⟨?_, fun _ => rfl⟩
  unfold RedisStore.PipelineStateUpdate at hok ⊢
  simp only [] at hok ⊢
  split at hok
  · simp at hok
  · rename_i pay hpay
    split at hok
    · simp at hok
    · rename_i hfault
      rw [if_neg hfault]
      split at hok
      · simp at hok
      · rename_i herr
        simp only [herr]
        obtain ⟨he1, -⟩ := firstErr_none _ _ herr
        obtain ⟨e, fs, hlive, hval, hfs⟩ := cmdHSet_ok _ now _ _ he1
        have hexp := cmdExpire_live _ now (vehicleStateKey msg.VehicleID) (30 * Second) e hlive
        refine ⟨fs, ?_, hfs _ _ (by simp [stateData, List.lookup]),
          hfs _ _ (by simp [stateData, List.lookup]),
          hfs _ _ (by simp [stateData, List.lookup]),
          hfs _ _ (by simp [stateData, List.lookup])⟩
        simp only [RedisStore.cmdPublish]
        rw [cmdGeoAdd_keys_other _ _ _ _ _ _ _ (fun h => geoKey_ne_vehicleStateKey _ _ h.symm),
          hexp]
        cases e with
        | mk v x =>
          simp only [] at hval
          subst hval
          rfl

/-- Claim C14, on the code.  The state update of a reading with
odometer 1000 succeeds and sets the hash of `vehicle:v1:state` to the twelve
fields of `stateData`: speed, fuel percent, engine temperature and battery
voltage are there with the values of the message, but no field holds the
odometer reading, which the row for the time-series store does carry.  For
every message the hash has the same twelve field names, none for the
odometer, and its content does not depend on the odometer reading. -/
theorem C14_state_hash_lacks_odometer :
    (emptyRedis.PipelineStateUpdate 0 false .Background speedingMsg).1 = none ∧
    (emptyRedis.PipelineStateUpdate 0 false .Background speedingMsg).2.keys
        (vehicleStateKey "v1") =
      some { value := .hash (stateData speedingMsg), expireAt := some (30 * Second) } ∧
    speedingMsg.OdometerKm = .fin 1000 ∧
    (telemetryRow speedingMsg).odometer_km = .fin 1000 ∧
    (∀ kv ∈ stateData speedingMsg, kv.2 ≠ .num speedingMsg.OdometerKm) ∧
    ((stateData speedingMsg).lookup "speed_kmh" = some (.num (.fin 120)) ∧
      (stateData speedingMsg).lookup "fuel_pct" = some (.num (.fin 50)) ∧
      (stateData speedingMsg).lookup "engine_temp" = some (.num (.fin 80)) ∧
      (stateData speedingMsg).lookup "battery" = some (.num (.fin 12))) ∧
    (∀ msg : TelemetryMessage, (stateData msg).map Prod.fst =
      ["vehicle_id", "fleet_id", "lat", "lng", "speed_kmh", "fuel_pct", "engine_temp",
       "battery", "is_moving", "engine_on", "timestamp", "received_at"]) ∧
    (∀ (msg : TelemetryMessage) (x : Float64),
      stateData { msg with OdometerKm := x } = stateData msg) := by
  refine ⟨by decide, by decide, by decide, by decide, by decide, by decide,
    fun _ => rfl, fun _ _ => rfl⟩

/-! ## Bulk writer: the batch maximum -/

/-- One iteration keeps the buffer of the bulk writer below the maximum. -/
theorem DBWriter_handle_below (w : DBWriter) (o : Oracle) (ctx : Context) (s : Loop)
    (e : Event) (hm : 1 ≤ w.batchSize) (hs : (s.batch.length : Int) < w.batchSize) :
    ((w.handle o ctx s e).batch.length : Int) < w.batchSize := by
  cases e with
  | recv msg =>
    unfold DBWriter.handle
    simp only []
    split
    · simp only [List.length_nil]
      push_cast
      omega
    · rename_i h
      simpa using h
  | tick =>
    unfold DBWriter.handle
    simp only []
    split
    · simp only [List.length_nil]
      push_cast
      omega
    · exact hs
  | closed =>
    unfold DBWriter.handle
    simp only []
    split <;> exact hs
  | done =>
    unfold DBWriter.handle
    simp only []
    split <;> exact hs

theorem DBWriter_loop_below (w : DBWriter) (o : Oracle) (ctx : Context)
    (hm : 1 ≤ w.batchSize) (events : List Event) :
    ∀ s : Loop, (s.batch.length : Int) < w.batchSize →
      ((w.loop o ctx s events).1.batch.length : Int) < w.batchSize := by
  induction events with
  | nil => intro s hs; simpa [DBWriter.loop] using hs
  | cons e es ih =>
    intro s hs
    have h1 := DBWriter_handle_below w o ctx s e hm hs
    by_cases hst : (w.handle o ctx s e).stopped = true
    · simp only [DBWriter.loop, hst, if_true]
      exact h1
    · have hst' : (w.handle o ctx s e).stopped = false := by simpa using hst
      rw [DBWriter_loop_cons w o ctx s e es hst']
      exact ih _ h1

/-- Claim C15.  For a bulk writer with maximum batch size at least 1: after
the events handled so far the buffer holds fewer messages than the maximum; the
message that brings the buffer to the maximum triggers one flush of exactly
the buffered messages followed by this message, and leaves the buffer empty;
a tick on an empty buffer changes nothing (no bulk insert, no counter). -/
theorem C15_batch_below_maximum (w : DBWriter) (o : Oracle) (ctx : Context)
    (hm : 1 ≤ w.batchSize) :
    (∀ (world : World) (events : List Event),
      0 < wrapInt64 (w.flushMS * Millisecond) →
      ∃ out, w.Run o ctx world events = some out ∧
        (out.1.batch.length : Int) < w.batchSize) ∧
    (∀ (s : Loop) (events : List Event), (s.batch.length : Int) < w.batchSize →
      ((w.loop o ctx s events).1.batch.length : Int) < w.batchSize) ∧
    (∀ (s : Loop) (msg : TelemetryMessage), (s.batch.length : Int) + 1 = w.batchSize →
      (w.handle o ctx s (.recv msg)).batch = [] ∧
      (w.handle o ctx s (.recv msg)).world = w.flush o s.world ctx (s.batch ++ [msg]) ∧
      ((s.batch ++ [msg]).length : Int) = w.batchSize ∧
      (((w.handle o ctx s (.recv msg)).world.db.calls =
            s.world.db.calls ++ [.BatchInsert ctx (s.batch ++ [msg])] ∧
          (w.handle o ctx s (.recv msg)).world.db.vehicle_telemetry =
            s.world.db.vehicle_telemetry ++ (s.batch ++ [msg]).map telemetryRow) ∨
        ((w.handle o ctx s (.recv msg)).world.db.calls = s.world.db.calls ++
            [.BatchInsert ctx (s.batch ++ [msg]), .BatchInsert ctx (s.batch ++ [msg])] ∧
          ((w.handle o ctx s (.recv msg)).world.db.vehicle_telemetry =
              s.world.db.vehicle_telemetry ++ (s.batch ++ [msg]).map telemetryRow ∨
            (w.handle o ctx s (.recv msg)).world.db.vehicle_telemetry =
              s.world.db.vehicle_telemetry)))) ∧
    (∀ (s : Loop), s.batch = [] → w.handle o ctx s .tick = s) := by
  refine ⟨?_, ?_, ?_, ?_⟩
  · intro world events ht
    refine ⟨_, ?_, DBWriter_loop_below w o ctx hm events
      { batch := [], world := world, taken := 0, stopped := false } (by simpa using hm)⟩
    unfold DBWriter.Run
    rw [if_neg (by omega), if_neg (by omega)]
  · intro s events hs
    exact DBWriter_loop_below w o ctx hm events s hs
  · intro s msg hlen
    have hfull : ((s.batch ++ [msg]).length : Int) ≥ w.batchSize := by
      simp only [List.length_append, List.length_singleton]
      push_cast
      omega
    have hh : w.handle o ctx s (.recv msg) =
        { s with batch := [], world := w.flush o s.world ctx (s.batch ++ [msg]),
                 taken := s.taken + 1 } := by
      simp only [DBWriter.handle, if_pos hfull]
    rw [hh]
    refine ⟨rfl, rfl, ?_, (flush_calls_rows w o s.world ctx (s.batch ++ [msg])).2⟩
    simp only [List.length_append, List.length_singleton]
    push_cast
    omega
  · intro s hb
    simp [DBWriter.handle, hb]

theorem C15_batch_below_maximum_witness :
    (∃ out, (DBWriter.mk 2 100).Run calmOracle (.WithCancel false) emptyWorld
        [.recv speedingMsg, .recv speedingMsg, .tick, .recv speedingMsg] = some out ∧
      (out.1.batch.length : Int) < 2) ∧
    ((DBWriter.mk 2 100).handle calmOracle (.WithCancel false)
        { freshLoop with batch := [speedingMsg] } (.recv speedingMsg)).batch = [] ∧
    (DBWriter.mk 2 100).handle calmOracle (.WithCancel false) freshLoop .tick = freshLoop :=
  have h := C15_batch_below_maximum (DBWriter.mk 2 100) calmOracle (.WithCancel false)
    (by decide)
  ⟨h.1 emptyWorld _ (by decide),
   (h.2.2.1 { freshLoop with batch := [speedingMsg] } speedingMsg (by decide)).1,
   h.2.2.2 freshLoop rfl⟩

/-! ## State keys and credential keys -/

/-- Claim C16, on the code.  The state key of the vehicle id `auth` is the
credential key of the API key `state`.  With that credential in the store, a
state update for vehicle `auth` fails on the hash but puts the expiry of thirty
seconds on the credential: forty seconds later the lookup of the key, which
returned the identity before, returns nothing. -/
theorem C16_state_update_expires_credential :
    vehicleStateKey "auth" = apiKeyKey "state" ∧
    (stateKeyRedis.GetAPIKey (40 * Second) false .Background "state").1 = ("fleet_x", none) ∧
    (stateKeyRedis.PipelineStateUpdate 0 false .Background authMsg).1
      = some "redis pipeline failed: WRONGTYPE" ∧
    ((stateKeyRedis.PipelineStateUpdate 0 false .Background authMsg).2.GetAPIKey (40 * Second)
      false .Background "state").1 = ("", none) := by
  decide

end FleetIngestion
